import Mathlib

/-!
# Channel participant controllers (profile/profile_channel_controllers.cpp)

A shallow embedding of the list controllers that drive the admins / restricted /
kicked dialogs and the "add participant" dialog, together with their search
controllers.  `UserData*` pointers are represented by user ids, request ids
(`int32`, handed out by the sender in increasing order) by natural numbers, `std::map` and
`std::set` members by association lists and lists without duplicates, and the
objects a controller shares with its search controller (`_additional`, the list
delegate, the request sender) are flattened into one record per dialog.
-/

namespace Profile

abbrev UserId := Nat

/-! ## Containers -/

/-- Association list standing for a `std::map`. -/
abbrev Dict (κ α : Type) := List (κ × α)

/-- Lookup, `map.find(k)`: the value stored under the first entry with key `k`. -/
def Dict.find {κ α : Type} [DecidableEq κ] : Dict κ α → κ → Option α
  | [], _ => none
  | (k', v) :: m, k => if k' = k then some v else Dict.find m k

/-- Removal, `map.erase(k)`. -/
def Dict.erase {κ α : Type} [DecidableEq κ] (m : Dict κ α) (k : κ) : Dict κ α :=
  m.filter (fun e => decide (e.1 ≠ k))

/-- Assignment, `map[k] = v`: the entry is created or overwritten. -/
def Dict.assign {κ α : Type} [DecidableEq κ] (m : Dict κ α) (k : κ) (v : α) : Dict κ α :=
  (k, v) :: Dict.erase m k

/-- Insertion that keeps an existing entry, `map.emplace(k, v)`. -/
def Dict.emplace {κ α : Type} [DecidableEq κ] (m : Dict κ α) (k : κ) (v : α) : Dict κ α :=
  match Dict.find m k with
  | some _ => m
  | none => (k, v) :: m

/-- Membership test of a map, `map.find(k) != map.end()`. -/
def Dict.has {κ α : Type} [DecidableEq κ] (m : Dict κ α) (k : κ) : Bool :=
  (Dict.find m k).isSome

/-- List standing for a `std::set` of users. -/
abbrev USet := List UserId

/-- Membership test of a set, `set.find(u) != set.end()`. -/
def USet.has (s : USet) (u : UserId) : Bool := s.contains u

/-- Insertion into a set, `set.emplace(u)`. -/
def USet.emplace (s : USet) (u : UserId) : USet := if s.contains u then s else u :: s

/-- Removal from a set, `set.erase(u)`. -/
def USet.erase (s : USet) (u : UserId) : USet := s.filter (fun x => decide (x ≠ u))

/-! ## Protocol values read by the controllers -/

structure MTPChannelAdminRights where
  flags : Nat
deriving DecidableEq, Repr

structure MTPChannelBannedRights where
  flags : Nat
  until_date : Nat
deriving DecidableEq, Repr

/-- The constructors of `MTPChannelParticipant` with the fields the controllers read. -/
inductive MTPChannelParticipant where
  | channelParticipant (user_id : Nat)
  | channelParticipantSelf (user_id : Nat)
  | channelParticipantCreator (user_id : Nat)
  | channelParticipantAdmin (can_edit : Bool) (user_id promoted_by : Nat)
      (admin_rights : MTPChannelAdminRights)
  | channelParticipantBanned (left : Bool) (user_id : Nat)
      (banned_rights : MTPChannelBannedRights)
deriving DecidableEq, Repr

/-- Payload of `channels.channelParticipants`. -/
structure MTPchannels_ChannelParticipants where
  participants : List MTPChannelParticipant
  users : List UserId
deriving DecidableEq, Repr

inductive MTPPeer where
  | peerUser (user_id : Nat)
  | peerChat (chat_id : Nat)
  | peerChannel (channel_id : Nat)
deriving DecidableEq, Repr

/-- Payload of `contacts.found`. The chats of the payload are left out: a peer that is
not a user never produces a row. -/
structure MTPcontacts_Found where
  results : List MTPPeer
  users : List UserId
deriving DecidableEq, Repr

inductive Role where
  | Admins
  | Restricted
  | Kicked
deriving DecidableEq, Repr

/-- Values defined outside of the file: the scheme flag `f_view_messages`, the
logged-in user `App::self()`, the limits of the global people search, and the users
that `addChatsContacts` finds in the dialogs and contacts indices for a query. -/
structure Env where
  f_view_messages : Nat
  self : UserId
  MinUsernameLength : Nat
  SearchPeopleLimit : Nat
  chatsContacts : String → List UserId

def kParticipantsFirstPageCount : Nat := 16
def kParticipantsPerPage : Nat := 200

/-- `App::userLoaded(id)`: the user when it has been fed, otherwise null. -/
def userLoaded (users : List UserId) (id : Nat) : Option UserId :=
  if users.contains id then some id else none

/-- `App::feedUsers(list)`. -/
def feedUsers (users : List UserId) (fed : List UserId) : List UserId :=
  fed ++ users

/-! ## The additional-info record -/

structure Additional where
  adminRights : Dict UserId MTPChannelAdminRights := []
  adminCanEdit : USet := []
  adminPromotedBy : Dict UserId UserId := []
  restrictedRights : Dict UserId MTPChannelBannedRights := []
  kicked : USet := []
  external : USet := []
  infoNotLoaded : USet := []
  creator : Option UserId := none
deriving DecidableEq, Repr

/-- Number of the sets {admin, kicked, restricted, external} that hold the user. -/
def Additional.occupancy (a : Additional) (u : UserId) : Nat :=
  (if Dict.has a.adminRights u then 1 else 0)
  + (if USet.has a.kicked u then 1 else 0)
  + (if Dict.has a.restrictedRights u then 1 else 0)
  + (if USet.has a.external u then 1 else 0)

/-- Every user is in at most one of admin, kicked, restricted, external. -/
def Additional.Exclusive (a : Additional) : Prop :=
  ∀ u : UserId, a.occupancy u ≤ 1

/-- No user with an admin-rights entry is also kicked or restricted. -/
def Additional.AdminApart (a : Additional) : Prop :=
  ∀ u : UserId, Dict.has a.adminRights u = true →
    USet.has a.kicked u = false ∧ Dict.has a.restrictedRights u = false

/-! ## ParticipantsBoxController and BannedBoxSearchController -/

/-- Filter of a `channels.getParticipants` request of the participants dialog. -/
inductive Filter where
  | Admins
  | Banned (q : String)
  | Kicked (q : String)
deriving DecidableEq, Repr

/-- Which handlers were attached to a request that has been sent. -/
inductive Handlers where
  | list
  | search
deriving DecidableEq, Repr

/-- A `channels.getParticipants` request that was sent and is not answered yet. -/
structure Request where
  id : Nat
  handlers : Handlers
  filter : Filter
  offset : Nat
  limit : Nat
deriving DecidableEq, Repr

structure CacheEntry where
  result : MTPchannels_ChannelParticipants
  requestedCount : Nat
deriving DecidableEq, Repr

structure Query where
  text : String
  offset : Nat
deriving DecidableEq, Repr

structure BannedBoxSearchController where
  _query : String := ""
  _offset : Nat := 0
  _requestId : Nat := 0
  _allLoaded : Bool := false
  _timer : Bool := false
  _cache : Dict String CacheEntry := []
  _queries : Dict Nat Query := []
deriving DecidableEq, Repr

/-- The dialog of `ParticipantsBoxController`: the controller's members, its search
controller (`searchController()` is non-null exactly when `_role` is not `Admins`),
and the state of the code both call into: the users known to `App`, the request
sender (last id handed out, requests not answered yet) and the rows and search
rows of the list delegate. -/
structure ParticipantsBox where
  users : List UserId := []
  lastRequestId : Nat := 0
  requests : List Request := []
  rows : List UserId := []
  searchRows : List UserId := []
  _role : Role
  _additional : Additional := {}
  _offset : Nat := 0
  _loadRequestId : Nat := 0
  _allLoaded : Bool := false
  search : BannedBoxSearchController := {}
deriving DecidableEq, Repr

/-- `ParticipantsBoxController::HandleParticipant`; the second component is the user
the callback is invoked with, if it is invoked. -/
def ParticipantsBoxController.HandleParticipant (users : List UserId)
    (participant : MTPChannelParticipant) (role : Role) (additional : Additional) :
    Additional × Option UserId :=
  match role, participant with
  | Role.Admins, .channelParticipantAdmin can_edit user_id promoted_by admin_rights =>
    match userLoaded users user_id with
    | some user =>
      let a := { additional with adminRights := Dict.assign additional.adminRights user admin_rights }
      let a := if can_edit then { a with adminCanEdit := USet.emplace a.adminCanEdit user }
               else { a with adminCanEdit := USet.erase a.adminCanEdit user }
      let a := match userLoaded users promoted_by with
        | some promoted =>
          match Dict.find a.adminPromotedBy user with
          | none => { a with adminPromotedBy := Dict.emplace a.adminPromotedBy user promoted }
          | some _ => { a with adminPromotedBy := Dict.assign a.adminPromotedBy user promoted }
        | none => a
      (a, some user)
    | none => (additional, none)
  | Role.Admins, .channelParticipantCreator user_id =>
    match userLoaded users user_id with
    | some user => ({ additional with creator := some user }, some user)
    | none => (additional, none)
  | Role.Restricted, .channelParticipantBanned _ user_id banned_rights
  | Role.Kicked, .channelParticipantBanned _ user_id banned_rights =>
    match userLoaded users user_id with
    | some user =>
      ({ additional with
          restrictedRights := Dict.assign additional.restrictedRights user banned_rights },
        some user)
    | none => (additional, none)
  | _, _ => (additional, none)

/-- `ParticipantsBoxController::appendRow`. -/
def ParticipantsBoxController.appendRow (w : ParticipantsBox) (user : UserId) : ParticipantsBox :=
  if w.rows.contains user then w else { w with rows := w.rows ++ [user] }

/-- `ParticipantsBoxController::prependRow`. -/
def ParticipantsBoxController.prependRow (w : ParticipantsBox) (user : UserId) : ParticipantsBox :=
  if w.rows.contains user then w else { w with rows := user :: w.rows }

/-- `ParticipantsBoxController::removeRow`. -/
def ParticipantsBoxController.removeRow (w : ParticipantsBox) (user : UserId) : ParticipantsBox :=
  if w.rows.contains user then { w with rows := w.rows.filter (fun x => decide (x ≠ user)) } else w

/-- `ParticipantsBoxController::editAdminDone`. -/
def ParticipantsBoxController.editAdminDone (env : Env) (w : ParticipantsBox) (user : UserId)
    (rights : MTPChannelAdminRights) : ParticipantsBox :=
  let notAdmin := rights.flags == 0
  if notAdmin then
    let a := w._additional
    let a := { a with adminRights := Dict.erase a.adminRights user }
    let a := { a with adminPromotedBy := Dict.erase a.adminPromotedBy user }
    let a := { a with adminCanEdit := USet.erase a.adminCanEdit user }
    let w := { w with _additional := a }
    if w._role = Role.Admins then ParticipantsBoxController.removeRow w user else w
  else
    let a := w._additional
    let a := { a with adminPromotedBy := Dict.emplace a.adminPromotedBy user env.self }
    let a := { a with adminCanEdit := USet.emplace a.adminCanEdit user }
    let a := { a with adminRights := Dict.assign a.adminRights user rights }
    let a := { a with kicked := USet.erase a.kicked user }
    let a := { a with restrictedRights := Dict.erase a.restrictedRights user }
    let w := { w with _additional := a }
    if w._role = Role.Admins then ParticipantsBoxController.prependRow w user
    else ParticipantsBoxController.removeRow w user

/-- `MTPDchannelBannedRights::is_view_messages()`. -/
def MTPChannelBannedRights.is_view_messages (env : Env) (rights : MTPChannelBannedRights) : Bool :=
  (rights.flags &&& env.f_view_messages) != 0

/-- `ParticipantsBoxController::editRestrictedDone`. -/
def ParticipantsBoxController.editRestrictedDone (env : Env) (w : ParticipantsBox) (user : UserId)
    (rights : MTPChannelBannedRights) : ParticipantsBox :=
  let notBanned := rights.flags == 0
  let fullBanned := rights.is_view_messages env
  if notBanned then
    let a := w._additional
    let a := { a with kicked := USet.erase a.kicked user }
    let a := { a with restrictedRights := Dict.erase a.restrictedRights user }
    let w := { w with _additional := a }
    if w._role ≠ Role.Admins then ParticipantsBoxController.removeRow w user else w
  else
    let a := w._additional
    let a := { a with adminRights := Dict.erase a.adminRights user }
    let a := { a with adminCanEdit := USet.erase a.adminCanEdit user }
    let a := { a with adminPromotedBy := Dict.erase a.adminPromotedBy user }
    if fullBanned then
      let a := { a with kicked := USet.emplace a.kicked user }
      let a := { a with restrictedRights := Dict.erase a.restrictedRights user }
      let w := { w with _additional := a }
      if w._role = Role.Kicked then ParticipantsBoxController.prependRow w user
      else ParticipantsBoxController.removeRow w user
    else
      let a := { a with restrictedRights := Dict.assign a.restrictedRights user rights }
      let a := { a with kicked := USet.erase a.kicked user }
      let w := { w with _additional := a }
      if w._role = Role.Restricted then ParticipantsBoxController.prependRow w user
      else ParticipantsBoxController.removeRow w user

/-- The request sender, `request(...).done(...).fail(...).send()`: hands out the next
request id (never 0) and keeps the request until it is answered. -/
def ParticipantsBox.send (w : ParticipantsBox) (handlers : Handlers) (filter : Filter)
    (offset limit : Nat) : ParticipantsBox × Nat :=
  let id := w.lastRequestId + 1
  ({ w with
      lastRequestId := id
      requests := w.requests ++ [{ id := id, handlers := handlers, filter := filter,
                                   offset := offset, limit := limit }] }, id)

/-- The delegate call `peerListSearchAddRow(user)`. -/
def ParticipantsBox.peerListSearchAddRow (w : ParticipantsBox) (user : UserId) : ParticipantsBox :=
  { w with searchRows := w.searchRows ++ [user] }

/-- `BannedBoxSearchController::isLoading`. -/
def BannedBoxSearchController.isLoading (w : ParticipantsBox) : Bool :=
  w.search._timer || w.search._requestId != 0

/-- The loop of `BannedBoxSearchController::searchDone` over the participants received. -/
def BannedBoxSearchController.searchDone_loop (w : ParticipantsBox) :
    List MTPChannelParticipant → ParticipantsBox
  | [] => w
  | participant :: rest =>
    match ParticipantsBoxController.HandleParticipant w.users participant w._role w._additional with
    | (a, some user) =>
      BannedBoxSearchController.searchDone_loop
        (ParticipantsBox.peerListSearchAddRow { w with _additional := a } user) rest
    | (a, none) => BannedBoxSearchController.searchDone_loop { w with _additional := a } rest

/-- The first block of `BannedBoxSearchController::searchDone` (`if (requestId)`): the
users are fed, the result is cached and the pending entry is erased. -/
def BannedBoxSearchController.searchDone_store (w : ParticipantsBox) (requestId : Nat)
    (result : MTPchannels_ChannelParticipants) (requestedCount : Nat) : ParticipantsBox :=
    if requestId != 0 then
      let w := { w with users := feedUsers w.users result.users }
      match Dict.find w.search._queries requestId with
      | some it =>
        let query := it.text
        let w :=
          if it.offset = 0 then
            { w with search := { w.search with
                _cache := Dict.assign w.search._cache query
                  { result := result, requestedCount := requestedCount } } }
          else w
        { w with search := { w.search with _queries := Dict.erase w.search._queries requestId } }
      | none => w
    else w

/-- `BannedBoxSearchController::searchDone`. -/
def BannedBoxSearchController.searchDone (w : ParticipantsBox) (requestId : Nat)
    (result : MTPchannels_ChannelParticipants) (requestedCount : Nat) : ParticipantsBox :=
  let w := BannedBoxSearchController.searchDone_store w requestId result requestedCount
  if w.search._requestId = requestId then
    let w := { w with search := { w.search with _requestId := 0 } }
    let list := result.participants
    let w :=
      if list.length < requestedCount then
        { w with search := { w.search with _allLoaded := true } }
      else w
    let w := BannedBoxSearchController.searchDone_loop w list
    { w with search := { w.search with _offset := w.search._offset + list.length } }
  else w

/-- `BannedBoxSearchController::searchInCache`. -/
def BannedBoxSearchController.searchInCache (w : ParticipantsBox) : ParticipantsBox × Bool :=
  match Dict.find w.search._cache w.search._query with
  | some it =>
    let w := { w with search := { w.search with _requestId := 0 } }
    (BannedBoxSearchController.searchDone w w.search._requestId it.result it.requestedCount, true)
  | none => (w, false)

/-- `BannedBoxSearchController::searchQuery`. -/
def BannedBoxSearchController.searchQuery (w : ParticipantsBox) (query : String) : ParticipantsBox :=
  if w.search._query ≠ query then
    let w := { w with search := { w.search with
      _query := query, _offset := 0, _requestId := 0, _allLoaded := false } }
    if w.search._query.isEmpty then
      { w with search := { w.search with _timer := false } }
    else
      match BannedBoxSearchController.searchInCache w with
      | (w, false) => { w with search := { w.search with _timer := true } }
      | (w, true) => { w with search := { w.search with _timer := false } }
  else w

/-- `BannedBoxSearchController::loadMoreRows`; the second component is the value returned. -/
def BannedBoxSearchController.loadMoreRows (w : ParticipantsBox) : ParticipantsBox × Bool :=
  if w.search._query.isEmpty then (w, false)
  else if !w.search._allLoaded && !BannedBoxSearchController.isLoading w then
    let filter := if w._role = Role.Restricted then Filter.Banned w.search._query
                  else Filter.Kicked w.search._query
    let perPage := kParticipantsPerPage
    let (w, id) := w.send Handlers.search filter w.search._offset perPage
    let w := { w with search := { w.search with _requestId := id } }
    let entry : Query := { text := w.search._query, offset := w.search._offset }
    ({ w with search := { w.search with
        _queries := Dict.emplace w.search._queries w.search._requestId entry } }, true)
  else (w, true)

/-- The fail handler attached in `BannedBoxSearchController::loadMoreRows`. -/
def BannedBoxSearchController.loadMoreRows_fail (w : ParticipantsBox) (requestId : Nat) :
    ParticipantsBox :=
  if w.search._requestId = requestId then
    { w with search := { w.search with _requestId := 0, _allLoaded := true } }
  else w

/-- `BannedBoxSearchController::searchOnServer`; `none` when `Expects` fails. -/
def BannedBoxSearchController.searchOnServer (w : ParticipantsBox) : Option ParticipantsBox :=
  if w.search._query.isEmpty then none
  else some (BannedBoxSearchController.loadMoreRows w).1

/-- `ParticipantsBoxController::loadMoreRows`. -/
def ParticipantsBoxController.loadMoreRows (w : ParticipantsBox) : ParticipantsBox :=
  let (w, handled) :=
    if w._role ≠ Role.Admins then BannedBoxSearchController.loadMoreRows w else (w, false)
  if handled then w
  else if w._loadRequestId != 0 || w._allLoaded then w
  else
    let filter := if w._role = Role.Admins then Filter.Admins
                  else if w._role = Role.Restricted then Filter.Banned ""
                  else Filter.Kicked ""
    let perPage := if w._offset > 0 then kParticipantsPerPage else kParticipantsFirstPageCount
    let (w, id) := w.send Handlers.list filter w._offset perPage
    { w with _loadRequestId := id }

/-- The loop of the done handler of `ParticipantsBoxController::loadMoreRows` over the
participants received. -/
def ParticipantsBoxController.loadMoreRows_loop (w : ParticipantsBox) :
    List MTPChannelParticipant → ParticipantsBox
  | [] => w
  | participant :: rest =>
    let w := { w with _offset := w._offset + 1 }
    match ParticipantsBoxController.HandleParticipant w.users participant w._role w._additional with
    | (a, some user) =>
      ParticipantsBoxController.loadMoreRows_loop
        (ParticipantsBoxController.appendRow { w with _additional := a } user) rest
    | (a, none) => ParticipantsBoxController.loadMoreRows_loop { w with _additional := a } rest

/-- The done handler attached in `ParticipantsBoxController::loadMoreRows`. -/
def ParticipantsBoxController.loadMoreRows_done (w : ParticipantsBox)
    (result : MTPchannels_ChannelParticipants) : ParticipantsBox :=
  let w := { w with _loadRequestId := 0 }
  let w := { w with users := feedUsers w.users result.users }
  let list := result.participants
  if list.isEmpty then
    { w with _allLoaded := true }
  else
    ParticipantsBoxController.loadMoreRows_loop w list

/-- The fail handler attached in `ParticipantsBoxController::loadMoreRows`. -/
def ParticipantsBoxController.loadMoreRows_fail (w : ParticipantsBox) : ParticipantsBox :=
  { w with _loadRequestId := 0 }

/-- What can happen to the dialog: calls made by the list box (search text typed,
scrolling), the search timer firing, an answer to a request that is still
unanswered, and the results of the edit boxes. -/
inductive ParticipantsEvent where
  | searchQuery (query : String)
  | timer
  | loadMoreRows
  | searchLoadMoreRows
  | done (requestId : Nat) (result : MTPchannels_ChannelParticipants)
  | fail (requestId : Nat)
  | editAdminDone (user : UserId) (rights : MTPChannelAdminRights)
  | editRestrictedDone (user : UserId) (rights : MTPChannelBannedRights)
deriving DecidableEq, Repr

/-- The unanswered request with the given id. -/
def ParticipantsBox.findRequest (w : ParticipantsBox) (requestId : Nat) : Option Request :=
  w.requests.find? (fun r => r.id == requestId)

/-- The request is answered: it leaves the sender. -/
def ParticipantsBox.dropRequest (w : ParticipantsBox) (requestId : Nat) : ParticipantsBox :=
  { w with requests := w.requests.filter (fun r => r.id != requestId) }

/-- One event; `none` when the event cannot happen in this state (no search
controller, timer not armed, no such unanswered request) or the code aborts. -/
def ParticipantsBox.handle (env : Env) (w : ParticipantsBox) : ParticipantsEvent → Option ParticipantsBox
  | .searchQuery query =>
    if w._role = Role.Admins then none
    else some (BannedBoxSearchController.searchQuery w query)
  | .timer =>
    if w.search._timer then
      BannedBoxSearchController.searchOnServer { w with search := { w.search with _timer := false } }
    else none
  | .loadMoreRows => some (ParticipantsBoxController.loadMoreRows w)
  | .searchLoadMoreRows =>
    if w._role = Role.Admins then none
    else some (BannedBoxSearchController.loadMoreRows w).1
  | .done requestId result =>
    match w.findRequest requestId with
    | some r =>
      match r.handlers with
      | Handlers.list => some (ParticipantsBoxController.loadMoreRows_done (w.dropRequest requestId) result)
      | Handlers.search =>
        some (BannedBoxSearchController.searchDone (w.dropRequest requestId) requestId result
          kParticipantsPerPage)
    | none => none
  | .fail requestId =>
    match w.findRequest requestId with
    | some r =>
      match r.handlers with
      | Handlers.list => some (ParticipantsBoxController.loadMoreRows_fail (w.dropRequest requestId))
      | Handlers.search =>
        some (BannedBoxSearchController.loadMoreRows_fail (w.dropRequest requestId) requestId)
    | none => none
  | .editAdminDone user rights => some (ParticipantsBoxController.editAdminDone env w user rights)
  | .editRestrictedDone user rights =>
    some (ParticipantsBoxController.editRestrictedDone env w user rights)

/-- A sequence of events, from left to right. -/
def ParticipantsBox.run (env : Env) (w : ParticipantsBox) : List ParticipantsEvent → Option ParticipantsBox
  | [] => some w
  | e :: es =>
    match w.handle env e with
    | some w' => ParticipantsBox.run env w' es
    | none => none

/-- The dialog as the constructor leaves it. -/
def ParticipantsBox.init (role : Role) (creator : Option UserId) : ParticipantsBox :=
  { _role := role, _additional := { creator := creator } }

/-- States the dialog can be in. -/
def ParticipantsBox.Reachable (env : Env) (w : ParticipantsBox) : Prop :=
  ∃ role creator events, ParticipantsBox.run env (ParticipantsBox.init role creator) events = some w

/-- A result reported by an edit box. -/
inductive EditCall where
  | admin (user : UserId) (rights : MTPChannelAdminRights)
  | restricted (user : UserId) (rights : MTPChannelBannedRights)
deriving DecidableEq, Repr

/-- A sequence of `editAdminDone` / `editRestrictedDone` calls, from left to right. -/
def ParticipantsBoxController.editCalls (env : Env) (w : ParticipantsBox) :
    List EditCall → ParticipantsBox
  | [] => w
  | .admin user rights :: cs =>
    ParticipantsBoxController.editCalls env (ParticipantsBoxController.editAdminDone env w user rights) cs
  | .restricted user rights :: cs =>
    ParticipantsBoxController.editCalls env
      (ParticipantsBoxController.editRestrictedDone env w user rights) cs

/-- What `ParticipantsBoxController::editAdmin` does when it returns: nothing, or the
`EditAdminBox` it shows. -/
inductive EditAdminResult where
  | nothing
  | editAdminBox (user : UserId) (hasAdminRights : Bool) (rights : MTPChannelAdminRights)
deriving DecidableEq, Repr

/-- `ParticipantsBoxController::editAdmin`; `none` when `t_assert` fails. -/
def ParticipantsBoxController.editAdmin (w : ParticipantsBox) (user : UserId) :
    Option EditAdminResult :=
  if !USet.has w._additional.adminCanEdit user then some EditAdminResult.nothing
  else
    match Dict.find w._additional.adminRights user with
    | some rights => some (EditAdminResult.editAdminBox user true rights)
    | none => none

/-- Every user in `adminCanEdit` has an entry in `adminRights`. -/
def Additional.CanEditHasRights (a : Additional) : Prop :=
  ∀ u, USet.has a.adminCanEdit u = true → Dict.has a.adminRights u = true

/-! ## AddParticipantBoxController and AddParticipantBoxSearchController -/

/-- `QString::size()`: the number of UTF-16 code units. -/
def QString_size (s : String) : Nat :=
  s.data.foldl (fun n c => n + (if c.val < 0x10000 then 1 else 2)) 0

/-- Which handlers were attached to a request sent by the add-participant dialog. -/
inductive AddHandlers where
  | list
  | participants
  | global
deriving DecidableEq, Repr

/-- A `channels.getParticipants` or `contacts.search` request that was sent by the
add-participant dialog and is not answered yet. -/
structure AddRequest where
  id : Nat
  handlers : AddHandlers
  query : String
  offset : Nat
  limit : Nat
deriving DecidableEq, Repr

structure AddParticipantBoxSearchController where
  _query : String := ""
  _offset : Nat := 0
  _requestId : Nat := 0
  _participantsLoaded : Bool := false
  _chatsContactsAdded : Bool := false
  _globalLoaded : Bool := false
  _timer : Bool := false
  _participantsCache : Dict String CacheEntry := []
  _participantsQueries : Dict Nat Query := []
  _globalCache : Dict String MTPcontacts_Found := []
  _globalQueries : Dict Nat String := []
deriving DecidableEq, Repr

/-- The dialog of `AddParticipantBoxController`: the controller's members, its search
controller, the users known to `App`, the request sender, the rows and search rows
of the list delegate, and the calls made to the two done callbacks. -/
structure AddParticipantBox where
  users : List UserId := []
  lastRequestId : Nat := 0
  requests : List AddRequest := []
  rows : List UserId := []
  searchRows : List UserId := []
  adminDoneCalls : List (UserId × MTPChannelAdminRights) := []
  bannedDoneCalls : List (UserId × MTPChannelBannedRights) := []
  _role : Role
  _additional : Additional := {}
  _offset : Nat := 0
  _loadRequestId : Nat := 0
  _allLoaded : Bool := false
  search : AddParticipantBoxSearchController := {}
deriving DecidableEq, Repr

/-- `AddParticipantBoxController::HandleParticipant`; `none` when the participant type
is unexpected, otherwise the record and the user the callback is invoked with. -/
def AddParticipantBoxController.HandleParticipant (users : List UserId)
    (participant : MTPChannelParticipant) (additional : Additional) :
    Option (Additional × Option UserId) :=
  match participant with
  | .channelParticipantAdmin can_edit user_id promoted_by admin_rights =>
    match userLoaded users user_id with
    | some user =>
      let a := { additional with infoNotLoaded := USet.erase additional.infoNotLoaded user }
      let a := { a with restrictedRights := Dict.erase a.restrictedRights user }
      let a := { a with kicked := USet.erase a.kicked user }
      let a := { a with adminRights := Dict.assign a.adminRights user admin_rights }
      let a := if can_edit then { a with adminCanEdit := USet.emplace a.adminCanEdit user }
               else { a with adminCanEdit := USet.erase a.adminCanEdit user }
      let a := match userLoaded users promoted_by with
        | some promoted =>
          match Dict.find a.adminPromotedBy user with
          | none => { a with adminPromotedBy := Dict.emplace a.adminPromotedBy user promoted }
          | some _ => { a with adminPromotedBy := Dict.assign a.adminPromotedBy user promoted }
        | none => a
      some (a, some user)
    | none => some (additional, none)
  | .channelParticipantCreator user_id =>
    match userLoaded users user_id with
    | some user =>
      let a := { additional with infoNotLoaded := USet.erase additional.infoNotLoaded user }
      some ({ a with creator := some user }, some user)
    | none => some (additional, none)
  | .channelParticipantBanned left user_id banned_rights =>
    match userLoaded users user_id with
    | some user =>
      let a := { additional with infoNotLoaded := USet.erase additional.infoNotLoaded user }
      let a := { a with adminRights := Dict.erase a.adminRights user }
      let a := { a with adminCanEdit := USet.erase a.adminCanEdit user }
      let a := { a with adminPromotedBy := Dict.erase a.adminPromotedBy user }
      let a := if left then { a with kicked := USet.emplace a.kicked user }
               else { a with kicked := USet.erase a.kicked user }
      let a := { a with restrictedRights := Dict.assign a.restrictedRights user banned_rights }
      some (a, some user)
    | none => some (additional, none)
  | .channelParticipant user_id =>
    match userLoaded users user_id with
    | some user =>
      let a := { additional with infoNotLoaded := USet.erase additional.infoNotLoaded user }
      let a := { a with adminRights := Dict.erase a.adminRights user }
      let a := { a with adminCanEdit := USet.erase a.adminCanEdit user }
      let a := { a with adminPromotedBy := Dict.erase a.adminPromotedBy user }
      let a := { a with restrictedRights := Dict.erase a.restrictedRights user }
      let a := { a with kicked := USet.erase a.kicked user }
      some (a, some user)
    | none => some (additional, none)
  | .channelParticipantSelf _ => none

/-- `AddParticipantBoxController::editAdminDone`. -/
def AddParticipantBoxController.editAdminDone (env : Env) (w : AddParticipantBox) (user : UserId)
    (rights : MTPChannelAdminRights) : AddParticipantBox :=
  let a := w._additional
  let a := { a with restrictedRights := Dict.erase a.restrictedRights user }
  let a := { a with kicked := USet.erase a.kicked user }
  let a := { a with external := USet.erase a.external user }
  let a :=
    if rights.flags = 0 then
      let a := { a with adminRights := Dict.erase a.adminRights user }
      let a := { a with adminPromotedBy := Dict.erase a.adminPromotedBy user }
      { a with adminCanEdit := USet.erase a.adminCanEdit user }
    else
      let a := { a with adminRights := Dict.assign a.adminRights user rights }
      let a := { a with adminCanEdit := USet.emplace a.adminCanEdit user }
      match Dict.find a.adminPromotedBy user with
      | none => { a with adminPromotedBy := Dict.emplace a.adminPromotedBy user env.self }
      | some _ => a
  { w with _additional := a, adminDoneCalls := w.adminDoneCalls ++ [(user, rights)] }

/-- `AddParticipantBoxController::editRestrictedDone`. -/
def AddParticipantBoxController.editRestrictedDone (env : Env) (w : AddParticipantBox)
    (user : UserId) (rights : MTPChannelBannedRights) : AddParticipantBox :=
  let a := w._additional
  let a := { a with adminRights := Dict.erase a.adminRights user }
  let a := { a with adminCanEdit := USet.erase a.adminCanEdit user }
  let a := { a with adminPromotedBy := Dict.erase a.adminPromotedBy user }
  let a :=
    if rights.flags = 0 then
      let a := { a with restrictedRights := Dict.erase a.restrictedRights user }
      { a with kicked := USet.erase a.kicked user }
    else
      let a := { a with restrictedRights := Dict.assign a.restrictedRights user rights }
      if (rights.flags &&& env.f_view_messages) != 0 then
        { a with kicked := USet.emplace a.kicked user }
      else
        { a with kicked := USet.erase a.kicked user }
  { w with _additional := a, bannedDoneCalls := w.bannedDoneCalls ++ [(user, rights)] }

/-- The request sender of the add-participant dialog: hands out the next request id
(never 0) and keeps the request until it is answered. -/
def AddParticipantBox.send (w : AddParticipantBox) (handlers : AddHandlers) (query : String)
    (offset limit : Nat) : AddParticipantBox × Nat :=
  let id := w.lastRequestId + 1
  ({ w with
      lastRequestId := id
      requests := w.requests ++ [{ id := id, handlers := handlers, query := query,
                                   offset := offset, limit := limit }] }, id)

/-- The delegate call `peerListSearchAddRow(user)`. -/
def AddParticipantBox.peerListSearchAddRow (w : AddParticipantBox) (user : UserId) :
    AddParticipantBox :=
  { w with searchRows := w.searchRows ++ [user] }

/-- `AddParticipantBoxSearchController::isLoading`. -/
def AddParticipantBoxSearchController.isLoading (w : AddParticipantBox) : Bool :=
  w.search._timer || w.search._requestId != 0

/-- The loop of `AddParticipantBoxSearchController::searchGlobalDone` over the peers found. -/
def AddParticipantBoxSearchController.searchGlobalDone_loop (w : AddParticipantBox) :
    List MTPPeer → AddParticipantBox
  | [] => w
  | .peerUser user_id :: rest =>
    match userLoaded w.users user_id with
    | some user =>
      let a := w._additional
      let w :=
        if !Dict.has a.adminRights user && !Dict.has a.restrictedRights user
            && !USet.has a.external user && !USet.has a.kicked user
            && a.creator != some user then
          { w with _additional := { a with infoNotLoaded := USet.emplace a.infoNotLoaded user } }
        else w
      AddParticipantBoxSearchController.searchGlobalDone_loop (w.peerListSearchAddRow user) rest
    | none => AddParticipantBoxSearchController.searchGlobalDone_loop w rest
  | _ :: rest => AddParticipantBoxSearchController.searchGlobalDone_loop w rest

/-- The first block of `AddParticipantBoxSearchController::searchGlobalDone`
(`if (requestId)`): the users are fed, the result is cached and the pending entry is
erased. -/
def AddParticipantBoxSearchController.searchGlobalDone_store (w : AddParticipantBox)
    (requestId : Nat) (result : MTPcontacts_Found) : AddParticipantBox :=
    if requestId != 0 then
      let w := { w with users := feedUsers w.users result.users }
      match Dict.find w.search._globalQueries requestId with
      | some query =>
        let w := { w with search := { w.search with
          _globalCache := Dict.assign w.search._globalCache query result } }
        { w with search := { w.search with
          _globalQueries := Dict.erase w.search._globalQueries requestId } }
      | none => w
    else w

/-- `AddParticipantBoxSearchController::searchGlobalDone`. -/
def AddParticipantBoxSearchController.searchGlobalDone (w : AddParticipantBox)
    (requestId : Nat) (result : MTPcontacts_Found) : AddParticipantBox :=
  let w := AddParticipantBoxSearchController.searchGlobalDone_store w requestId result
  if w.search._requestId = requestId then
    let w := { w with search := { w.search with _requestId := 0, _globalLoaded := true } }
    AddParticipantBoxSearchController.searchGlobalDone_loop w result.results
  else w

/-- `AddParticipantBoxSearchController::searchGlobalInCache`. -/
def AddParticipantBoxSearchController.searchGlobalInCache (w : AddParticipantBox) :
    AddParticipantBox × Bool :=
  match Dict.find w.search._globalCache w.search._query with
  | some it =>
    let w := { w with search := { w.search with _requestId := 0 } }
    (AddParticipantBoxSearchController.searchGlobalDone w w.search._requestId it, true)
  | none => (w, false)

/-- `AddParticipantBoxSearchController::requestGlobal`. -/
def AddParticipantBoxSearchController.requestGlobal (env : Env) (w : AddParticipantBox) :
    AddParticipantBox :=
  if QString_size w.search._query < env.MinUsernameLength then
    { w with search := { w.search with _globalLoaded := true } }
  else
    let perPage := env.SearchPeopleLimit
    let (w, id) := w.send AddHandlers.global w.search._query 0 perPage
    let w := { w with search := { w.search with _requestId := id } }
    { w with search := { w.search with
        _globalQueries := Dict.emplace w.search._globalQueries w.search._requestId w.search._query } }

/-- `AddParticipantBoxSearchController::requestParticipants`. -/
def AddParticipantBoxSearchController.requestParticipants (w : AddParticipantBox) :
    AddParticipantBox :=
  let perPage := kParticipantsPerPage
  let (w, id) := w.send AddHandlers.participants w.search._query w.search._offset perPage
  let w := { w with search := { w.search with _requestId := id } }
  let entry : Query := { text := w.search._query, offset := w.search._offset }
  { w with search := { w.search with
      _participantsQueries := Dict.emplace w.search._participantsQueries w.search._requestId entry } }

/-- `AddParticipantBoxSearchController::addChatsContacts`: the users of the dialogs and
contacts indices whose names match the query become search rows. -/
def AddParticipantBoxSearchController.addChatsContacts (env : Env) (w : AddParticipantBox) :
    AddParticipantBox :=
  let w := { w with search := { w.search with _chatsContactsAdded := true } }
  { w with searchRows := w.searchRows ++ env.chatsContacts w.search._query }

/-- `AddParticipantBoxSearchController::loadMoreRows`; the second component is the value
returned. -/
def AddParticipantBoxSearchController.loadMoreRows (env : Env) (w : AddParticipantBox) :
    AddParticipantBox × Bool :=
  if w.search._query.isEmpty then (w, false)
  else if w.search._globalLoaded then (w, true)
  else if w.search._participantsLoaded then
    let w := if !w.search._chatsContactsAdded then
        AddParticipantBoxSearchController.addChatsContacts env w else w
    if !AddParticipantBoxSearchController.isLoading w then
      match AddParticipantBoxSearchController.searchGlobalInCache w with
      | (w, false) => (AddParticipantBoxSearchController.requestGlobal env w, true)
      | (w, true) => (w, true)
    else (w, true)
  else if !AddParticipantBoxSearchController.isLoading w then
    (AddParticipantBoxSearchController.requestParticipants w, true)
  else (w, true)

/-- The fail handler attached in `AddParticipantBoxSearchController::requestParticipants`. -/
def AddParticipantBoxSearchController.requestParticipants_fail (env : Env) (w : AddParticipantBox)
    (requestId : Nat) : AddParticipantBox :=
  if w.search._requestId = requestId then
    let w := { w with search := { w.search with _requestId := 0, _participantsLoaded := true } }
    (AddParticipantBoxSearchController.loadMoreRows env w).1
  else w

/-- The fail handler attached in `AddParticipantBoxSearchController::requestGlobal`. -/
def AddParticipantBoxSearchController.requestGlobal_fail (w : AddParticipantBox)
    (requestId : Nat) : AddParticipantBox :=
  if w.search._requestId = requestId then
    { w with search := { w.search with _requestId := 0, _globalLoaded := true } }
  else w

/-- The loop of `AddParticipantBoxSearchController::searchParticipantsDone` over the
participants received; `none` when `HandleParticipant` meets an unexpected type. -/
def AddParticipantBoxSearchController.searchParticipantsDone_loop (w : AddParticipantBox) :
    List MTPChannelParticipant → Option AddParticipantBox
  | [] => some w
  | participant :: rest =>
    match AddParticipantBoxController.HandleParticipant w.users participant w._additional with
    | some (a, some user) =>
      AddParticipantBoxSearchController.searchParticipantsDone_loop
        (AddParticipantBox.peerListSearchAddRow { w with _additional := a } user) rest
    | some (a, none) =>
      AddParticipantBoxSearchController.searchParticipantsDone_loop { w with _additional := a } rest
    | none => none

/-- The block `if (list.size() < requestedCount)` of
`AddParticipantBoxSearchController::searchParticipantsDone`: a short page ends the
participants search, and an empty first page starts the global search at once. -/
def AddParticipantBoxSearchController.searchParticipantsDone_loaded (env : Env)
    (w : AddParticipantBox) (list : List MTPChannelParticipant) (requestedCount : Nat) :
    AddParticipantBox :=
  if list.length < requestedCount then
    let w := { w with search := { w.search with _participantsLoaded := true } }
    if list.isEmpty && w.search._offset == 0 then
      (AddParticipantBoxSearchController.loadMoreRows env w).1
    else w
  else w

/-- The first block of `AddParticipantBoxSearchController::searchParticipantsDone`
(`if (requestId)`): the users are fed, the result is cached and the pending entry is
erased. -/
def AddParticipantBoxSearchController.searchParticipantsDone_store (w : AddParticipantBox)
    (requestId : Nat) (result : MTPchannels_ChannelParticipants)
    (requestedCount : Nat) : AddParticipantBox :=
    if requestId != 0 then
      let w := { w with users := feedUsers w.users result.users }
      match Dict.find w.search._participantsQueries requestId with
      | some it =>
        let query := it.text
        let w :=
          if it.offset = 0 then
            { w with search := { w.search with
                _participantsCache := Dict.assign w.search._participantsCache query
                  { result := result, requestedCount := requestedCount } } }
          else w
        { w with search := { w.search with
            _participantsQueries := Dict.erase w.search._participantsQueries requestId } }
      | none => w
    else w

/-- `AddParticipantBoxSearchController::searchParticipantsDone`; `none` when
`HandleParticipant` meets an unexpected participant type. -/
def AddParticipantBoxSearchController.searchParticipantsDone (env : Env) (w : AddParticipantBox)
    (requestId : Nat) (result : MTPchannels_ChannelParticipants)
    (requestedCount : Nat) : Option AddParticipantBox :=
  let w := AddParticipantBoxSearchController.searchParticipantsDone_store w requestId result
    requestedCount
  if w.search._requestId = requestId then
    let w := { w with search := { w.search with _requestId := 0 } }
    let list := result.participants
    let w := AddParticipantBoxSearchController.searchParticipantsDone_loaded env w list
      requestedCount
    match AddParticipantBoxSearchController.searchParticipantsDone_loop w list with
    | some w => some { w with search := { w.search with _offset := w.search._offset + list.length } }
    | none => none
  else some w

/-- `AddParticipantBoxSearchController::searchParticipantsInCache`. -/
def AddParticipantBoxSearchController.searchParticipantsInCache (env : Env)
    (w : AddParticipantBox) : Option (AddParticipantBox × Bool) :=
  match Dict.find w.search._participantsCache w.search._query with
  | some it =>
    let w := { w with search := { w.search with _requestId := 0 } }
    match AddParticipantBoxSearchController.searchParticipantsDone env w w.search._requestId
        it.result it.requestedCount with
    | some w => some (w, true)
    | none => none
  | none => some (w, false)

/-- `AddParticipantBoxSearchController::searchQuery`. -/
def AddParticipantBoxSearchController.searchQuery (env : Env) (w : AddParticipantBox)
    (query : String) : Option AddParticipantBox :=
  if w.search._query ≠ query then
    let w := { w with search := { w.search with
      _query := query, _offset := 0, _requestId := 0, _participantsLoaded := false,
      _chatsContactsAdded := false, _globalLoaded := false } }
    if w.search._query.isEmpty then
      some { w with search := { w.search with _timer := false } }
    else
      match AddParticipantBoxSearchController.searchParticipantsInCache env w with
      | some (w, false) => some { w with search := { w.search with _timer := true } }
      | some (w, true) => some { w with search := { w.search with _timer := false } }
      | none => none
  else some w

/-- `AddParticipantBoxSearchController::searchOnServer`; `none` when `Expects` fails. -/
def AddParticipantBoxSearchController.searchOnServer (env : Env) (w : AddParticipantBox) :
    Option AddParticipantBox :=
  if w.search._query.isEmpty then none
  else some (AddParticipantBoxSearchController.loadMoreRows env w).1

/-- `AddParticipantBoxController::appendRow`. -/
def AddParticipantBoxController.appendRow (env : Env) (w : AddParticipantBox) (user : UserId) :
    AddParticipantBox :=
  if w.rows.contains user || user == env.self then w else { w with rows := w.rows ++ [user] }

/-- `AddParticipantBoxController::loadMoreRows`. -/
def AddParticipantBoxController.loadMoreRows (env : Env) (w : AddParticipantBox) :
    AddParticipantBox :=
  let (w, handled) := AddParticipantBoxSearchController.loadMoreRows env w
  if handled then w
  else if w._loadRequestId != 0 || w._allLoaded then w
  else
    let perPage := if w._offset > 0 then kParticipantsPerPage else kParticipantsFirstPageCount
    let (w, id) := w.send AddHandlers.list "" w._offset perPage
    { w with _loadRequestId := id }

/-- The loop of the done handler of `AddParticipantBoxController::loadMoreRows` over the
participants received; `none` when `HandleParticipant` meets an unexpected type. -/
def AddParticipantBoxController.loadMoreRows_loop (env : Env) (w : AddParticipantBox) :
    List MTPChannelParticipant → Option AddParticipantBox
  | [] => some w
  | participant :: rest =>
    let w := { w with _offset := w._offset + 1 }
    match AddParticipantBoxController.HandleParticipant w.users participant w._additional with
    | some (a, some user) =>
      AddParticipantBoxController.loadMoreRows_loop env
        (AddParticipantBoxController.appendRow env { w with _additional := a } user) rest
    | some (a, none) =>
      AddParticipantBoxController.loadMoreRows_loop env { w with _additional := a } rest
    | none => none

/-- The done handler attached in `AddParticipantBoxController::loadMoreRows`; `none` when
`HandleParticipant` meets an unexpected participant type. -/
def AddParticipantBoxController.loadMoreRows_done (env : Env) (w : AddParticipantBox)
    (result : MTPchannels_ChannelParticipants) : Option AddParticipantBox :=
  let w := { w with _loadRequestId := 0 }
  let w := { w with users := feedUsers w.users result.users }
  let list := result.participants
  if list.isEmpty then
    some { w with _allLoaded := true }
  else
    AddParticipantBoxController.loadMoreRows_loop env w list

/-- The fail handler attached in `AddParticipantBoxController::loadMoreRows`. -/
def AddParticipantBoxController.loadMoreRows_fail (w : AddParticipantBox) : AddParticipantBox :=
  { w with _loadRequestId := 0 }

/-- What can happen to the add-participant dialog. -/
inductive AddParticipantEvent where
  | searchQuery (query : String)
  | timer
  | loadMoreRows
  | searchLoadMoreRows
  | done (requestId : Nat) (result : MTPchannels_ChannelParticipants)
  | doneFound (requestId : Nat) (result : MTPcontacts_Found)
  | fail (requestId : Nat)
  | editAdminDone (user : UserId) (rights : MTPChannelAdminRights)
  | editRestrictedDone (user : UserId) (rights : MTPChannelBannedRights)
deriving DecidableEq, Repr

/-- The unanswered request with the given id. -/
def AddParticipantBox.findRequest (w : AddParticipantBox) (requestId : Nat) :
    Option AddRequest :=
  w.requests.find? (fun r => r.id == requestId)

/-- The request is answered: it leaves the sender. -/
def AddParticipantBox.dropRequest (w : AddParticipantBox) (requestId : Nat) :
    AddParticipantBox :=
  { w with requests := w.requests.filter (fun r => r.id != requestId) }

/-- One event; `none` when the event cannot happen in this state (timer not armed, no
such unanswered request, answer of the wrong type) or the code aborts. -/
def AddParticipantBox.handle (env : Env) (w : AddParticipantBox) :
    AddParticipantEvent → Option AddParticipantBox
  | .searchQuery query => AddParticipantBoxSearchController.searchQuery env w query
  | .timer =>
    if w.search._timer then
      AddParticipantBoxSearchController.searchOnServer env
        { w with search := { w.search with _timer := false } }
    else none
  | .loadMoreRows => some (AddParticipantBoxController.loadMoreRows env w)
  | .searchLoadMoreRows => some (AddParticipantBoxSearchController.loadMoreRows env w).1
  | .done requestId result =>
    match w.findRequest requestId with
    | some r =>
      match r.handlers with
      | AddHandlers.list =>
        AddParticipantBoxController.loadMoreRows_done env (w.dropRequest requestId) result
      | AddHandlers.participants =>
        AddParticipantBoxSearchController.searchParticipantsDone env (w.dropRequest requestId)
          requestId result kParticipantsPerPage
      | AddHandlers.global => none
    | none => none
  | .doneFound requestId result =>
    match w.findRequest requestId with
    | some r =>
      match r.handlers with
      | AddHandlers.global =>
        some (AddParticipantBoxSearchController.searchGlobalDone (w.dropRequest requestId)
          requestId result)
      | _ => none
    | none => none
  | .fail requestId =>
    match w.findRequest requestId with
    | some r =>
      match r.handlers with
      | AddHandlers.list =>
        some (AddParticipantBoxController.loadMoreRows_fail (w.dropRequest requestId))
      | AddHandlers.participants =>
        some (AddParticipantBoxSearchController.requestParticipants_fail env
          (w.dropRequest requestId) requestId)
      | AddHandlers.global =>
        some (AddParticipantBoxSearchController.requestGlobal_fail (w.dropRequest requestId)
          requestId)
    | none => none
  | .editAdminDone user rights => some (AddParticipantBoxController.editAdminDone env w user rights)
  | .editRestrictedDone user rights =>
    some (AddParticipantBoxController.editRestrictedDone env w user rights)

/-- A sequence of events, from left to right. -/
def AddParticipantBox.run (env : Env) (w : AddParticipantBox) :
    List AddParticipantEvent → Option AddParticipantBox
  | [] => some w
  | e :: es =>
    match w.handle env e with
    | some w' => AddParticipantBox.run env w' es
    | none => none

/-- The dialog as the constructor leaves it. -/
def AddParticipantBox.init (role : Role) (creator : Option UserId) : AddParticipantBox :=
  { _role := role, _additional := { creator := creator } }

/-- States the add-participant dialog can be in. -/
def AddParticipantBox.Reachable (env : Env) (w : AddParticipantBox) : Prop :=
  ∃ role creator events,
    AddParticipantBox.run env (AddParticipantBox.init role creator) events = some w

/-- The members that `AddParticipantBoxSearchController::loadMoreRows` never writes
have the same value in both states. -/
def AddParticipantBox.SearchFrame (w w' : AddParticipantBox) : Prop :=
  w'.users = w.users ∧ w'.rows = w.rows ∧ w'._role = w._role ∧ w'._offset = w._offset
  ∧ w'._loadRequestId = w._loadRequestId ∧ w'._allLoaded = w._allLoaded
  ∧ w'.adminDoneCalls = w.adminDoneCalls ∧ w'.bannedDoneCalls = w.bannedDoneCalls
  ∧ w'.search._query = w.search._query ∧ w'.search._offset = w.search._offset
  ∧ w'.search._participantsLoaded = w.search._participantsLoaded
  ∧ w'.search._timer = w.search._timer
  ∧ w'.search._participantsCache = w.search._participantsCache
  ∧ w'.search._globalCache = w.search._globalCache

/-! ## Clicks in the add-participant dialog -/

/-- Texts of the boxes that `kickUser` and `editRestricted` show. -/
inductive LangKey where
  | lng_sure_ban_admin
  | lng_error_cant_ban_admin
  | lng_sure_ban_user_group
deriving DecidableEq, Repr

/-- Rights defined outside of the file: `EditRestrictedBox::DefaultRights(_channel)` and
`ChannelData::KickedRestrictedRights()`. -/
structure ChannelRights where
  defaultRestrictedRights : MTPChannelBannedRights
  kickedRestrictedRights : MTPChannelBannedRights

/-- What a call of `kickUser` or `editRestricted` ends with. The confirm callback of a
`ConfirmBox` calls the same method again with `sure = true`; the save callback of an
`EditRestrictedBox` calls `restrictUserSure` with the rights chosen; `restrictUserSure`
sends `channels.editBanned`. -/
inductive ClickResult where
  | getParticipant (user : UserId)
  | informBox (text : LangKey)
  | confirmBox (text : LangKey)
  | editRestrictedBox (user : UserId) (hasAdminRights : Bool)
      (currentRights : MTPChannelBannedRights)
  | restrictUserSure (user : UserId) (rights : MTPChannelBannedRights)
deriving DecidableEq, Repr

/-- `AddParticipantBoxController::checkInfoLoaded`: true when the user's status in the
group is known; otherwise `channels.getParticipant` is sent and the caller returns. -/
def AddParticipantBoxController.checkInfoLoaded (w : AddParticipantBox) (user : UserId) : Bool :=
  !USet.has w._additional.infoNotLoaded user

/-- `AddParticipantBoxController::restrictUserSure`. -/
def AddParticipantBoxController.restrictUserSure (user : UserId)
    (rights : MTPChannelBannedRights) : ClickResult :=
  ClickResult.restrictUserSure user rights

/-- `AddParticipantBoxController::editRestricted`. -/
def AddParticipantBoxController.editRestricted (ch : ChannelRights) (w : AddParticipantBox)
    (user : UserId) (sure : Bool) : ClickResult :=
  if !AddParticipantBoxController.checkInfoLoaded w user then ClickResult.getParticipant user
  else
    match Dict.find w._additional.restrictedRights user with
    | some alreadyIt => ClickResult.editRestrictedBox user false alreadyIt
    | none =>
      if Dict.has w._additional.adminRights user || w._additional.creator == some user then
        if USet.has w._additional.adminCanEdit user then
          if !sure then ClickResult.confirmBox LangKey.lng_sure_ban_admin
          else ClickResult.editRestrictedBox user true ch.defaultRestrictedRights
        else ClickResult.informBox LangKey.lng_error_cant_ban_admin
      else ClickResult.editRestrictedBox user false ch.defaultRestrictedRights

/-- `AddParticipantBoxController::kickUser`. -/
def AddParticipantBoxController.kickUser (ch : ChannelRights) (w : AddParticipantBox)
    (user : UserId) (sure : Bool) : ClickResult :=
  if !AddParticipantBoxController.checkInfoLoaded w user then ClickResult.getParticipant user
  else
    let finallyKick : ClickResult :=
      if !sure then ClickResult.confirmBox LangKey.lng_sure_ban_user_group
      else AddParticipantBoxController.restrictUserSure user ch.kickedRestrictedRights
    if Dict.has w._additional.adminRights user || w._additional.creator == some user then
      if USet.has w._additional.adminCanEdit user then
        if !sure then ClickResult.confirmBox LangKey.lng_sure_ban_admin
        else finallyKick
      else ClickResult.informBox LangKey.lng_error_cant_ban_admin
    else finallyKick

/-! ## Invariants of the request bookkeeping -/

/-- Ids of the unanswered list requests of the participants dialog. -/
def ParticipantsBox.listRequestIds (w : ParticipantsBox) : List Nat :=
  (w.requests.filter (fun r => r.handlers == Handlers.list)).map (fun r => r.id)

/-- Unanswered requests of the participants dialog have distinct non-zero ids that the
sender has handed out, and the unanswered list requests are exactly the one named by
`_loadRequestId` (none when it is 0). -/
def ParticipantsBox.Base (w : ParticipantsBox) : Prop :=
  (w.requests.map (fun r => r.id)).Nodup
  ∧ (∀ r ∈ w.requests, r.id ≠ 0 ∧ r.id ≤ w.lastRequestId)
  ∧ w.listRequestIds = (if w._loadRequestId = 0 then [] else [w._loadRequestId])

/-- A non-zero `_requestId` of the banned search controller names an unanswered search
request that has a pending entry and was issued for a non-empty query. -/
def ParticipantsBox.Tracked (w : ParticipantsBox) : Prop :=
  w.search._requestId ≠ 0 →
    w.search._query.isEmpty = false
    ∧ Dict.has w.search._queries w.search._requestId = true
    ∧ ∃ r ∈ w.requests, r.id = w.search._requestId ∧ r.handlers = Handlers.search

/-- Bookkeeping invariant of the participants dialog. -/
def ParticipantsBox.Inv (w : ParticipantsBox) : Prop :=
  w.Base ∧ w.Tracked

/-- Ids of the unanswered list requests of the add-participant dialog. -/
def AddParticipantBox.listRequestIds (w : AddParticipantBox) : List Nat :=
  (w.requests.filter (fun r => r.handlers == AddHandlers.list)).map (fun r => r.id)

/-- Unanswered requests of the add-participant dialog have distinct non-zero ids that
the sender has handed out, and the unanswered list requests are exactly the one named
by `_loadRequestId` (none when it is 0). -/
def AddParticipantBox.Base (w : AddParticipantBox) : Prop :=
  (w.requests.map (fun r => r.id)).Nodup
  ∧ (∀ r ∈ w.requests, r.id ≠ 0 ∧ r.id ≤ w.lastRequestId)
  ∧ w.listRequestIds = (if w._loadRequestId = 0 then [] else [w._loadRequestId])

/-- A non-zero `_requestId` of the add-participant search controller names an unanswered
request issued for a non-empty query: a participants request with an entry in
`_participantsQueries` or a global request with an entry in `_globalQueries`. -/
def AddParticipantBox.Tracked (w : AddParticipantBox) : Prop :=
  w.search._requestId ≠ 0 →
    w.search._query.isEmpty = false
    ∧ ∃ r ∈ w.requests, r.id = w.search._requestId
        ∧ ((r.handlers = AddHandlers.participants
              ∧ Dict.has w.search._participantsQueries w.search._requestId = true)
           ∨ (r.handlers = AddHandlers.global
              ∧ Dict.has w.search._globalQueries w.search._requestId = true))

/-- Bookkeeping invariant of the add-participant dialog. -/
def AddParticipantBox.Inv (w : AddParticipantBox) : Prop :=
  w.Base ∧ w.Tracked

/-- What the banned search shows is the same in both states: the tracked request id, the
offset, the loaded flag, the additional-info record and the search rows. -/
def ParticipantsBox.SameSearch (w w' : ParticipantsBox) : Prop :=
  w'.search._requestId = w.search._requestId ∧ w'.search._offset = w.search._offset
  ∧ w'.search._allLoaded = w.search._allLoaded ∧ w'._additional = w._additional
  ∧ w'.searchRows = w.searchRows

/-- What the add-participant search shows is the same in both states: the tracked request
id, the offset, the loaded flags, the additional-info record and the search rows. -/
def AddParticipantBox.SameSearch (v v' : AddParticipantBox) : Prop :=
  v'.search._requestId = v.search._requestId ∧ v'.search._offset = v.search._offset
  ∧ v'.search._participantsLoaded = v.search._participantsLoaded
  ∧ v'.search._globalLoaded = v.search._globalLoaded ∧ v'._additional = v._additional
  ∧ v'.searchRows = v.searchRows

/-- The search text inside the filter of a `channels.getParticipants` request. -/
def Filter.text : Filter → String
  | .Admins => ""
  | .Banned q => q
  | .Kicked q => q

/-- The pending map of the banned search agrees with the requests that were sent: ids
come from the sender, and every unanswered search request has an entry that records the
query text and the offset the request was issued with, and asked for a full page. -/
def ParticipantsBox.Pending (w : ParticipantsBox) : Prop :=
  (∀ r ∈ w.requests, r.id ≤ w.lastRequestId)
  ∧ (∀ k, Dict.has w.search._queries k = true → k ≤ w.lastRequestId)
  ∧ (∀ r ∈ w.requests, r.handlers = Handlers.search →
      Dict.find w.search._queries r.id = some { text := r.filter.text, offset := r.offset }
      ∧ r.limit = kParticipantsPerPage)

/-- The pending map of the participants search of the add-participant dialog agrees with
the requests that were sent: ids come from the sender, and every unanswered participants
request has an entry that records the query text and the offset the request was issued
with, and asked for a full page. -/
def AddParticipantBox.Pending (v : AddParticipantBox) : Prop :=
  (∀ r ∈ v.requests, r.id ≤ v.lastRequestId)
  ∧ (∀ k, Dict.has v.search._participantsQueries k = true → k ≤ v.lastRequestId)
  ∧ (∀ r ∈ v.requests, r.handlers = AddHandlers.participants →
      Dict.find v.search._participantsQueries r.id = some { text := r.query, offset := r.offset }
      ∧ r.limit = kParticipantsPerPage)

/-! ## Sample values -/

/-- An environment in which `f_view_messages` is the lowest bit and user 1 is logged in. -/
def sampleEnv : Env :=
  { f_view_messages := 1, self := 1, MinUsernameLength := 5, SearchPeopleLimit := 5
    chatsContacts := fun _ => [] }

/-- The rights of a full ban: `view_messages` is set. -/
def sampleKickedRights : MTPChannelBannedRights := { flags := 1, until_date := 0 }

/-- An add-participant dialog that knows user 7 and has an empty record. -/
def sampleAddBox : AddParticipantBox := { _role := Role.Kicked, users := [7] }

/-- A record in which user 7 is external only. -/
def sampleExternalRecord : Additional := { external := [7] }

/-- User 7 reported as an admin promoted by user 1. -/
def sampleAdminParticipant : MTPChannelParticipant :=
  .channelParticipantAdmin true 7 1 { flags := 1 }

/-- A full first page of search results: 200 restricted participants. -/
def samplePage1 : MTPchannels_ChannelParticipants :=
  { participants :=
      List.replicate 200 (.channelParticipantBanned false 7 { flags := 2, until_date := 0 })
    users := [7] }

/-- A second, empty page. -/
def samplePage2 : MTPchannels_ChannelParticipants :=
  { participants := [], users := [] }

/-- The query "a" is typed, the timer fires, the first page arrives, the list is
scrolled and the second page is requested. -/
def sampleSearchEvents : List ParticipantsEvent :=
  [.searchQuery "a", .timer, .done 1 samplePage1, .searchLoadMoreRows]

/-- A banned-search dialog in which request 1 for the query "a" at offset 0 is the
tracked request. -/
def sampleBannedPending : ParticipantsBox :=
  { _role := Role.Restricted, lastRequestId := 1
    requests := [{ id := 1, handlers := Handlers.search, filter := Filter.Banned "a",
                   offset := 0, limit := 200 }]
    search := { _query := "a", _requestId := 1, _queries := [(1, { text := "a", offset := 0 })] } }

/-- An add-participant dialog in which request 1 for the query "a" at offset 0 is the
tracked participants request. -/
def sampleAddPending : AddParticipantBox :=
  { _role := Role.Admins, lastRequestId := 1
    requests := [{ id := 1, handlers := AddHandlers.participants, query := "a",
                   offset := 0, limit := 200 }]
    search := { _query := "a", _requestId := 1
                _participantsQueries := [(1, { text := "a", offset := 0 })] } }

/-- The participant has one of the types `AddParticipantBoxController::HandleParticipant`
expects. -/
def MTPChannelParticipant.expected : MTPChannelParticipant → Bool
  | .channelParticipantSelf _ => false
  | _ => true

/-- Two queries are typed one after the other, the timer firing after each. -/
def sampleTwoQueries : List ParticipantsEvent :=
  [.searchQuery "a", .timer, .searchQuery "b", .timer]

/-- The admins dialog right after `prepare()`: the first page of the list is requested. -/
def sampleListLoading : ParticipantsBox :=
  { _role := Role.Admins, lastRequestId := 1, _loadRequestId := 1
    requests := [{ id := 1, handlers := Handlers.list, filter := Filter.Admins,
                   offset := 0, limit := 16 }] }

/-- The add-participant dialog right after `prepare()`. -/
def sampleAddListLoading : AddParticipantBox :=
  { _role := Role.Admins, lastRequestId := 1, _loadRequestId := 1
    requests := [{ id := 1, handlers := AddHandlers.list, query := "",
                   offset := 0, limit := 16 }] }

/-- A query long enough for the global search is typed, the timer fires and the
participants request fails. -/
def sampleFailedParticipantsSearch : List AddParticipantEvent :=
  [.searchQuery "abcde", .timer, .fail 1]

/-- Sample rights of the channel: the default restriction and the full ban. -/
def sampleChannelRights : ChannelRights :=
  { defaultRestrictedRights := { flags := 2, until_date := 0 }
    kickedRestrictedRights := sampleKickedRights }

/-- The query "abcde" is searched without any result, neither among the participants
nor globally, and then the query "x" is typed. -/
def sampleEmptySearchEvents : List AddParticipantEvent :=
  [.searchQuery "abcde", .timer, .done 1 samplePage2,
   .doneFound 2 { results := [], users := [] }, .searchQuery "x"]

/-- The add-participant dialog after `sampleEmptySearchEvents`: the timer of the query
"x" is armed and the empty results for "abcde" are cached. -/
def sampleEmptyCached : AddParticipantBox :=
  { _role := Role.Admins, lastRequestId := 2
    search := { _query := "x", _timer := true
                _participantsCache := [("abcde", { result := samplePage2, requestedCount := 200 })]
                _globalCache := [("abcde", { results := [], users := [] })] } }

/-- An admins dialog in which user 7 is an admin promoted by user 3. -/
def samplePromoted : ParticipantsBox :=
  { _role := Role.Admins, rows := [7]
    _additional := { adminRights := [(7, { flags := 1 })], adminCanEdit := [7],
                     adminPromotedBy := [(7, 3)] } }

/-- The first page of the admins list arrives with the admin of `sampleAdminParticipant`. -/
def sampleAdminsEvents : List ParticipantsEvent :=
  [.loadMoreRows, .done 1 { participants := [sampleAdminParticipant], users := [7, 1] }]

/-- The admins dialog after `sampleAdminsEvents`: user 7 is an admin that can be edited. -/
def sampleAdminsLoaded : ParticipantsBox :=
  { _role := Role.Admins, users := [7, 1], lastRequestId := 1, rows := [7], _offset := 1
    _additional := { adminRights := [(7, { flags := 1 })], adminCanEdit := [7],
                     adminPromotedBy := [(7, 1)] } }

/-! ## Container facts -/

section ContainerFacts
variable {κ α : Type} [DecidableEq κ]

theorem Dict.find_erase (m : Dict κ α) (k k' : κ) :
    Dict.find (Dict.erase m k) k' = if k' = k then none else Dict.find m k' := by
  induction m with
  | nil => simp [Dict.erase, Dict.find]
  | cons e m ih =>
    obtain ⟨a, b⟩ := e
    unfold Dict.erase at ih ⊢
    by_cases h : a = k
    · subst h
      by_cases h2 : k' = a
      · subst h2; simpa [List.filter, Dict.find] using ih
      · have h3 : ¬ a = k' := fun h => h2 h.symm
        simpa [List.filter, Dict.find, h2, h3] using ih
    · by_cases h2 : k' = k
      · subst h2
        simpa [List.filter, Dict.find, h] using ih
      · by_cases h3 : a = k'
        · subst h3; simp [List.filter, Dict.find, h]
        · simpa [List.filter, Dict.find, h, h2, h3] using ih

theorem Dict.find_assign (m : Dict κ α) (k k' : κ) (v : α) :
    Dict.find (Dict.assign m k v) k' = if k' = k then some v else Dict.find m k' := by
  unfold Dict.assign
  by_cases h : k' = k
  · subst h; simp [Dict.find]
  · have h2 : ¬ k = k' := fun e => h e.symm
    simp [Dict.find, h, h2, Dict.find_erase]

theorem Dict.find_emplace (m : Dict κ α) (k k' : κ) (v : α) :
    Dict.find (Dict.emplace m k v) k'
      = if k' = k then (match Dict.find m k with | some x => some x | none => some v)
        else Dict.find m k' := by
  unfold Dict.emplace
  by_cases h : k' = k
  · subst h
    cases hf : Dict.find m k' <;> simp [Dict.find, hf]
  · have h2 : ¬ k = k' := fun e => h e.symm
    cases hf : Dict.find m k <;> simp [Dict.find, h, h2]

theorem Dict.has_erase (m : Dict κ α) (k k' : κ) :
    Dict.has (Dict.erase m k) k' = (decide (k' ≠ k) && Dict.has m k') := by
  unfold Dict.has
  rw [Dict.find_erase]
  by_cases h : k' = k <;> simp [h]

theorem Dict.has_assign (m : Dict κ α) (k k' : κ) (v : α) :
    Dict.has (Dict.assign m k v) k' = (decide (k' = k) || Dict.has m k') := by
  unfold Dict.has
  rw [Dict.find_assign]
  by_cases h : k' = k <;> simp [h]

theorem Dict.has_emplace (m : Dict κ α) (k k' : κ) (v : α) :
    Dict.has (Dict.emplace m k v) k' = (decide (k' = k) || Dict.has m k') := by
  unfold Dict.has
  rw [Dict.find_emplace]
  by_cases h : k' = k
  · subst h
    cases hf : Dict.find m k' <;> simp
  · simp [h]

end ContainerFacts

theorem USet.mem_after_erase (s : USet) (u u' : UserId) :
    USet.has (USet.erase s u) u' = (decide (u' ≠ u) && USet.has s u') := by
  unfold USet.has USet.erase
  by_cases h : u' = u
  · subst h; simp
  · by_cases h2 : u' ∈ s <;> simp [h, h2]

theorem USet.mem_after_emplace (s : USet) (u u' : UserId) :
    USet.has (USet.emplace s u) u' = (decide (u' = u) || USet.has s u') := by
  unfold USet.has USet.emplace
  by_cases h : u' = u
  · subst h
    by_cases h2 : u' ∈ s <;> simp [h2]
  · by_cases h2 : u ∈ s <;> simp [h, h2]

/-! ## The additional-info record under ParticipantsBoxController -/

@[simp] theorem ParticipantsBoxController.removeRow_additional (w : ParticipantsBox) (user : UserId) :
    (ParticipantsBoxController.removeRow w user)._additional = w._additional := by
  unfold ParticipantsBoxController.removeRow; split <;> rfl

@[simp] theorem ParticipantsBoxController.prependRow_additional (w : ParticipantsBox) (user : UserId) :
    (ParticipantsBoxController.prependRow w user)._additional = w._additional := by
  unfold ParticipantsBoxController.prependRow; split <;> rfl

@[simp] theorem ParticipantsBoxController.appendRow_additional (w : ParticipantsBox) (user : UserId) :
    (ParticipantsBoxController.appendRow w user)._additional = w._additional := by
  unfold ParticipantsBoxController.appendRow; split <;> rfl

/-- With no external user, exclusivity says that the three other sets are pairwise apart. -/
theorem Additional.exclusive_iff_of_external_nil (a : Additional) (hx : a.external = []) :
    a.Exclusive ↔ ∀ u : UserId,
      (Dict.has a.adminRights u = true → USet.has a.kicked u = false
        ∧ Dict.has a.restrictedRights u = false)
      ∧ (USet.has a.kicked u = true → Dict.has a.restrictedRights u = false) := by
  unfold Additional.Exclusive Additional.occupancy
  constructor
  · intro h u
    have hu := h u
    simp only [hx] at hu
    cases h1 : Dict.has a.adminRights u <;> cases h2 : USet.has a.kicked u <;>
      cases h3 : Dict.has a.restrictedRights u <;> simp_all [USet.has]
  · intro h u
    obtain ⟨ha, hk⟩ := h u
    simp only [hx]
    cases h1 : Dict.has a.adminRights u <;> cases h2 : USet.has a.kicked u <;>
      cases h3 : Dict.has a.restrictedRights u <;> simp_all [USet.has]

theorem ParticipantsBoxController.editAdminDone_keeps (env : Env) (w : ParticipantsBox)
    (user : UserId) (rights : MTPChannelAdminRights)
    (h : w._additional.Exclusive) (hx : w._additional.external = []) :
    (ParticipantsBoxController.editAdminDone env w user rights)._additional.Exclusive
      ∧ (ParticipantsBoxController.editAdminDone env w user rights)._additional.external = [] := by
  have hx' : (ParticipantsBoxController.editAdminDone env w user rights)._additional.external = [] := by
    unfold ParticipantsBoxController.editAdminDone
    by_cases hf : rights.flags = 0 <;> by_cases hr : w._role = Role.Admins <;> simp [hf, hr, hx]
  refine ⟨?_, hx'⟩
  rw [Additional.exclusive_iff_of_external_nil _ hx']
  rw [Additional.exclusive_iff_of_external_nil _ hx] at h
  intro u
  obtain ⟨ha, hk⟩ := h u
  unfold ParticipantsBoxController.editAdminDone
  by_cases hf : rights.flags = 0 <;> by_cases hr : w._role = Role.Admins <;>
    by_cases hu : u = user <;>
    simp [hf, hr, hu, Dict.has_erase, Dict.has_assign, USet.mem_after_erase] <;>
    simp_all

theorem ParticipantsBoxController.editRestrictedDone_keeps (env : Env) (w : ParticipantsBox)
    (user : UserId) (rights : MTPChannelBannedRights)
    (h : w._additional.Exclusive) (hx : w._additional.external = []) :
    (ParticipantsBoxController.editRestrictedDone env w user rights)._additional.Exclusive
      ∧ (ParticipantsBoxController.editRestrictedDone env w user rights)._additional.external = [] := by
  have hx' : (ParticipantsBoxController.editRestrictedDone env w user rights)._additional.external
      = [] := by
    unfold ParticipantsBoxController.editRestrictedDone
    by_cases hf : rights.flags = 0 <;> by_cases hv : rights.is_view_messages env = true <;>
      by_cases hr : w._role = Role.Admins <;> by_cases hr2 : w._role = Role.Kicked <;>
      by_cases hr3 : w._role = Role.Restricted <;> simp [hf, hr, hr2, hr3, hv, hx]
  refine ⟨?_, hx'⟩
  rw [Additional.exclusive_iff_of_external_nil _ hx']
  rw [Additional.exclusive_iff_of_external_nil _ hx] at h
  intro u
  obtain ⟨ha, hk⟩ := h u
  unfold ParticipantsBoxController.editRestrictedDone
  by_cases hf : rights.flags = 0 <;> by_cases hv : rights.is_view_messages env = true <;>
    by_cases hr : w._role = Role.Admins <;> by_cases hr2 : w._role = Role.Kicked <;>
    by_cases hr3 : w._role = Role.Restricted <;>
    by_cases hu : u = user <;>
    simp [hf, hr, hr2, hr3, hv, hu, Dict.has_erase, Dict.has_assign, USet.mem_after_erase,
      USet.mem_after_emplace] <;>
    simp_all

/-- C2: starting from the record the constructor leaves, after every sequence of
editAdminDone / editRestrictedDone calls of ParticipantsBoxController (any users, any
rights) every user is in at most one of the admin-rights map, the kicked set, the
restricted-rights map and the external set. -/
theorem ParticipantsBoxController.editCalls_exclusive (env : Env) (role : Role)
    (creator : Option UserId) (calls : List EditCall) :
    (ParticipantsBoxController.editCalls env (ParticipantsBox.init role creator)
      calls)._additional.Exclusive := by
  have key : ∀ (calls : List EditCall) (w : ParticipantsBox),
      w._additional.Exclusive → w._additional.external = [] →
      (ParticipantsBoxController.editCalls env w calls)._additional.Exclusive := by
    intro calls
    induction calls with
    | nil => intro w h _; exact h
    | cons c cs ih =>
      intro w h hx
      cases c with
      | admin user rights =>
        obtain ⟨h1, h2⟩ := ParticipantsBoxController.editAdminDone_keeps env w user rights h hx
        exact ih _ h1 h2
      | restricted user rights =>
        obtain ⟨h1, h2⟩ := ParticipantsBoxController.editRestrictedDone_keeps env w user rights h hx
        exact ih _ h1 h2
  apply key
  · intro u
    simp [ParticipantsBox.init, Additional.occupancy, Dict.has, Dict.find, USet.has]
  · rfl

/-! ## The additional-info record under AddParticipantBoxController -/

theorem AddParticipantBoxController.editAdminDone_adminApart (env : Env) (w : AddParticipantBox)
    (user : UserId) (rights : MTPChannelAdminRights) (h : w._additional.AdminApart) :
    (AddParticipantBoxController.editAdminDone env w user rights)._additional.AdminApart := by
  intro u
  have hu := h u
  unfold AddParticipantBoxController.editAdminDone
  by_cases hf : rights.flags = 0 <;> by_cases he : u = user
  · simp [hf, he, Dict.has_erase, USet.mem_after_erase]
  · simpa [hf, he, Dict.has_erase, USet.mem_after_erase] using hu
  · cases hp : Dict.find w._additional.adminPromotedBy user <;>
      simp [hf, he, hp, Dict.has_erase, USet.mem_after_erase]
  · cases hp : Dict.find w._additional.adminPromotedBy user <;>
      simpa [hf, he, hp, Dict.has_erase, Dict.has_assign, USet.mem_after_erase] using hu

theorem AddParticipantBoxController.editAdminDone_exclusive (env : Env) (w : AddParticipantBox)
    (user : UserId) (rights : MTPChannelAdminRights) (h : w._additional.Exclusive) :
    (AddParticipantBoxController.editAdminDone env w user rights)._additional.Exclusive := by
  intro u
  have hu := h u
  unfold Additional.occupancy at hu ⊢
  unfold AddParticipantBoxController.editAdminDone
  by_cases hf : rights.flags = 0 <;> by_cases he : u = user
  · simp [hf, he, Dict.has_erase, USet.mem_after_erase]
  · simpa [hf, he, Dict.has_erase, USet.mem_after_erase] using hu
  · cases hp : Dict.find w._additional.adminPromotedBy user <;>
      simp [hf, he, hp, Dict.has_erase, Dict.has_assign, USet.mem_after_erase]
  · cases hp : Dict.find w._additional.adminPromotedBy user <;>
      simpa [hf, he, hp, Dict.has_erase, Dict.has_assign, USet.mem_after_erase] using hu

theorem AddParticipantBoxController.editRestrictedDone_adminApart (env : Env)
    (w : AddParticipantBox) (user : UserId) (rights : MTPChannelBannedRights)
    (h : w._additional.AdminApart) :
    (AddParticipantBoxController.editRestrictedDone env w user rights)._additional.AdminApart := by
  intro u
  have hu := h u
  unfold AddParticipantBoxController.editRestrictedDone
  by_cases hf : rights.flags = 0 <;> by_cases hv : rights.flags &&& env.f_view_messages = 0 <;>
    by_cases he : u = user
  all_goals
    simp [hf, hv, he, Dict.has_erase, Dict.has_assign, USet.mem_after_erase, USet.mem_after_emplace] <;>
    simp_all

theorem AddParticipantBoxController.HandleParticipant_adminApart (users : List UserId)
    (participant : MTPChannelParticipant) (a a' : Additional) (cb : Option UserId)
    (h : a.AdminApart)
    (hr : AddParticipantBoxController.HandleParticipant users participant a = some (a', cb)) :
    a'.AdminApart := by
  intro u
  have hu := h u
  unfold AddParticipantBoxController.HandleParticipant at hr
  cases participant with
  | channelParticipant user_id =>
    by_cases hl : user_id ∈ users
    · simp [userLoaded, hl] at hr
      obtain ⟨rfl, -⟩ := hr
      by_cases he : u = user_id <;> simp [he, Dict.has_erase, USet.mem_after_erase]
      simpa [he] using hu
    · simp [userLoaded, hl] at hr
      obtain ⟨rfl, -⟩ := hr
      exact hu
  | channelParticipantSelf user_id => simp at hr
  | channelParticipantCreator user_id =>
    by_cases hl : user_id ∈ users
    · simp [userLoaded, hl] at hr
      obtain ⟨rfl, -⟩ := hr
      exact hu
    · simp [userLoaded, hl] at hr
      obtain ⟨rfl, -⟩ := hr
      exact hu
  | channelParticipantAdmin can_edit user_id promoted_by admin_rights =>
    by_cases hl : user_id ∈ users
    · have hkr : Dict.has a'.adminRights u = (decide (u = user_id) || Dict.has a.adminRights u)
          ∧ USet.has a'.kicked u = (decide (u ≠ user_id) && USet.has a.kicked u)
          ∧ Dict.has a'.restrictedRights u
            = (decide (u ≠ user_id) && Dict.has a.restrictedRights u) := by
        cases can_edit <;> by_cases hp : promoted_by ∈ users <;>
          cases hq : Dict.find a.adminPromotedBy user_id <;>
          simp [userLoaded, hl, hp, hq] at hr <;> obtain ⟨rfl, -⟩ := hr <;>
          simp [Dict.has_erase, Dict.has_assign, USet.mem_after_erase]
      obtain ⟨h1, h2, h3⟩ := hkr
      rw [h1, h2, h3]
      by_cases he : u = user_id
      · simp [he]
      · simpa [he] using hu
    · simp [userLoaded, hl] at hr
      obtain ⟨rfl, -⟩ := hr
      exact hu
  | channelParticipantBanned left user_id banned_rights =>
    by_cases hl : user_id ∈ users
    · have hkr : Dict.has a'.adminRights u = (decide (u ≠ user_id) && Dict.has a.adminRights u)
          ∧ USet.has a'.kicked u = (if u = user_id then left else USet.has a.kicked u)
          ∧ Dict.has a'.restrictedRights u
            = (decide (u = user_id) || Dict.has a.restrictedRights u) := by
        cases left <;> simp [userLoaded, hl] at hr <;> obtain ⟨rfl, -⟩ := hr <;>
          by_cases he : u = user_id <;>
          simp [he, Dict.has_erase, Dict.has_assign, USet.mem_after_erase, USet.mem_after_emplace]
      obtain ⟨h1, h2, h3⟩ := hkr
      rw [h1, h2, h3]
      by_cases he : u = user_id
      · simp [he]
      · simpa [he] using hu
    · simp [userLoaded, hl] at hr
      obtain ⟨rfl, -⟩ := hr
      exact hu

theorem AddParticipantBoxController.HandleParticipant_isSome (users : List UserId)
    (participant : MTPChannelParticipant) (a : Additional)
    (h : ∀ id, participant ≠ .channelParticipantSelf id) :
    (AddParticipantBoxController.HandleParticipant users participant a).isSome = true := by
  unfold AddParticipantBoxController.HandleParticipant
  cases participant with
  | channelParticipantSelf user_id => exact absurd rfl (h user_id)
  | channelParticipant user_id => by_cases hl : user_id ∈ users <;> simp [userLoaded, hl]
  | channelParticipantCreator user_id => by_cases hl : user_id ∈ users <;> simp [userLoaded, hl]
  | channelParticipantAdmin can_edit user_id promoted_by admin_rights =>
    by_cases hl : user_id ∈ users <;> simp [userLoaded, hl]
  | channelParticipantBanned left user_id banned_rights =>
    by_cases hl : user_id ∈ users <;> simp [userLoaded, hl]

/-- C1 (as stated, refuted): in AddParticipantBoxController a full ban reported by
editRestrictedDone leaves user 7 both in the restricted-rights map and in the kicked
set although the record before was exclusive, and HandleParticipant for an admin
leaves a user that was external both in the admin-rights map and in the external set. -/
theorem AddParticipantBoxController.exclusive_not_preserved :
    sampleAddBox._additional.Exclusive
    ∧ (AddParticipantBoxController.editRestrictedDone sampleEnv sampleAddBox 7
        sampleKickedRights)._additional.occupancy 7 = 2
    ∧ ¬ (AddParticipantBoxController.editRestrictedDone sampleEnv sampleAddBox 7
        sampleKickedRights)._additional.Exclusive
    ∧ sampleExternalRecord.Exclusive
    ∧ (AddParticipantBoxController.HandleParticipant [1, 7] sampleAdminParticipant
        sampleExternalRecord).map (fun r => r.1.occupancy 7) = some 2 := by
  refine ⟨?_, by decide, ?_, ?_, by decide⟩
  · intro u
    simp [sampleAddBox, Additional.occupancy, Dict.has, Dict.find, USet.has]
  · intro h
    exact absurd (h 7) (by decide)
  · intro u
    by_cases hu : u = 7 <;>
      simp [sampleExternalRecord, Additional.occupancy, Dict.has, Dict.find, USet.has, hu]

theorem AddParticipantBoxController.editRestrictedDone_full_ban (env : Env)
    (w : AddParticipantBox) (user : UserId) (rights : MTPChannelBannedRights)
    (hv : rights.flags &&& env.f_view_messages ≠ 0) :
    USet.has (AddParticipantBoxController.editRestrictedDone env w user rights)._additional.kicked
        user = true
    ∧ Dict.find
        (AddParticipantBoxController.editRestrictedDone env w user
          rights)._additional.restrictedRights user = some rights := by
  have hf : rights.flags ≠ 0 := by
    intro h0
    rw [h0] at hv
    simp at hv
  unfold AddParticipantBoxController.editRestrictedDone
  simp [hf, hv, USet.mem_after_emplace, Dict.find_assign]

theorem AddParticipantBoxController.HandleParticipant_left (users : List UserId)
    (a : Additional) (user_id : Nat) (rights : MTPChannelBannedRights)
    (hl : userLoaded users user_id = some user_id) :
    ∃ a', AddParticipantBoxController.HandleParticipant users
        (.channelParticipantBanned true user_id rights) a = some (a', some user_id)
      ∧ USet.has a'.kicked user_id = true
      ∧ Dict.find a'.restrictedRights user_id = some rights := by
  unfold AddParticipantBoxController.HandleParticipant
  simp only [hl, if_true]
  exact ⟨_, rfl, by simp [USet.mem_after_emplace], by simp [Dict.find_assign]⟩

theorem AddParticipantBoxController.HandleParticipant_external (users : List UserId)
    (participant : MTPChannelParticipant) (a a' : Additional) (cb : Option UserId)
    (hr : AddParticipantBoxController.HandleParticipant users participant a = some (a', cb)) :
    a'.external = a.external := by
  unfold AddParticipantBoxController.HandleParticipant at hr
  cases participant <;> simp only [] at hr
  all_goals repeat' split at hr
  all_goals first
    | (simp only [Option.some.injEq, Prod.mk.injEq] at hr; rw [← hr.1])
    | simp at hr

/-- C1 (amended): every operation of AddParticipantBoxController that updates the
additional-info record (editAdminDone, editRestrictedDone, HandleParticipant for each
participant type it accepts) preserves that no user with an admin-rights entry is in
the kicked set or in the restricted-rights map; HandleParticipant returns a record for
every participant type but channelParticipantSelf; editAdminDone preserves that each
user is in at most one of admin, kicked, restricted, external. A fully banned user is
kept in both the kicked set and the restricted-rights map: after editRestrictedDone
with `view_messages` set, and after HandleParticipant for a banned participant that
has left. The external set is written by editAdminDone only, which erases the user;
editRestrictedDone and HandleParticipant leave it as it is. -/
theorem AddParticipantBoxController.updates_keep_adminApart (env : Env) (w : AddParticipantBox)
    (user : UserId) (adminRights : MTPChannelAdminRights) (bannedRights : MTPChannelBannedRights)
    (users : List UserId) (participant : MTPChannelParticipant)
    (h : w._additional.AdminApart) :
    (AddParticipantBoxController.editAdminDone env w user adminRights)._additional.AdminApart
    ∧ (AddParticipantBoxController.editRestrictedDone env w user bannedRights)._additional.AdminApart
    ∧ (∀ a' cb, AddParticipantBoxController.HandleParticipant users participant w._additional
          = some (a', cb) → a'.AdminApart)
    ∧ ((∀ id, participant ≠ .channelParticipantSelf id) →
        (AddParticipantBoxController.HandleParticipant users participant w._additional).isSome
          = true)
    ∧ (w._additional.Exclusive →
        (AddParticipantBoxController.editAdminDone env w user adminRights)._additional.Exclusive)
    ∧ (bannedRights.flags &&& env.f_view_messages ≠ 0 →
        USet.has
            (AddParticipantBoxController.editRestrictedDone env w user
              bannedRights)._additional.kicked user = true
        ∧ Dict.find
            (AddParticipantBoxController.editRestrictedDone env w user
              bannedRights)._additional.restrictedRights user = some bannedRights)
    ∧ (∀ user_id rights, userLoaded users user_id = some user_id →
        ∃ a', AddParticipantBoxController.HandleParticipant users
            (.channelParticipantBanned true user_id rights) w._additional
              = some (a', some user_id)
          ∧ USet.has a'.kicked user_id = true
          ∧ Dict.find a'.restrictedRights user_id = some rights)
    ∧ (AddParticipantBoxController.editAdminDone env w user adminRights)._additional.external
        = USet.erase w._additional.external user
    ∧ (AddParticipantBoxController.editRestrictedDone env w user bannedRights)._additional.external
        = w._additional.external
    ∧ (∀ a' cb, AddParticipantBoxController.HandleParticipant users participant w._additional
          = some (a', cb) → a'.external = w._additional.external) :=
  ⟨AddParticipantBoxController.editAdminDone_adminApart env w user adminRights h,
   AddParticipantBoxController.editRestrictedDone_adminApart env w user bannedRights h,
   fun a' cb hr =>
     AddParticipantBoxController.HandleParticipant_adminApart users participant _ a' cb h hr,
   AddParticipantBoxController.HandleParticipant_isSome users participant _,
   AddParticipantBoxController.editAdminDone_exclusive env w user adminRights,
   AddParticipantBoxController.editRestrictedDone_full_ban env w user bannedRights,
   fun user_id rights hl =>
     AddParticipantBoxController.HandleParticipant_left users _ user_id rights hl,
   by
     unfold AddParticipantBoxController.editAdminDone
     simp only []
     repeat' split
     all_goals rfl,
   by
     unfold AddParticipantBoxController.editRestrictedDone
     simp only []
     repeat' split
     all_goals rfl,
   fun a' cb hr =>
     AddParticipantBoxController.HandleParticipant_external users participant _ a' cb hr⟩

theorem AddParticipantBoxController.updates_keep_adminApart_witness :
    sampleAddBox._additional.AdminApart
    ∧ (AddParticipantBoxController.editRestrictedDone sampleEnv sampleAddBox 7
        sampleKickedRights)._additional.AdminApart
    ∧ sampleKickedRights.flags &&& sampleEnv.f_view_messages ≠ 0
    ∧ USet.has (AddParticipantBoxController.editRestrictedDone sampleEnv sampleAddBox 7
        sampleKickedRights)._additional.kicked 7 = true
    ∧ Dict.find (AddParticipantBoxController.editRestrictedDone sampleEnv sampleAddBox 7
        sampleKickedRights)._additional.restrictedRights 7 = some sampleKickedRights :=
  have h0 : sampleAddBox._additional.AdminApart := by
    intro u
    simp [sampleAddBox, Dict.has, Dict.find]
  ⟨h0, (AddParticipantBoxController.updates_keep_adminApart sampleEnv sampleAddBox 7
    { flags := 1 } sampleKickedRights [7] sampleAdminParticipant h0).2.1, by decide,
   (AddParticipantBoxController.updates_keep_adminApart sampleEnv sampleAddBox 7
    { flags := 1 } sampleKickedRights [7] sampleAdminParticipant h0).2.2.2.2.2.1 (by decide)⟩

/-! ## BannedBoxSearchController: what a response changes -/

theorem BannedBoxSearchController.searchDone_loop_frame (list : List MTPChannelParticipant) :
    ∀ w : ParticipantsBox, ∃ a rows,
      BannedBoxSearchController.searchDone_loop w list
        = { w with _additional := a, searchRows := rows } := by
  induction list with
  | nil => intro w; exact ⟨w._additional, w.searchRows, rfl⟩
  | cons participant rest ih =>
    intro w
    unfold BannedBoxSearchController.searchDone_loop
    rcases hp : ParticipantsBoxController.HandleParticipant w.users participant w._role
      w._additional with ⟨a, cb⟩
    cases cb with
    | none =>
      obtain ⟨a', rows', h⟩ := ih { w with _additional := a }
      exact ⟨a', rows', h⟩
    | some user =>
      obtain ⟨a', rows', h⟩ :=
        ih (ParticipantsBox.peerListSearchAddRow { w with _additional := a } user)
      exact ⟨a', rows', h⟩

theorem BannedBoxSearchController.searchDone_loop_search (w : ParticipantsBox)
    (list : List MTPChannelParticipant) :
    (BannedBoxSearchController.searchDone_loop w list).search = w.search
    ∧ (BannedBoxSearchController.searchDone_loop w list).users = w.users
    ∧ (BannedBoxSearchController.searchDone_loop w list).requests = w.requests
    ∧ (BannedBoxSearchController.searchDone_loop w list).lastRequestId = w.lastRequestId
    ∧ (BannedBoxSearchController.searchDone_loop w list).rows = w.rows
    ∧ (BannedBoxSearchController.searchDone_loop w list)._role = w._role
    ∧ (BannedBoxSearchController.searchDone_loop w list)._offset = w._offset
    ∧ (BannedBoxSearchController.searchDone_loop w list)._loadRequestId = w._loadRequestId
    ∧ (BannedBoxSearchController.searchDone_loop w list)._allLoaded = w._allLoaded := by
  obtain ⟨a, rows, h⟩ := BannedBoxSearchController.searchDone_loop_frame list w
  rw [h]
  simp

theorem BannedBoxSearchController.searchDone_store_frame (w : ParticipantsBox)
    (requestId : Nat) (result : MTPchannels_ChannelParticipants) (requestedCount : Nat) :
    ∃ users cache queries,
      BannedBoxSearchController.searchDone_store w requestId result requestedCount
        = { w with users := users,
                   search := { w.search with _cache := cache, _queries := queries } } := by
  unfold BannedBoxSearchController.searchDone_store
  by_cases hr : requestId = 0
  · exact ⟨w.users, w.search._cache, w.search._queries, by simp [hr]⟩
  · cases hf : Dict.find w.search._queries requestId with
    | none => exact ⟨feedUsers w.users result.users, w.search._cache, w.search._queries,
        by simp [hr, hf]⟩
    | some it =>
      by_cases ho : it.offset = 0
      · exact ⟨feedUsers w.users result.users,
          Dict.assign w.search._cache it.text
            { result := result, requestedCount := requestedCount },
          Dict.erase w.search._queries requestId, by simp [hr, hf, ho]⟩
      · exact ⟨feedUsers w.users result.users, w.search._cache,
          Dict.erase w.search._queries requestId, by simp [hr, hf, ho]⟩

theorem BannedBoxSearchController.searchDone_store_cache (w : ParticipantsBox)
    (requestId : Nat) (result : MTPchannels_ChannelParticipants) (requestedCount : Nat) :
    (BannedBoxSearchController.searchDone_store w requestId result requestedCount).search._cache
      = if requestId = 0 then w.search._cache
        else match Dict.find w.search._queries requestId with
          | some it =>
            if it.offset = 0 then
              Dict.assign w.search._cache it.text
                { result := result, requestedCount := requestedCount }
            else w.search._cache
          | none => w.search._cache := by
  unfold BannedBoxSearchController.searchDone_store
  by_cases hr : requestId = 0
  · simp [hr]
  · cases hf : Dict.find w.search._queries requestId with
    | none => simp [hr, hf]
    | some it => by_cases ho : it.offset = 0 <;> simp [hr, hf, ho]

theorem BannedBoxSearchController.searchDone_store_queries (w : ParticipantsBox)
    (requestId : Nat) (result : MTPchannels_ChannelParticipants) (requestedCount : Nat)
    (r : Nat) :
    Dict.find (BannedBoxSearchController.searchDone_store w requestId result
        requestedCount).search._queries r
      = if requestId ≠ 0 ∧ r = requestId then none else Dict.find w.search._queries r := by
  unfold BannedBoxSearchController.searchDone_store
  by_cases hr : requestId = 0
  · simp [hr]
  · cases hf : Dict.find w.search._queries requestId with
    | none =>
      by_cases he : r = requestId
      · simp [hr, hf, he]
      · simp [hr, hf, he]
    | some it =>
      by_cases ho : it.offset = 0 <;> by_cases he : r = requestId <;>
        simp [hr, hf, ho, he, Dict.find_erase]

/-- Everything `searchDone` leaves alone, and what it does to the members it writes. -/
theorem BannedBoxSearchController.searchDone_frame (w w' s : ParticipantsBox)
    (requestId : Nat) (result : MTPchannels_ChannelParticipants) (requestedCount : Nat)
    (hw' : w' = BannedBoxSearchController.searchDone w requestId result requestedCount)
    (hs' : s = BannedBoxSearchController.searchDone_store w requestId result requestedCount) :
    w'.search._cache = s.search._cache ∧ w'.search._queries = s.search._queries
    ∧ w'.search._query = w.search._query ∧ w'.search._timer = w.search._timer
    ∧ w'.requests = w.requests ∧ w'.lastRequestId = w.lastRequestId
    ∧ w'._loadRequestId = w._loadRequestId ∧ w'._allLoaded = w._allLoaded
    ∧ w'._offset = w._offset ∧ w'.rows = w.rows ∧ w'._role = w._role
    ∧ (w.search._requestId ≠ requestId → w'.search._requestId = w.search._requestId
        ∧ w'.search._offset = w.search._offset ∧ w'.search._allLoaded = w.search._allLoaded
        ∧ w'._additional = w._additional ∧ w'.searchRows = w.searchRows)
    ∧ (w.search._requestId = requestId → w'.search._requestId = 0
        ∧ w'.search._offset = w.search._offset + result.participants.length
        ∧ w'.search._allLoaded
            = (decide (result.participants.length < requestedCount) || w.search._allLoaded)) := by
  obtain ⟨users, cache, queries, hs⟩ :=
    BannedBoxSearchController.searchDone_store_frame w requestId result requestedCount
  unfold BannedBoxSearchController.searchDone at hw'
  rw [← hs'] at hw'
  rw [hs] at hs'
  subst hw'
  by_cases he : w.search._requestId = requestId
  · have he' : s.search._requestId = requestId := by rw [hs']; exact he
    by_cases hl : result.participants.length < requestedCount
    · simp [he', hl, BannedBoxSearchController.searchDone_loop_search]
      simp [hs', he]
    · simp [he', hl, BannedBoxSearchController.searchDone_loop_search]
      simp [hs', he]
  · have he' : ¬ s.search._requestId = requestId := by rw [hs']; exact he
    simp [he']
    simp [hs', he]

/-! ## AddParticipantBoxSearchController: what a response changes -/

theorem AddParticipantBoxSearchController.searchGlobalDone_loop_frame (list : List MTPPeer) :
    ∀ w : AddParticipantBox, ∃ a rows,
      AddParticipantBoxSearchController.searchGlobalDone_loop w list
        = { w with _additional := a, searchRows := rows } := by
  induction list with
  | nil => intro w; exact ⟨w._additional, w.searchRows, rfl⟩
  | cons mtpPeer rest ih =>
    intro w
    cases mtpPeer with
    | peerUser user_id =>
      unfold AddParticipantBoxSearchController.searchGlobalDone_loop
      cases hu : userLoaded w.users user_id with
      | none => exact ih w
      | some user =>
        simp only
        split
        · obtain ⟨a', rows', h⟩ := ih (AddParticipantBox.peerListSearchAddRow
            { w with _additional := { w._additional with
                infoNotLoaded := USet.emplace w._additional.infoNotLoaded user } } user)
          exact ⟨a', rows', h⟩
        · obtain ⟨a', rows', h⟩ := ih (AddParticipantBox.peerListSearchAddRow w user)
          exact ⟨a', rows', h⟩
    | peerChat chat_id =>
      unfold AddParticipantBoxSearchController.searchGlobalDone_loop
      exact ih w
    | peerChannel channel_id =>
      unfold AddParticipantBoxSearchController.searchGlobalDone_loop
      exact ih w

theorem AddParticipantBoxSearchController.searchGlobalDone_loop_search (w : AddParticipantBox)
    (list : List MTPPeer) :
    (AddParticipantBoxSearchController.searchGlobalDone_loop w list).search = w.search
    ∧ (AddParticipantBoxSearchController.searchGlobalDone_loop w list).users = w.users
    ∧ (AddParticipantBoxSearchController.searchGlobalDone_loop w list).requests = w.requests
    ∧ (AddParticipantBoxSearchController.searchGlobalDone_loop w list).lastRequestId
        = w.lastRequestId
    ∧ (AddParticipantBoxSearchController.searchGlobalDone_loop w list).rows = w.rows
    ∧ (AddParticipantBoxSearchController.searchGlobalDone_loop w list)._role = w._role
    ∧ (AddParticipantBoxSearchController.searchGlobalDone_loop w list)._offset = w._offset
    ∧ (AddParticipantBoxSearchController.searchGlobalDone_loop w list)._loadRequestId
        = w._loadRequestId
    ∧ (AddParticipantBoxSearchController.searchGlobalDone_loop w list)._allLoaded
        = w._allLoaded
    ∧ (AddParticipantBoxSearchController.searchGlobalDone_loop w list).adminDoneCalls
        = w.adminDoneCalls
    ∧ (AddParticipantBoxSearchController.searchGlobalDone_loop w list).bannedDoneCalls
        = w.bannedDoneCalls := by
  obtain ⟨a, rows, h⟩ := AddParticipantBoxSearchController.searchGlobalDone_loop_frame list w
  rw [h]
  simp

theorem AddParticipantBoxSearchController.searchParticipantsDone_loop_frame
    (list : List MTPChannelParticipant) :
    ∀ w w' : AddParticipantBox,
      AddParticipantBoxSearchController.searchParticipantsDone_loop w list = some w' →
      ∃ a rows, w' = { w with _additional := a, searchRows := rows } := by
  induction list with
  | nil =>
    intro w w' h
    simp [AddParticipantBoxSearchController.searchParticipantsDone_loop] at h
    exact ⟨w._additional, w.searchRows, h ▸ rfl⟩
  | cons participant rest ih =>
    intro w w' h
    unfold AddParticipantBoxSearchController.searchParticipantsDone_loop at h
    cases hp : AddParticipantBoxController.HandleParticipant w.users participant w._additional with
    | none => simp [hp] at h
    | some r =>
      obtain ⟨a, cb⟩ := r
      cases cb with
      | none =>
        simp only [hp] at h
        obtain ⟨a', rows', h'⟩ := ih _ _ h
        exact ⟨a', rows', h'⟩
      | some user =>
        simp only [hp] at h
        obtain ⟨a', rows', h'⟩ := ih _ _ h
        exact ⟨a', rows', h'⟩

theorem AddParticipantBoxSearchController.searchGlobalDone_store_zero (w : AddParticipantBox)
    (result : MTPcontacts_Found) :
    AddParticipantBoxSearchController.searchGlobalDone_store w 0 result = w := by
  simp [AddParticipantBoxSearchController.searchGlobalDone_store]

theorem AddParticipantBoxSearchController.searchGlobalInCache_frame (w : AddParticipantBox) :
    AddParticipantBox.SearchFrame w (AddParticipantBoxSearchController.searchGlobalInCache w).1
    ∧ (AddParticipantBoxSearchController.searchGlobalInCache w).1.requests = w.requests
    ∧ (AddParticipantBoxSearchController.searchGlobalInCache w).1.lastRequestId = w.lastRequestId
    ∧ (AddParticipantBoxSearchController.searchGlobalInCache w).1.search._participantsQueries
        = w.search._participantsQueries
    ∧ (AddParticipantBoxSearchController.searchGlobalInCache w).1.search._globalQueries
        = w.search._globalQueries
    ∧ ((AddParticipantBoxSearchController.searchGlobalInCache w).2 = true →
        (AddParticipantBoxSearchController.searchGlobalInCache w).1.search._requestId = 0
        ∧ (AddParticipantBoxSearchController.searchGlobalInCache w).1.search._globalLoaded = true)
    ∧ ((AddParticipantBoxSearchController.searchGlobalInCache w).2 = false →
        (AddParticipantBoxSearchController.searchGlobalInCache w).1 = w) := by
  unfold AddParticipantBoxSearchController.searchGlobalInCache AddParticipantBox.SearchFrame
  cases hf : Dict.find w.search._globalCache w.search._query with
  | none => simp
  | some it =>
    simp [AddParticipantBoxSearchController.searchGlobalDone,
      AddParticipantBoxSearchController.searchGlobalDone_store_zero,
      AddParticipantBoxSearchController.searchGlobalDone_loop_search]

theorem AddParticipantBox.SearchFrame.refl (w : AddParticipantBox) :
    AddParticipantBox.SearchFrame w w := by
  simp [AddParticipantBox.SearchFrame]

theorem AddParticipantBox.SearchFrame.trans {w w1 w2 : AddParticipantBox}
    (h1 : AddParticipantBox.SearchFrame w w1) (h2 : AddParticipantBox.SearchFrame w1 w2) :
    AddParticipantBox.SearchFrame w w2 := by
  unfold AddParticipantBox.SearchFrame at *
  simp_all

theorem AddParticipantBoxSearchController.addChatsContacts_frame (env : Env)
    (w : AddParticipantBox) :
    AddParticipantBox.SearchFrame w (AddParticipantBoxSearchController.addChatsContacts env w) := by
  simp [AddParticipantBox.SearchFrame, AddParticipantBoxSearchController.addChatsContacts]

theorem AddParticipantBoxSearchController.requestGlobal_frame (env : Env)
    (w : AddParticipantBox) :
    AddParticipantBox.SearchFrame w (AddParticipantBoxSearchController.requestGlobal env w) := by
  unfold AddParticipantBoxSearchController.requestGlobal AddParticipantBox.SearchFrame
  split <;> simp [AddParticipantBox.send]

theorem AddParticipantBoxSearchController.requestParticipants_frame (w : AddParticipantBox) :
    AddParticipantBox.SearchFrame w (AddParticipantBoxSearchController.requestParticipants w) := by
  simp [AddParticipantBox.SearchFrame, AddParticipantBoxSearchController.requestParticipants,
    AddParticipantBox.send]

/-- `loadMoreRows` of the add-participant search controller, branch by branch. -/
theorem AddParticipantBoxSearchController.loadMoreRows_eq (env : Env) (w w1 : AddParticipantBox)
    (hw1 : w1 = if w.search._chatsContactsAdded = true then w
      else AddParticipantBoxSearchController.addChatsContacts env w) :
    AddParticipantBoxSearchController.loadMoreRows env w =
      if w.search._query.isEmpty = true then (w, false)
      else if w.search._globalLoaded = true then (w, true)
      else if w.search._participantsLoaded = true then
        if AddParticipantBoxSearchController.isLoading w1 = true then (w1, true)
        else if (AddParticipantBoxSearchController.searchGlobalInCache w1).2 = true then
          ((AddParticipantBoxSearchController.searchGlobalInCache w1).1, true)
        else (AddParticipantBoxSearchController.requestGlobal env w1, true)
      else if AddParticipantBoxSearchController.isLoading w = true then (w, true)
      else (AddParticipantBoxSearchController.requestParticipants w, true) := by
  have hw1' : (if (!w.search._chatsContactsAdded) = true then
      AddParticipantBoxSearchController.addChatsContacts env w else w) = w1 := by
    rw [hw1]; cases w.search._chatsContactsAdded <;> simp
  unfold AddParticipantBoxSearchController.loadMoreRows
  by_cases h1 : w.search._query.isEmpty = true
  · simp only [h1, if_true]
  · by_cases h2 : w.search._globalLoaded = true
    · simp only [h1, h2, if_true, if_false]
    · by_cases h3 : w.search._participantsLoaded = true
      · simp only [h1, h2, h3, if_true, if_false, hw1']
        by_cases h4 : AddParticipantBoxSearchController.isLoading w1 = true
        · simp [h4]
        · simp only [h4, Bool.not_eq_true] at h4 ⊢
          simp only [h4, Bool.not_false, if_true]
          have hm := (AddParticipantBoxSearchController.searchGlobalInCache_frame w1).2.2.2.2.2.2
          rcases hsg : AddParticipantBoxSearchController.searchGlobalInCache w1 with ⟨w2, b⟩
          rw [hsg] at hm
          cases b with
          | true => simp
          | false =>
            have : w2 = w1 := hm rfl
            subst this
            simp
      · by_cases h4 : AddParticipantBoxSearchController.isLoading w = true
        · simp [h1, h2, h3, h4]
        · simp [h1, h2, h3, h4]

theorem AddParticipantBoxSearchController.loadMoreRows_frame (env : Env) (w : AddParticipantBox) :
    AddParticipantBox.SearchFrame w (AddParticipantBoxSearchController.loadMoreRows env w).1 := by
  obtain ⟨w1, hw1⟩ : ∃ w1, w1 = if w.search._chatsContactsAdded = true then w
      else AddParticipantBoxSearchController.addChatsContacts env w := ⟨_, rfl⟩
  have hc : AddParticipantBox.SearchFrame w w1 := by
    rw [hw1]
    split
    · exact AddParticipantBox.SearchFrame.refl w
    · exact AddParticipantBoxSearchController.addChatsContacts_frame env w
  rw [AddParticipantBoxSearchController.loadMoreRows_eq env w w1 hw1]
  split_ifs
  · exact AddParticipantBox.SearchFrame.refl w
  · exact AddParticipantBox.SearchFrame.refl w
  · exact hc
  · exact hc.trans (AddParticipantBoxSearchController.searchGlobalInCache_frame _).1
  · exact hc.trans (AddParticipantBoxSearchController.requestGlobal_frame env _)
  · exact AddParticipantBox.SearchFrame.refl w
  · exact AddParticipantBoxSearchController.requestParticipants_frame w

theorem AddParticipantBoxSearchController.loadMoreRows_participantsQueries (env : Env)
    (w : AddParticipantBox) (h : w.search._participantsLoaded = true) :
    (AddParticipantBoxSearchController.loadMoreRows env w).1.search._participantsQueries
      = w.search._participantsQueries := by
  obtain ⟨w1, hw1⟩ : ∃ w1, w1 = if w.search._chatsContactsAdded = true then w
      else AddParticipantBoxSearchController.addChatsContacts env w := ⟨_, rfl⟩
  have hc : w1.search._participantsQueries = w.search._participantsQueries := by
    rw [hw1]
    split <;> simp [AddParticipantBoxSearchController.addChatsContacts]
  rw [AddParticipantBoxSearchController.loadMoreRows_eq env w w1 hw1]
  split_ifs
  · rfl
  · rfl
  · exact hc
  · rw [← hc]
    exact (AddParticipantBoxSearchController.searchGlobalInCache_frame w1).2.2.2.1
  · rw [← hc]
    unfold AddParticipantBoxSearchController.requestGlobal
    split <;> simp [AddParticipantBox.send]

theorem AddParticipantBoxSearchController.searchParticipantsDone_store_frame
    (w : AddParticipantBox) (requestId : Nat)
    (result : MTPchannels_ChannelParticipants) (requestedCount : Nat) :
    ∃ users cache queries,
      AddParticipantBoxSearchController.searchParticipantsDone_store w requestId result
          requestedCount
        = { w with users := users,
                   search := { w.search with _participantsCache := cache,
                                             _participantsQueries := queries } } := by
  unfold AddParticipantBoxSearchController.searchParticipantsDone_store
  by_cases hr : requestId = 0
  · exact ⟨w.users, w.search._participantsCache, w.search._participantsQueries, by simp [hr]⟩
  · cases hf : Dict.find w.search._participantsQueries requestId with
    | none => exact ⟨feedUsers w.users result.users, w.search._participantsCache,
        w.search._participantsQueries, by simp [hr, hf]⟩
    | some it =>
      by_cases ho : it.offset = 0
      · exact ⟨feedUsers w.users result.users,
          Dict.assign w.search._participantsCache it.text
            { result := result, requestedCount := requestedCount },
          Dict.erase w.search._participantsQueries requestId, by simp [hr, hf, ho]⟩
      · exact ⟨feedUsers w.users result.users, w.search._participantsCache,
          Dict.erase w.search._participantsQueries requestId, by simp [hr, hf, ho]⟩

theorem AddParticipantBoxSearchController.searchParticipantsDone_store_cache
    (w : AddParticipantBox) (requestId : Nat)
    (result : MTPchannels_ChannelParticipants) (requestedCount : Nat) :
    (AddParticipantBoxSearchController.searchParticipantsDone_store w requestId result
        requestedCount).search._participantsCache
      = if requestId = 0 then w.search._participantsCache
        else match Dict.find w.search._participantsQueries requestId with
          | some it =>
            if it.offset = 0 then
              Dict.assign w.search._participantsCache it.text
                { result := result, requestedCount := requestedCount }
            else w.search._participantsCache
          | none => w.search._participantsCache := by
  unfold AddParticipantBoxSearchController.searchParticipantsDone_store
  by_cases hr : requestId = 0
  · simp [hr]
  · cases hf : Dict.find w.search._participantsQueries requestId with
    | none => simp [hr, hf]
    | some it => by_cases ho : it.offset = 0 <;> simp [hr, hf, ho]

theorem AddParticipantBoxSearchController.searchParticipantsDone_store_queries
    (w : AddParticipantBox) (requestId : Nat)
    (result : MTPchannels_ChannelParticipants) (requestedCount : Nat) (r : Nat) :
    Dict.find (AddParticipantBoxSearchController.searchParticipantsDone_store w requestId result
        requestedCount).search._participantsQueries r
      = if requestId ≠ 0 ∧ r = requestId then none
        else Dict.find w.search._participantsQueries r := by
  unfold AddParticipantBoxSearchController.searchParticipantsDone_store
  by_cases hr : requestId = 0
  · simp [hr]
  · cases hf : Dict.find w.search._participantsQueries requestId with
    | none =>
      by_cases he : r = requestId
      · simp [hr, hf, he]
      · simp [hr, hf, he]
    | some it =>
      by_cases ho : it.offset = 0 <;> by_cases he : r = requestId <;>
        simp [hr, hf, ho, he, Dict.find_erase]

theorem AddParticipantBoxSearchController.searchParticipantsDone_loaded_frame (env : Env)
    (w w0 : AddParticipantBox) (list : List MTPChannelParticipant) (requestedCount : Nat)
    (hw0 : w0 = AddParticipantBoxSearchController.searchParticipantsDone_loaded env w list
      requestedCount) :
    w0.search._participantsCache = w.search._participantsCache
    ∧ w0.search._participantsQueries = w.search._participantsQueries
    ∧ w0.search._query = w.search._query ∧ w0.search._timer = w.search._timer
    ∧ w0._loadRequestId = w._loadRequestId ∧ w0._allLoaded = w._allLoaded
    ∧ w0._offset = w._offset ∧ w0.rows = w.rows ∧ w0._role = w._role
    ∧ w0.users = w.users ∧ w0.search._offset = w.search._offset
    ∧ w0.search._globalCache = w.search._globalCache := by
  subst hw0
  unfold AddParticipantBoxSearchController.searchParticipantsDone_loaded
  by_cases hl : list.length < requestedCount
  · by_cases hz : (list.isEmpty && w.search._offset == 0) = true
    · have hf := AddParticipantBoxSearchController.loadMoreRows_frame env
        { w with search := { w.search with _participantsLoaded := true } }
      have hq := AddParticipantBoxSearchController.loadMoreRows_participantsQueries env
        { w with search := { w.search with _participantsLoaded := true } } rfl
      unfold AddParticipantBox.SearchFrame at hf
      simp only [hl, hz, if_true]
      simp only [] at hf hq
      obtain ⟨f1, f2, f3, f4, f5, f6, f7, f8, f9, f10, f11, f12, f13, f14⟩ := hf
      exact ⟨f13, hq, f9, f12, f5, f6, f4, f2, f3, f1, f10, f14⟩
    · simp [hl, hz]
  · simp [hl]

/-- What `searchParticipantsDone` leaves alone when it returns. -/
theorem AddParticipantBoxSearchController.searchParticipantsDone_frame (env : Env)
    (w w' s : AddParticipantBox) (requestId : Nat)
    (result : MTPchannels_ChannelParticipants) (requestedCount : Nat)
    (hw' : AddParticipantBoxSearchController.searchParticipantsDone env w requestId result
      requestedCount = some w')
    (hs' : s = AddParticipantBoxSearchController.searchParticipantsDone_store w requestId result
      requestedCount) :
    w'.search._participantsCache = s.search._participantsCache
    ∧ w'.search._participantsQueries = s.search._participantsQueries
    ∧ w'.search._query = w.search._query ∧ w'.search._timer = w.search._timer
    ∧ w'._loadRequestId = w._loadRequestId ∧ w'._allLoaded = w._allLoaded
    ∧ w'._offset = w._offset ∧ w'.rows = w.rows ∧ w'._role = w._role
    ∧ (w.search._requestId ≠ requestId → w' = s) := by
  obtain ⟨users, cache, queries, hs⟩ :=
    AddParticipantBoxSearchController.searchParticipantsDone_store_frame w requestId result
      requestedCount
  unfold AddParticipantBoxSearchController.searchParticipantsDone at hw'
  rw [← hs'] at hw'
  rw [hs] at hs'
  by_cases he : w.search._requestId = requestId
  · have he' : s.search._requestId = requestId := by rw [hs']; exact he
    simp only [he', if_true] at hw'
    obtain ⟨w0, hw0⟩ : ∃ w0, w0 = AddParticipantBoxSearchController.searchParticipantsDone_loaded
        env { s with search := { s.search with _requestId := 0 } } result.participants
        requestedCount := ⟨_, rfl⟩
    rw [← hw0] at hw'
    have hm := AddParticipantBoxSearchController.searchParticipantsDone_loaded_frame env _ w0
      result.participants requestedCount hw0
    cases hloop : AddParticipantBoxSearchController.searchParticipantsDone_loop w0
        result.participants with
    | none => simp [hloop] at hw'
    | some w2 =>
      obtain ⟨a, rows, hw2⟩ :=
        AddParticipantBoxSearchController.searchParticipantsDone_loop_frame _ _ _ hloop
      simp only [hloop, Option.some.injEq] at hw'
      subst hw'
      subst hw2
      obtain ⟨m1, m2, m3, m4, m5, m6, m7, m8, m9, -⟩ := hm
      simp only [] at m1 m2 m3 m4 m5 m6 m7 m8 m9 ⊢
      rw [m1, m2, m3, m4, m5, m6, m7, m8, m9, hs']
      simp [he]
  · have he' : ¬ s.search._requestId = requestId := by rw [hs']; exact he
    simp only [he', if_false, Option.some.injEq] at hw'
    subst hw'
    simp [hs', he]

theorem AddParticipantBoxSearchController.searchParticipantsDone_loop_isSome
    (list : List MTPChannelParticipant) (h : ∀ p ∈ list, p.expected = true) :
    ∀ w : AddParticipantBox,
      (AddParticipantBoxSearchController.searchParticipantsDone_loop w list).isSome = true := by
  induction list with
  | nil => intro w; simp [AddParticipantBoxSearchController.searchParticipantsDone_loop]
  | cons participant rest ih =>
    intro w
    have hp : participant.expected = true := h participant (List.mem_cons_self _ _)
    have hrest : ∀ p ∈ rest, p.expected = true := fun p hp => h p (List.mem_cons_of_mem _ hp)
    have hsome := AddParticipantBoxController.HandleParticipant_isSome w.users participant
      w._additional (by
        intro id hid
        rw [hid] at hp
        simp [MTPChannelParticipant.expected] at hp)
    unfold AddParticipantBoxSearchController.searchParticipantsDone_loop
    cases hh : AddParticipantBoxController.HandleParticipant w.users participant w._additional with
    | none => rw [hh] at hsome; simp at hsome
    | some r =>
      obtain ⟨a, cb⟩ := r
      cases cb with
      | none => exact ih hrest _
      | some user => exact ih hrest _

theorem AddParticipantBoxSearchController.searchParticipantsDone_isSome (env : Env)
    (w : AddParticipantBox) (requestId : Nat)
    (result : MTPchannels_ChannelParticipants) (requestedCount : Nat)
    (h : ∀ p ∈ result.participants, p.expected = true) :
    (AddParticipantBoxSearchController.searchParticipantsDone env w requestId result
      requestedCount).isSome = true := by
  unfold AddParticipantBoxSearchController.searchParticipantsDone
  simp only []
  split
  · have hl := AddParticipantBoxSearchController.searchParticipantsDone_loop_isSome
      result.participants h
      (AddParticipantBoxSearchController.searchParticipantsDone_loaded env
        { AddParticipantBoxSearchController.searchParticipantsDone_store w requestId result
            requestedCount with
          search := { (AddParticipantBoxSearchController.searchParticipantsDone_store w requestId
            result requestedCount).search with _requestId := 0 } }
        result.participants requestedCount)
    split
    · rfl
    · rename_i hnone
      rw [Option.eq_none_iff_forall_not_mem] at hnone
      rw [Option.isSome_iff_exists] at hl
      obtain ⟨x, hx⟩ := hl
      exact absurd hx (hnone x)
  · rfl

set_option maxRecDepth 100000 in
/-- C3 (as stated, refuted): after the first page and then the second page of
results for the query "a" have been received by BannedBoxSearchController, the cache
entry for "a" still holds the first page, not the most recently received one. -/
theorem BannedBoxSearchController.cache_keeps_first_page :
    (ParticipantsBox.run sampleEnv (ParticipantsBox.init Role.Restricted none)
        sampleSearchEvents).map (fun w => w.requests)
      = some [{ id := 2, handlers := Handlers.search, filter := Filter.Banned "a",
                offset := 200, limit := 200 }]
    ∧ (ParticipantsBox.run sampleEnv (ParticipantsBox.init Role.Restricted none)
        (sampleSearchEvents ++ [.done 2 samplePage2])).map
          (fun w => Dict.find w.search._cache "a")
      = some (some { result := samplePage1, requestedCount := 200 })
    ∧ samplePage2 ≠ samplePage1 := by
  refine ⟨by decide, by decide, by decide⟩

/-- The cache after a response, read off the pending entry of the request: the entry's
query gets the result when the entry records offset 0, and nothing else changes. -/
theorem BannedBoxSearchController.searchDone_cache_of_entry (w : ParticipantsBox)
    (requestId : Nat) (result : MTPchannels_ChannelParticipants)
    (requestedCount : Nat) (it : Query)
    (hr : requestId ≠ 0)
    (hw : Dict.find w.search._queries requestId = some it) :
    (it.offset = 0 →
      Dict.find (BannedBoxSearchController.searchDone w requestId result
          requestedCount).search._cache it.text
        = some { result := result, requestedCount := requestedCount })
    ∧ (it.offset ≠ 0 →
      (BannedBoxSearchController.searchDone w requestId result requestedCount).search._cache
        = w.search._cache)
    ∧ (∀ q, q ≠ it.text →
      Dict.find (BannedBoxSearchController.searchDone w requestId result
          requestedCount).search._cache q = Dict.find w.search._cache q) := by
  have hb := (BannedBoxSearchController.searchDone_frame w _ _ requestId result requestedCount
    rfl rfl).1
  have hbc := BannedBoxSearchController.searchDone_store_cache w requestId result requestedCount
  rw [← hb] at hbc
  simp only [hr, hw, if_false] at hbc
  refine ⟨?_, ?_, ?_⟩
  · intro ho
    rw [hbc]
    simp [ho, Dict.find_assign]
  · intro ho
    rw [hbc]
    simp [ho]
  · intro q hq
    rw [hbc]
    by_cases ho : it.offset = 0 <;> simp [ho, Dict.find_assign, hq]

/-- The participants cache after a response, read off the pending entry of the request. -/
theorem AddParticipantBoxSearchController.searchParticipantsDone_cache_of_entry (env : Env)
    (v v' : AddParticipantBox) (requestId : Nat) (result : MTPchannels_ChannelParticipants)
    (requestedCount : Nat) (it : Query)
    (hr : requestId ≠ 0)
    (hv : Dict.find v.search._participantsQueries requestId = some it)
    (hv' : AddParticipantBoxSearchController.searchParticipantsDone env v requestId result
      requestedCount = some v') :
    (it.offset = 0 → Dict.find v'.search._participantsCache it.text
      = some { result := result, requestedCount := requestedCount })
    ∧ (it.offset ≠ 0 → v'.search._participantsCache = v.search._participantsCache)
    ∧ (∀ q, q ≠ it.text → Dict.find v'.search._participantsCache q
        = Dict.find v.search._participantsCache q) := by
  have ha := (AddParticipantBoxSearchController.searchParticipantsDone_frame env v v' _
    requestId result requestedCount hv' rfl).1
  have hac := AddParticipantBoxSearchController.searchParticipantsDone_store_cache v requestId
    result requestedCount
  rw [← ha] at hac
  simp only [hr, hv, if_false] at hac
  refine ⟨?_, ?_, ?_⟩
  · intro ho
    rw [hac]
    simp [ho, Dict.find_assign]
  · intro ho
    rw [hac]
    simp [ho]
  · intro q hq
    rw [hac]
    by_cases ho : it.offset = 0 <;> simp [ho, Dict.find_assign, hq]

/-! ## ParticipantsBox: the bookkeeping invariant -/

/-- The base invariant only reads the requests, the last id and `_loadRequestId`. -/
theorem ParticipantsBox.Base.keepBase {w w' : ParticipantsBox} (h : w.Base)
    (h1 : w'.requests = w.requests) (h2 : w'.lastRequestId = w.lastRequestId)
    (h3 : w'._loadRequestId = w._loadRequestId) : w'.Base := by
  obtain ⟨i1, i2, i3⟩ := h
  refine ⟨by rw [h1]; exact i1, by rw [h1, h2]; exact i2, ?_⟩
  unfold ParticipantsBox.listRequestIds at *
  rw [h1, h3]; exact i3

/-- No tracked request: nothing to show. -/
theorem ParticipantsBox.Tracked.untracked {w : ParticipantsBox} (h : w.search._requestId = 0) :
    w.Tracked := fun hne => absurd h hne

/-- The tracked part only reads `_requestId`, `_query`, the pending entry of the tracked
request and the requests. -/
theorem ParticipantsBox.Tracked.carry {w w' : ParticipantsBox} (h : w.Tracked)
    (h1 : ∀ q ∈ w.requests, q.id = w.search._requestId → q ∈ w'.requests)
    (h4 : w'.search._requestId = w.search._requestId)
    (h5 : w'.search._query = w.search._query)
    (h6 : Dict.has w.search._queries w.search._requestId = true →
      Dict.has w'.search._queries w.search._requestId = true) :
    w'.Tracked := by
  intro hne
  rw [h4] at hne ⊢
  obtain ⟨j1, j2, q, hq1, hq2, hq3⟩ := h hne
  exact ⟨by rw [h5]; exact j1, h6 j2, q, h1 q hq1 hq2, hq2, hq3⟩

theorem ParticipantsBox.findRequest_some {w : ParticipantsBox} {requestId : Nat}
    {r : Request} (h : w.findRequest requestId = some r) :
    r ∈ w.requests ∧ r.id = requestId := by
  unfold ParticipantsBox.findRequest at h
  have h1 := List.mem_of_find?_eq_some h
  have h2 := List.find?_some h
  exact ⟨h1, by simpa using h2⟩

theorem ParticipantsBox.request_unique {w : ParticipantsBox}
    (h : (w.requests.map (fun r => r.id)).Nodup) {a b : Request}
    (ha : a ∈ w.requests) (hb : b ∈ w.requests) (hab : a.id = b.id) : a = b :=
  List.inj_on_of_nodup_map h ha hb hab

/-- Answering a request keeps the bookkeeping of the other requests. -/
theorem ParticipantsBox.dropRequest_facts (w : ParticipantsBox) (requestId : Nat)
    (r : Request) (h : w.Inv) (hf : w.findRequest requestId = some r) :
    ((w.dropRequest requestId).requests.map (fun r => r.id)).Nodup
    ∧ (∀ r ∈ (w.dropRequest requestId).requests,
        r.id ≠ 0 ∧ r.id ≤ (w.dropRequest requestId).lastRequestId)
    ∧ (r.handlers = Handlers.list → w._loadRequestId = requestId
        ∧ (w.dropRequest requestId).listRequestIds = []
        ∧ w.search._requestId ≠ requestId)
    ∧ (r.handlers = Handlers.search →
        (w.dropRequest requestId).listRequestIds = w.listRequestIds)
    ∧ (∀ q ∈ w.requests, q.id ≠ requestId → q ∈ (w.dropRequest requestId).requests) := by
  obtain ⟨⟨i1, i2, i3⟩, i4⟩ := h
  obtain ⟨hr1, hr2⟩ := ParticipantsBox.findRequest_some hf
  have hsub : List.Sublist (w.dropRequest requestId).requests w.requests := by
    unfold ParticipantsBox.dropRequest
    exact List.filter_sublist _
  have hids : (w.dropRequest requestId).listRequestIds
      = w.listRequestIds.filter (fun i => i != requestId) := by
    unfold ParticipantsBox.listRequestIds ParticipantsBox.dropRequest
    simp only [List.filter_filter, List.filter_map]
    congr 1
    apply List.filter_congr
    intro x _
    simp [Bool.and_comm]
  refine ⟨i1.sublist (hsub.map _), fun q hq => i2 q (hsub.subset hq), ?_, ?_, ?_⟩
  · intro hl
    have hmem : requestId ∈ w.listRequestIds := by
      unfold ParticipantsBox.listRequestIds
      rw [List.mem_map]
      exact ⟨r, by simp [hr1, hl], hr2⟩
    rw [i3] at hmem
    by_cases hz : w._loadRequestId = 0
    · simp [hz] at hmem
    · simp only [hz, if_false, List.mem_singleton] at hmem
      refine ⟨hmem.symm, ?_, ?_⟩
      · rw [hids, i3]
        simp [hz, hmem]
      · intro hs
        have hne : w.search._requestId ≠ 0 := by
          rw [hs, ← hr2]; exact (i2 r hr1).1
        obtain ⟨-, -, q, hq1, hq2, hq3⟩ := i4 hne
        have : q = r := ParticipantsBox.request_unique i1 hq1 hr1 (by rw [hq2, hs, hr2])
        rw [this, hl] at hq3
        exact absurd hq3 (by decide)
  · intro hsr
    rw [hids, i3]
    by_cases hz : w._loadRequestId = 0
    · simp [hz]
    · simp only [hz, if_false]
      have hne : w._loadRequestId ≠ requestId := by
        intro he
        have hmem : w._loadRequestId ∈ w.listRequestIds := by rw [i3]; simp [hz]
        unfold ParticipantsBox.listRequestIds at hmem
        rw [List.mem_map] at hmem
        obtain ⟨q, hq1, hq2⟩ := hmem
        rw [List.mem_filter] at hq1
        have : q = r := ParticipantsBox.request_unique i1 hq1.1 hr1 (by rw [hq2, he, hr2])
        have hq3 := hq1.2
        rw [this, hsr] at hq3
        exact absurd hq3 (by decide)
      simp [hne]
  · intro q hq hne
    unfold ParticipantsBox.dropRequest
    simp [List.mem_filter, hq, hne]

/-- Sending a request keeps the base invariant: the new id is fresh, and a list request
is only sent when none is unanswered. -/
theorem ParticipantsBox.Base.sent {w : ParticipantsBox} (h : w.Base) (w1 : ParticipantsBox)
    (req : Request)
    (h1 : w1.requests = w.requests ++ [req]) (h2 : w1.lastRequestId = w.lastRequestId + 1)
    (h3 : req.id = w.lastRequestId + 1)
    (h4 : (req.handlers = Handlers.list ∧ w._loadRequestId = 0 ∧ w1._loadRequestId = req.id)
      ∨ (req.handlers = Handlers.search ∧ w1._loadRequestId = w._loadRequestId)) :
    w1.Base := by
  obtain ⟨i1, i2, i3⟩ := h
  refine ⟨?_, ?_, ?_⟩
  · rw [h1, List.map_append, List.nodup_append]
    refine ⟨i1, by simp, ?_⟩
    intro a ha hb
    simp only [List.map_cons, List.map_nil, List.mem_singleton] at hb
    rw [List.mem_map] at ha
    obtain ⟨q, hq, hqa⟩ := ha
    have := (i2 q hq).2
    omega
  · rw [h1, h2]
    intro q hq
    rw [List.mem_append] at hq
    rcases hq with hq | hq
    · have := i2 q hq
      exact ⟨this.1, by omega⟩
    · simp only [List.mem_singleton] at hq
      subst hq
      omega
  · unfold ParticipantsBox.listRequestIds at i3 ⊢
    rw [h1, List.filter_append, List.map_append, i3]
    rcases h4 with ⟨a1, a2, a3⟩ | ⟨a1, a2⟩
    · have : req.id ≠ 0 := by omega
      simp [a1, a2, a3, this]
    · simp [a1, a2]

/-- `BannedBoxSearchController::loadMoreRows`, branch by branch. -/
theorem BannedBoxSearchController.loadMoreRows_cases (w : ParticipantsBox) :
    (w.search._query.isEmpty = true ∧ BannedBoxSearchController.loadMoreRows w = (w, false))
    ∨ (w.search._query.isEmpty = false
        ∧ (w.search._allLoaded = true ∨ BannedBoxSearchController.isLoading w = true)
        ∧ BannedBoxSearchController.loadMoreRows w = (w, true))
    ∨ (w.search._query.isEmpty = false ∧ w.search._allLoaded = false
        ∧ BannedBoxSearchController.isLoading w = false
        ∧ BannedBoxSearchController.loadMoreRows w =
          ({ w with
              lastRequestId := w.lastRequestId + 1
              requests := w.requests ++ [{
                id := w.lastRequestId + 1, handlers := Handlers.search,
                filter := (if w._role = Role.Restricted then Filter.Banned w.search._query
                  else Filter.Kicked w.search._query),
                offset := w.search._offset, limit := kParticipantsPerPage }]
              search := { w.search with
                _requestId := w.lastRequestId + 1
                _queries := Dict.emplace w.search._queries (w.lastRequestId + 1)
                  { text := w.search._query, offset := w.search._offset } } }, true)) := by
  unfold BannedBoxSearchController.loadMoreRows
  by_cases hq : w.search._query.isEmpty = true
  · left
    exact ⟨hq, by rw [if_pos hq]⟩
  · right
    have hq' : w.search._query.isEmpty = false := by simpa using hq
    by_cases hc : (!w.search._allLoaded && !BannedBoxSearchController.isLoading w) = true
    · right
      rw [if_neg hq, if_pos hc]
      simp only [Bool.and_eq_true, Bool.not_eq_true'] at hc
      exact ⟨hq', hc.1, hc.2, rfl⟩
    · left
      rw [if_neg hq, if_neg hc]
      refine ⟨hq', ?_, rfl⟩
      cases h1 : w.search._allLoaded <;> cases h2 : BannedBoxSearchController.isLoading w <;>
        simp [h1, h2] at hc ⊢

theorem BannedBoxSearchController.loadMoreRows_inv (w : ParticipantsBox) (h : w.Inv) :
    (BannedBoxSearchController.loadMoreRows w).1.Inv := by
  obtain ⟨hb, ht⟩ := h
  rcases BannedBoxSearchController.loadMoreRows_cases w with ⟨-, he⟩ | ⟨-, -, he⟩ |
    ⟨hq, -, -, he⟩
  · rw [he]; exact ⟨hb, ht⟩
  · rw [he]; exact ⟨hb, ht⟩
  · rw [he]
    refine ⟨?_, ?_⟩
    · exact hb.sent _ _ rfl rfl rfl (Or.inr ⟨rfl, rfl⟩)
    · intro _
      refine ⟨hq, ?_, ?_⟩
      · simp [Dict.has_emplace]
      · exact ⟨_, List.mem_append_right _ (List.mem_singleton_self _), rfl, rfl⟩

theorem BannedBoxSearchController.loadMoreRows_sends (w : ParticipantsBox)
    (h : (BannedBoxSearchController.loadMoreRows w).1.requests ≠ w.requests) :
    w.search._requestId = 0 ∧ w.search._timer = false ∧ w.search._allLoaded = false
    ∧ w.search._query.isEmpty = false
    ∧ (BannedBoxSearchController.loadMoreRows w).1.search._requestId = w.lastRequestId + 1 := by
  rcases BannedBoxSearchController.loadMoreRows_cases w with ⟨-, he⟩ | ⟨-, -, he⟩ |
    ⟨hq, ha, hl, he⟩
  · rw [he] at h; exact absurd rfl h
  · rw [he] at h; exact absurd rfl h
  · rw [he]
    simp only [BannedBoxSearchController.isLoading, Bool.or_eq_false_iff, bne_eq_false_iff_eq]
      at hl
    exact ⟨hl.2, hl.1, ha, hq, rfl⟩

/-- The invariant only reads the request bookkeeping. -/
theorem ParticipantsBox.Inv.same {w : ParticipantsBox} (h : w.Inv) (w' : ParticipantsBox)
    (h1 : w'.requests = w.requests) (h2 : w'.lastRequestId = w.lastRequestId)
    (h3 : w'._loadRequestId = w._loadRequestId)
    (h4 : w'.search._requestId = w.search._requestId)
    (h5 : w'.search._query = w.search._query)
    (h6 : w'.search._queries = w.search._queries) : w'.Inv :=
  ⟨h.1.keepBase h1 h2 h3,
   h.2.carry (fun q hq _ => by rw [h1]; exact hq) h4 h5 (fun hh => by rw [h6]; exact hh)⟩

theorem BannedBoxSearchController.searchDone_inv (d : ParticipantsBox) (requestId : Nat)
    (result : MTPchannels_ChannelParticipants) (requestedCount : Nat)
    (hb : d.Base) (ht : d.search._requestId ≠ requestId → d.Tracked) :
    (BannedBoxSearchController.searchDone d requestId result requestedCount).Inv := by
  obtain ⟨-, f2, f3, -, f5, f6, f7, -, -, -, -, f12, f13⟩ :=
    BannedBoxSearchController.searchDone_frame d _ _ requestId result requestedCount rfl rfl
  refine ⟨hb.keepBase f5 f6 f7, ?_⟩
  by_cases he : d.search._requestId = requestId
  · exact ParticipantsBox.Tracked.untracked (f13 he).1
  · refine (ht he).carry (fun q hq _ => by rw [f5]; exact hq) (f12 he).1 f3 ?_
    intro hh
    unfold Dict.has at hh ⊢
    rw [f2, BannedBoxSearchController.searchDone_store_queries]
    simp [he, hh]

theorem BannedBoxSearchController.loadMoreRows_fail_inv (d : ParticipantsBox) (requestId : Nat)
    (hb : d.Base) (ht : d.search._requestId ≠ requestId → d.Tracked) :
    (BannedBoxSearchController.loadMoreRows_fail d requestId).Inv := by
  unfold BannedBoxSearchController.loadMoreRows_fail
  by_cases he : d.search._requestId = requestId
  · rw [if_pos he]
    exact ⟨hb.keepBase rfl rfl rfl, ParticipantsBox.Tracked.untracked rfl⟩
  · rw [if_neg he]
    exact ⟨hb, ht he⟩

theorem BannedBoxSearchController.searchQuery_inv (w : ParticipantsBox) (query : String)
    (h : w.Inv) : (BannedBoxSearchController.searchQuery w query).Inv := by
  unfold BannedBoxSearchController.searchQuery
  by_cases hq : w.search._query ≠ query
  · rw [if_pos hq]
    obtain ⟨w0, hw0⟩ : ∃ w0 : ParticipantsBox, w0 = { w with search := { w.search with
      _query := query, _offset := 0, _requestId := 0, _allLoaded := false } } := ⟨_, rfl⟩
    have hb0 : w0.Base := by rw [hw0]; exact h.1.keepBase rfl rfl rfl
    have hi0 : w0.Inv := ⟨hb0, ParticipantsBox.Tracked.untracked (by rw [hw0])⟩
    simp only []
    rw [← hw0]
    by_cases he : query.isEmpty = true
    · rw [if_pos he]
      exact hi0.same _ (by rw [hw0]) (by rw [hw0]) (by rw [hw0]) (by rw [hw0]) (by rw [hw0])
        (by rw [hw0])
    · rw [if_neg he]
      unfold BannedBoxSearchController.searchInCache
      cases hf : Dict.find w0.search._cache w0.search._query with
      | none =>
        simp only []
        exact hi0.same _ rfl rfl rfl rfl rfl rfl
      | some it =>
        simp only []
        have := BannedBoxSearchController.searchDone_inv
          { w0 with search := { w0.search with _requestId := 0 } } 0 it.result it.requestedCount
          (hb0.keepBase rfl rfl rfl) (fun hne => absurd rfl hne)
        exact this.same _ rfl rfl rfl rfl rfl rfl
  · rw [if_neg hq]
    exact h

theorem ParticipantsBoxController.loadMoreRows_loop_frame (list : List MTPChannelParticipant) :
    ∀ w : ParticipantsBox, ∃ a rows off,
      ParticipantsBoxController.loadMoreRows_loop w list
        = { w with _additional := a, rows := rows, _offset := off } := by
  induction list with
  | nil => intro w; exact ⟨w._additional, w.rows, w._offset, rfl⟩
  | cons participant rest ih =>
    intro w
    unfold ParticipantsBoxController.loadMoreRows_loop
    simp only []
    rcases hp : ParticipantsBoxController.HandleParticipant w.users participant w._role
      w._additional with ⟨a, cb⟩
    cases cb with
    | none =>
      obtain ⟨a', rows', off', h⟩ := ih { w with _offset := w._offset + 1, _additional := a }
      exact ⟨a', rows', off', h⟩
    | some user =>
      simp only [ParticipantsBoxController.appendRow]
      split
      · obtain ⟨a', rows', off', h⟩ := ih { w with _offset := w._offset + 1, _additional := a }
        exact ⟨a', rows', off', h⟩
      · obtain ⟨a', rows', off', h⟩ :=
          ih { w with _offset := w._offset + 1, _additional := a, rows := w.rows ++ [user] }
        exact ⟨a', rows', off', h⟩

theorem ParticipantsBoxController.listDone_inv (d : ParticipantsBox)
    (result : MTPchannels_ChannelParticipants)
    (h1 : (d.requests.map (fun r => r.id)).Nodup)
    (h2 : ∀ r ∈ d.requests, r.id ≠ 0 ∧ r.id ≤ d.lastRequestId)
    (h3 : d.listRequestIds = []) (ht : d.Tracked) :
    (ParticipantsBoxController.loadMoreRows_done d result).Inv := by
  have hb0 : ({ d with _loadRequestId := 0 } : ParticipantsBox).Base := ⟨h1, h2, by
    simp only [if_true]
    exact h3⟩
  have hi0 : ({ d with _loadRequestId := 0 } : ParticipantsBox).Inv :=
    ⟨hb0, ht.carry (fun q hq _ => hq) rfl rfl (fun hh => hh)⟩
  unfold ParticipantsBoxController.loadMoreRows_done
  simp only []
  split
  · exact hi0.same _ rfl rfl rfl rfl rfl rfl
  · obtain ⟨a, rows, off, hl⟩ := ParticipantsBoxController.loadMoreRows_loop_frame
      result.participants
      { d with _loadRequestId := 0, users := feedUsers d.users result.users }
    rw [hl]
    exact hi0.same _ rfl rfl rfl rfl rfl rfl

theorem ParticipantsBoxController.listFail_inv (d : ParticipantsBox)
    (h1 : (d.requests.map (fun r => r.id)).Nodup)
    (h2 : ∀ r ∈ d.requests, r.id ≠ 0 ∧ r.id ≤ d.lastRequestId)
    (h3 : d.listRequestIds = []) (ht : d.Tracked) :
    (ParticipantsBoxController.loadMoreRows_fail d).Inv := by
  have hb0 : ({ d with _loadRequestId := 0 } : ParticipantsBox).Base := ⟨h1, h2, by
    simp only [if_true]
    exact h3⟩
  exact ⟨hb0, ht.carry (fun q hq _ => hq) rfl rfl (fun hh => hh)⟩

theorem ParticipantsBoxController.listLoad_inv (w : ParticipantsBox) (h : w.Inv) :
    (ParticipantsBoxController.loadMoreRows w).Inv := by
  unfold ParticipantsBoxController.loadMoreRows
  obtain ⟨p, hp⟩ : ∃ p : ParticipantsBox × Bool, p = (if w._role ≠ Role.Admins then
      BannedBoxSearchController.loadMoreRows w else (w, false)) := ⟨_, rfl⟩
  rw [← hp]
  have hinv : p.1.Inv := by
    rw [hp]
    split
    · exact BannedBoxSearchController.loadMoreRows_inv w h
    · exact h
  obtain ⟨w1, handled⟩ := p
  simp only [] at hinv ⊢
  cases handled with
  | true => simpa using hinv
  | false =>
    simp only [Bool.false_eq_true, if_false]
    by_cases hc : (w1._loadRequestId != 0 || w1._allLoaded) = true
    · rw [if_pos hc]; exact hinv
    · rw [if_neg hc]
      simp only [Bool.or_eq_true, bne_iff_ne, ne_eq, not_or, Decidable.not_not] at hc
      simp only [ParticipantsBox.send]
      refine ⟨hinv.1.sent _ _ rfl rfl rfl (Or.inl ⟨rfl, hc.1, rfl⟩), ?_⟩
      exact hinv.2.carry (fun q hq _ => List.mem_append_left _ hq) rfl rfl (fun hh => hh)

theorem ParticipantsBoxController.edit_frame (env : Env) (w : ParticipantsBox) (user : UserId)
    (adminRights : MTPChannelAdminRights) (bannedRights : MTPChannelBannedRights) :
    (∃ a rows, ParticipantsBoxController.editAdminDone env w user adminRights
      = { w with _additional := a, rows := rows })
    ∧ (∃ a rows, ParticipantsBoxController.editRestrictedDone env w user bannedRights
      = { w with _additional := a, rows := rows }) := by
  constructor
  · unfold ParticipantsBoxController.editAdminDone ParticipantsBoxController.removeRow
      ParticipantsBoxController.prependRow
    simp only []
    repeat' split
    all_goals exact ⟨_, _, rfl⟩
  · unfold ParticipantsBoxController.editRestrictedDone ParticipantsBoxController.removeRow
      ParticipantsBoxController.prependRow
    simp only []
    repeat' split
    all_goals exact ⟨_, _, rfl⟩

/-- Every event of the participants dialog keeps the bookkeeping invariant. -/
theorem ParticipantsBox.handle_inv (env : Env) (w w' : ParticipantsBox) (e : ParticipantsEvent)
    (h : w.Inv) (he : w.handle env e = some w') : w'.Inv := by
  cases e with
  | searchQuery query =>
    simp only [ParticipantsBox.handle] at he
    split at he
    · simp at he
    · simp only [Option.some.injEq] at he
      rw [← he]
      exact BannedBoxSearchController.searchQuery_inv w query h
  | timer =>
    simp only [ParticipantsBox.handle, BannedBoxSearchController.searchOnServer] at he
    split at he
    · split at he
      · simp at he
      · simp only [Option.some.injEq] at he
        rw [← he]
        exact BannedBoxSearchController.loadMoreRows_inv _ (h.same _ rfl rfl rfl rfl rfl rfl)
    · simp at he
  | loadMoreRows =>
    simp only [ParticipantsBox.handle, Option.some.injEq] at he
    rw [← he]
    exact ParticipantsBoxController.listLoad_inv w h
  | searchLoadMoreRows =>
    simp only [ParticipantsBox.handle] at he
    split at he
    · simp at he
    · simp only [Option.some.injEq] at he
      rw [← he]
      exact BannedBoxSearchController.loadMoreRows_inv w h
  | done requestId result =>
    simp only [ParticipantsBox.handle] at he
    cases hf : w.findRequest requestId with
    | none => simp [hf] at he
    | some r =>
      obtain ⟨d1, d2, d3, d4, d5⟩ := ParticipantsBox.dropRequest_facts w requestId r h hf
      simp only [hf] at he
      cases hh : r.handlers with
      | list =>
        simp only [hh, Option.some.injEq] at he
        rw [← he]
        obtain ⟨e1, e2, e3⟩ := d3 hh
        refine ParticipantsBoxController.listDone_inv _ result d1 d2 e2 ?_
        exact h.2.carry (fun q hq hqi => d5 q hq (by rw [hqi]; exact e3)) rfl rfl (fun x => x)
      | search =>
        simp only [hh, Option.some.injEq] at he
        rw [← he]
        refine BannedBoxSearchController.searchDone_inv _ requestId result _
          ⟨d1, d2, by rw [d4 hh]; exact h.1.2.2⟩ ?_
        intro hne
        exact h.2.carry (fun q hq hqi => d5 q hq (by rw [hqi]; exact hne)) rfl rfl (fun x => x)
  | fail requestId =>
    simp only [ParticipantsBox.handle] at he
    cases hf : w.findRequest requestId with
    | none => simp [hf] at he
    | some r =>
      obtain ⟨d1, d2, d3, d4, d5⟩ := ParticipantsBox.dropRequest_facts w requestId r h hf
      simp only [hf] at he
      cases hh : r.handlers with
      | list =>
        simp only [hh, Option.some.injEq] at he
        rw [← he]
        obtain ⟨e1, e2, e3⟩ := d3 hh
        refine ParticipantsBoxController.listFail_inv _ d1 d2 e2 ?_
        exact h.2.carry (fun q hq hqi => d5 q hq (by rw [hqi]; exact e3)) rfl rfl (fun x => x)
      | search =>
        simp only [hh, Option.some.injEq] at he
        rw [← he]
        refine BannedBoxSearchController.loadMoreRows_fail_inv _ requestId
          ⟨d1, d2, by rw [d4 hh]; exact h.1.2.2⟩ ?_
        intro hne
        exact h.2.carry (fun q hq hqi => d5 q hq (by rw [hqi]; exact hne)) rfl rfl (fun x => x)
  | editAdminDone user rights =>
    simp only [ParticipantsBox.handle, Option.some.injEq] at he
    obtain ⟨a, rows, hfr⟩ := (ParticipantsBoxController.edit_frame env w user rights
      { flags := 0, until_date := 0 }).1
    rw [← he, hfr]
    exact h.same _ rfl rfl rfl rfl rfl rfl
  | editRestrictedDone user rights =>
    simp only [ParticipantsBox.handle, Option.some.injEq] at he
    obtain ⟨a, rows, hfr⟩ := (ParticipantsBoxController.edit_frame env w user { flags := 0 }
      rights).2
    rw [← he, hfr]
    exact h.same _ rfl rfl rfl rfl rfl rfl

theorem ParticipantsBox.run_inv (env : Env) (events : List ParticipantsEvent) :
    ∀ w w' : ParticipantsBox, w.Inv → ParticipantsBox.run env w events = some w' → w'.Inv := by
  induction events with
  | nil =>
    intro w w' h hr
    simp only [ParticipantsBox.run, Option.some.injEq] at hr
    rw [← hr]; exact h
  | cons e es ih =>
    intro w w' h hr
    simp only [ParticipantsBox.run] at hr
    cases hh : w.handle env e with
    | none => simp [hh] at hr
    | some w1 =>
      simp only [hh] at hr
      exact ih w1 w' (ParticipantsBox.handle_inv env w w1 e h hh) hr

theorem ParticipantsBox.init_inv (role : Role) (creator : Option UserId) :
    (ParticipantsBox.init role creator).Inv := by
  refine ⟨⟨?_, ?_, ?_⟩, ?_⟩
  · simp [ParticipantsBox.init]
  · simp [ParticipantsBox.init]
  · simp [ParticipantsBox.init, ParticipantsBox.listRequestIds]
  · exact ParticipantsBox.Tracked.untracked rfl

theorem ParticipantsBox.reachable_inv (env : Env) (w : ParticipantsBox)
    (h : ParticipantsBox.Reachable env w) : w.Inv := by
  obtain ⟨role, creator, events, hr⟩ := h
  exact ParticipantsBox.run_inv env events _ w (ParticipantsBox.init_inv role creator) hr

/-! ## AddParticipantBox: the bookkeeping invariant -/

theorem AddParticipantBox.Base.keepBaseAdd {w w' : AddParticipantBox} (h : w.Base)
    (h1 : w'.requests = w.requests) (h2 : w'.lastRequestId = w.lastRequestId)
    (h3 : w'._loadRequestId = w._loadRequestId) : w'.Base := by
  obtain ⟨i1, i2, i3⟩ := h
  refine ⟨by rw [h1]; exact i1, by rw [h1, h2]; exact i2, ?_⟩
  unfold AddParticipantBox.listRequestIds at *
  rw [h1, h3]; exact i3

theorem AddParticipantBox.Tracked.untrackedAdd {w : AddParticipantBox} (h : w.search._requestId = 0) :
    w.Tracked := fun hne => absurd h hne

theorem AddParticipantBox.Tracked.carryAdd {w w' : AddParticipantBox} (h : w.Tracked)
    (h1 : ∀ q ∈ w.requests, q.id = w.search._requestId → q ∈ w'.requests)
    (h4 : w'.search._requestId = w.search._requestId)
    (h5 : w'.search._query = w.search._query)
    (h6 : Dict.has w.search._participantsQueries w.search._requestId = true →
      Dict.has w'.search._participantsQueries w.search._requestId = true)
    (h7 : Dict.has w.search._globalQueries w.search._requestId = true →
      Dict.has w'.search._globalQueries w.search._requestId = true) :
    w'.Tracked := by
  intro hne
  rw [h4] at hne ⊢
  obtain ⟨j1, q, hq1, hq2, hq3⟩ := h hne
  refine ⟨by rw [h5]; exact j1, q, h1 q hq1 hq2, hq2, ?_⟩
  rcases hq3 with ⟨a, b⟩ | ⟨a, b⟩
  · exact Or.inl ⟨a, h6 b⟩
  · exact Or.inr ⟨a, h7 b⟩

theorem AddParticipantBox.Inv.sameAdd {w : AddParticipantBox} (h : w.Inv) (w' : AddParticipantBox)
    (h1 : w'.requests = w.requests) (h2 : w'.lastRequestId = w.lastRequestId)
    (h3 : w'._loadRequestId = w._loadRequestId)
    (h4 : w'.search._requestId = w.search._requestId)
    (h5 : w'.search._query = w.search._query)
    (h6 : w'.search._participantsQueries = w.search._participantsQueries)
    (h7 : w'.search._globalQueries = w.search._globalQueries) : w'.Inv :=
  ⟨h.1.keepBaseAdd h1 h2 h3,
   h.2.carryAdd (fun q hq _ => by rw [h1]; exact hq) h4 h5 (fun hh => by rw [h6]; exact hh)
    (fun hh => by rw [h7]; exact hh)⟩

theorem AddParticipantBox.findRequest_found {w : AddParticipantBox} {requestId : Nat}
    {r : AddRequest} (h : w.findRequest requestId = some r) :
    r ∈ w.requests ∧ r.id = requestId := by
  unfold AddParticipantBox.findRequest at h
  have h1 := List.mem_of_find?_eq_some h
  have h2 := List.find?_some h
  exact ⟨h1, by simpa using h2⟩

theorem AddParticipantBox.request_same {w : AddParticipantBox}
    (h : (w.requests.map (fun r => r.id)).Nodup) {a b : AddRequest}
    (ha : a ∈ w.requests) (hb : b ∈ w.requests) (hab : a.id = b.id) : a = b :=
  List.inj_on_of_nodup_map h ha hb hab

/-- Answering a request of the add-participant dialog keeps the bookkeeping of the other
requests. -/
theorem AddParticipantBox.dropRequest_keeps (w : AddParticipantBox) (requestId : Nat)
    (r : AddRequest) (h : w.Inv) (hf : w.findRequest requestId = some r) :
    ((w.dropRequest requestId).requests.map (fun r => r.id)).Nodup
    ∧ (∀ r ∈ (w.dropRequest requestId).requests,
        r.id ≠ 0 ∧ r.id ≤ (w.dropRequest requestId).lastRequestId)
    ∧ (r.handlers = AddHandlers.list → w._loadRequestId = requestId
        ∧ (w.dropRequest requestId).listRequestIds = []
        ∧ w.search._requestId ≠ requestId)
    ∧ (r.handlers ≠ AddHandlers.list →
        (w.dropRequest requestId).listRequestIds = w.listRequestIds)
    ∧ (∀ q ∈ w.requests, q.id ≠ requestId → q ∈ (w.dropRequest requestId).requests) := by
  obtain ⟨⟨i1, i2, i3⟩, i4⟩ := h
  obtain ⟨hr1, hr2⟩ := AddParticipantBox.findRequest_found hf
  have hsub : List.Sublist (w.dropRequest requestId).requests w.requests := by
    unfold AddParticipantBox.dropRequest
    exact List.filter_sublist _
  have hids : (w.dropRequest requestId).listRequestIds
      = w.listRequestIds.filter (fun i => i != requestId) := by
    unfold AddParticipantBox.listRequestIds AddParticipantBox.dropRequest
    simp only [List.filter_filter, List.filter_map]
    congr 1
    apply List.filter_congr
    intro x _
    simp [Bool.and_comm]
  refine ⟨i1.sublist (hsub.map _), fun q hq => i2 q (hsub.subset hq), ?_, ?_, ?_⟩
  · intro hl
    have hmem : requestId ∈ w.listRequestIds := by
      unfold AddParticipantBox.listRequestIds
      rw [List.mem_map]
      exact ⟨r, by simp [hr1, hl], hr2⟩
    rw [i3] at hmem
    by_cases hz : w._loadRequestId = 0
    · simp [hz] at hmem
    · simp only [hz, if_false, List.mem_singleton] at hmem
      refine ⟨hmem.symm, ?_, ?_⟩
      · rw [hids, i3]
        simp [hz, hmem]
      · intro hs
        have hne : w.search._requestId ≠ 0 := by
          rw [hs, ← hr2]; exact (i2 r hr1).1
        obtain ⟨-, q, hq1, hq2, hq3⟩ := i4 hne
        have : q = r := AddParticipantBox.request_same i1 hq1 hr1 (by rw [hq2, hs, hr2])
        rw [this, hl] at hq3
        rcases hq3 with ⟨a, -⟩ | ⟨a, -⟩ <;> exact absurd a (by decide)
  · intro hsr
    rw [hids, i3]
    by_cases hz : w._loadRequestId = 0
    · simp [hz]
    · simp only [hz, if_false]
      have hne : w._loadRequestId ≠ requestId := by
        intro he
        have hmem : w._loadRequestId ∈ w.listRequestIds := by rw [i3]; simp [hz]
        unfold AddParticipantBox.listRequestIds at hmem
        rw [List.mem_map] at hmem
        obtain ⟨q, hq1, hq2⟩ := hmem
        rw [List.mem_filter] at hq1
        have : q = r := AddParticipantBox.request_same i1 hq1.1 hr1 (by rw [hq2, he, hr2])
        have hq3 := hq1.2
        rw [this] at hq3
        exact hsr (by simpa using hq3)
      simp [hne]
  · intro q hq hne
    unfold AddParticipantBox.dropRequest
    simp [List.mem_filter, hq, hne]

/-- Sending a request keeps the base invariant of the add-participant dialog. -/
theorem AddParticipantBox.Base.sentAdd {w : AddParticipantBox} (h : w.Base)
    (w1 : AddParticipantBox) (req : AddRequest)
    (h1 : w1.requests = w.requests ++ [req]) (h2 : w1.lastRequestId = w.lastRequestId + 1)
    (h3 : req.id = w.lastRequestId + 1)
    (h4 : (req.handlers = AddHandlers.list ∧ w._loadRequestId = 0 ∧ w1._loadRequestId = req.id)
      ∨ (req.handlers ≠ AddHandlers.list ∧ w1._loadRequestId = w._loadRequestId)) :
    w1.Base := by
  obtain ⟨i1, i2, i3⟩ := h
  refine ⟨?_, ?_, ?_⟩
  · rw [h1, List.map_append, List.nodup_append]
    refine ⟨i1, by simp, ?_⟩
    intro a ha hb
    simp only [List.map_cons, List.map_nil, List.mem_singleton] at hb
    rw [List.mem_map] at ha
    obtain ⟨q, hq, hqa⟩ := ha
    have := (i2 q hq).2
    omega
  · rw [h1, h2]
    intro q hq
    rw [List.mem_append] at hq
    rcases hq with hq | hq
    · have := i2 q hq
      exact ⟨this.1, by omega⟩
    · simp only [List.mem_singleton] at hq
      subst hq
      omega
  · unfold AddParticipantBox.listRequestIds at i3 ⊢
    rw [h1, List.filter_append, List.map_append, i3]
    rcases h4 with ⟨a1, a2, a3⟩ | ⟨a1, a2⟩
    · have : req.id ≠ 0 := by omega
      simp [a1, a2, a3, this]
    · simp [a1, a2]

theorem AddParticipantBoxSearchController.requestParticipants_inv (w : AddParticipantBox)
    (h : w.Inv) (hq : w.search._query.isEmpty = false) :
    (AddParticipantBoxSearchController.requestParticipants w).Inv := by
  unfold AddParticipantBoxSearchController.requestParticipants
  simp only [AddParticipantBox.send]
  refine ⟨h.1.sentAdd _ _ rfl rfl rfl (Or.inr ⟨by simp, rfl⟩), ?_⟩
  intro _
  refine ⟨hq, _, List.mem_append_right _ (List.mem_singleton_self _), rfl, Or.inl ⟨rfl, ?_⟩⟩
  simp [Dict.has_emplace]

theorem AddParticipantBoxSearchController.requestGlobal_inv (env : Env) (w : AddParticipantBox)
    (h : w.Inv) (hq : w.search._query.isEmpty = false) :
    (AddParticipantBoxSearchController.requestGlobal env w).Inv := by
  unfold AddParticipantBoxSearchController.requestGlobal
  split
  · exact h.sameAdd _ rfl rfl rfl rfl rfl rfl rfl
  · simp only [AddParticipantBox.send]
    refine ⟨h.1.sentAdd _ _ rfl rfl rfl (Or.inr ⟨by simp, rfl⟩), ?_⟩
    intro _
    refine ⟨hq, _, List.mem_append_right _ (List.mem_singleton_self _), rfl, Or.inr ⟨rfl, ?_⟩⟩
    simp [Dict.has_emplace]

theorem AddParticipantBoxSearchController.searchGlobalDone_store_frame (w : AddParticipantBox)
    (requestId : Nat) (result : MTPcontacts_Found) :
    ∃ users cache queries,
      AddParticipantBoxSearchController.searchGlobalDone_store w requestId result
        = { w with users := users,
                   search := { w.search with _globalCache := cache,
                                             _globalQueries := queries } } := by
  unfold AddParticipantBoxSearchController.searchGlobalDone_store
  by_cases hr : requestId = 0
  · exact ⟨w.users, w.search._globalCache, w.search._globalQueries, by simp [hr]⟩
  · cases hf : Dict.find w.search._globalQueries requestId with
    | none => exact ⟨feedUsers w.users result.users, w.search._globalCache,
        w.search._globalQueries, by simp [hr, hf]⟩
    | some query =>
      exact ⟨feedUsers w.users result.users, Dict.assign w.search._globalCache query result,
        Dict.erase w.search._globalQueries requestId, by simp [hr, hf]⟩

theorem AddParticipantBoxSearchController.searchGlobalDone_store_queries (w : AddParticipantBox)
    (requestId : Nat) (result : MTPcontacts_Found) (r : Nat) :
    Dict.find (AddParticipantBoxSearchController.searchGlobalDone_store w requestId
        result).search._globalQueries r
      = if requestId ≠ 0 ∧ r = requestId then none else Dict.find w.search._globalQueries r := by
  unfold AddParticipantBoxSearchController.searchGlobalDone_store
  by_cases hr : requestId = 0
  · simp [hr]
  · cases hf : Dict.find w.search._globalQueries requestId with
    | none =>
      by_cases he : r = requestId
      · simp [hr, hf, he]
      · simp [hr, hf, he]
    | some query =>
      by_cases he : r = requestId <;> simp [hr, hf, he, Dict.find_erase]

/-- Everything `searchGlobalDone` leaves alone, and what it does to the members it
writes. -/
theorem AddParticipantBoxSearchController.searchGlobalDone_frame (w w' s : AddParticipantBox)
    (requestId : Nat) (result : MTPcontacts_Found)
    (hw' : w' = AddParticipantBoxSearchController.searchGlobalDone w requestId result)
    (hs' : s = AddParticipantBoxSearchController.searchGlobalDone_store w requestId result) :
    w'.search._globalCache = s.search._globalCache
    ∧ w'.search._globalQueries = s.search._globalQueries
    ∧ w'.search._participantsQueries = w.search._participantsQueries
    ∧ w'.search._query = w.search._query
    ∧ w'.requests = w.requests ∧ w'.lastRequestId = w.lastRequestId
    ∧ w'._loadRequestId = w._loadRequestId
    ∧ (w.search._requestId ≠ requestId → w'.search._requestId = w.search._requestId
        ∧ w'.search._offset = w.search._offset
        ∧ w'.search._participantsLoaded = w.search._participantsLoaded
        ∧ w'.search._globalLoaded = w.search._globalLoaded
        ∧ w'._additional = w._additional ∧ w'.searchRows = w.searchRows)
    ∧ (w.search._requestId = requestId → w'.search._requestId = 0
        ∧ w'.search._globalLoaded = true) := by
  obtain ⟨users, cache, queries, hs⟩ :=
    AddParticipantBoxSearchController.searchGlobalDone_store_frame w requestId result
  unfold AddParticipantBoxSearchController.searchGlobalDone at hw'
  rw [← hs'] at hw'
  rw [hs] at hs'
  subst hw'
  by_cases he : w.search._requestId = requestId
  · have he' : s.search._requestId = requestId := by rw [hs']; exact he
    simp [he', AddParticipantBoxSearchController.searchGlobalDone_loop_search]
    simp [hs', he]
  · have he' : ¬ s.search._requestId = requestId := by rw [hs']; exact he
    simp [he']
    simp [hs', he]

theorem AddParticipantBoxSearchController.searchGlobalDone_inv (d : AddParticipantBox)
    (requestId : Nat) (result : MTPcontacts_Found)
    (hb : d.Base) (ht : d.search._requestId ≠ requestId → d.Tracked) :
    (AddParticipantBoxSearchController.searchGlobalDone d requestId result).Inv := by
  obtain ⟨-, f2, f3, f4, f5, f6, f7, f8, f9⟩ :=
    AddParticipantBoxSearchController.searchGlobalDone_frame d _ _ requestId result rfl rfl
  refine ⟨hb.keepBaseAdd f5 f6 f7, ?_⟩
  by_cases he : d.search._requestId = requestId
  · exact AddParticipantBox.Tracked.untrackedAdd (f9 he).1
  · refine (ht he).carryAdd (fun q hq _ => by rw [f5]; exact hq) (f8 he).1 f4 ?_ ?_
    · intro hh
      rw [f3]; exact hh
    · intro hh
      unfold Dict.has at hh ⊢
      rw [f2, AddParticipantBoxSearchController.searchGlobalDone_store_queries]
      simp [he, hh]

/-- `loadMoreRows` of the add-participant search controller keeps the invariant. -/
theorem AddParticipantBoxSearchController.searchLoad_inv (env : Env) (w : AddParticipantBox)
    (h : w.Inv) : (AddParticipantBoxSearchController.loadMoreRows env w).1.Inv := by
  obtain ⟨w1, hw1⟩ : ∃ w1, w1 = if w.search._chatsContactsAdded = true then w
      else AddParticipantBoxSearchController.addChatsContacts env w := ⟨_, rfl⟩
  have hc : w1.Inv ∧ w1.search._query = w.search._query := by
    rw [hw1]
    split
    · exact ⟨h, rfl⟩
    · exact ⟨h.sameAdd _ rfl rfl rfl rfl rfl rfl rfl, rfl⟩
  rw [AddParticipantBoxSearchController.loadMoreRows_eq env w w1 hw1]
  split_ifs with c1 c2 c3 c4 c5 c6
  · exact h
  · exact h
  · exact hc.1
  · unfold AddParticipantBoxSearchController.searchGlobalInCache at c5 ⊢
    cases hf : Dict.find w1.search._globalCache w1.search._query with
    | none => simp [hf] at c5
    | some it =>
      simp only []
      exact AddParticipantBoxSearchController.searchGlobalDone_inv _ 0 it
        (hc.1.1.keepBaseAdd rfl rfl rfl) (fun hne => absurd rfl hne)
  · refine AddParticipantBoxSearchController.requestGlobal_inv env w1 hc.1 ?_
    rw [hc.2]; simpa using c1
  · exact h
  · exact AddParticipantBoxSearchController.requestParticipants_inv w h (by simpa using c1)

theorem AddParticipantBoxSearchController.searchParticipantsDone_loaded_inv (env : Env)
    (w : AddParticipantBox) (list : List MTPChannelParticipant) (requestedCount : Nat)
    (h : w.Inv) :
    (AddParticipantBoxSearchController.searchParticipantsDone_loaded env w list
      requestedCount).Inv := by
  unfold AddParticipantBoxSearchController.searchParticipantsDone_loaded
  split
  · simp only []
    split
    · exact AddParticipantBoxSearchController.searchLoad_inv env _
        (h.sameAdd _ rfl rfl rfl rfl rfl rfl rfl)
    · exact h.sameAdd _ rfl rfl rfl rfl rfl rfl rfl
  · exact h

theorem AddParticipantBoxSearchController.searchParticipantsDone_inv (env : Env)
    (d w' : AddParticipantBox) (requestId : Nat) (result : MTPchannels_ChannelParticipants)
    (requestedCount : Nat) (hb : d.Base) (ht : d.search._requestId ≠ requestId → d.Tracked)
    (hw' : AddParticipantBoxSearchController.searchParticipantsDone env d requestId result
      requestedCount = some w') : w'.Inv := by
  obtain ⟨users, cache, queries, hs⟩ :=
    AddParticipantBoxSearchController.searchParticipantsDone_store_frame d requestId result
      requestedCount
  obtain ⟨s, hs'⟩ : ∃ s, s = AddParticipantBoxSearchController.searchParticipantsDone_store d
    requestId result requestedCount := ⟨_, rfl⟩
  have hq := fun r => AddParticipantBoxSearchController.searchParticipantsDone_store_queries d
    requestId result requestedCount r
  rw [← hs'] at hq
  have hsb : s.Base := by
    rw [hs', hs]; exact hb.keepBaseAdd rfl rfl rfl
  unfold AddParticipantBoxSearchController.searchParticipantsDone at hw'
  rw [← hs'] at hw'
  have hsid : s.search._requestId = d.search._requestId := by rw [hs', hs]
  by_cases he : d.search._requestId = requestId
  · have he' : s.search._requestId = requestId := by rw [hsid]; exact he
    simp only [he', if_true] at hw'
    obtain ⟨w0, hw0⟩ : ∃ w0, w0 = AddParticipantBoxSearchController.searchParticipantsDone_loaded
        env { s with search := { s.search with _requestId := 0 } } result.participants
        requestedCount := ⟨_, rfl⟩
    rw [← hw0] at hw'
    have hi0 : w0.Inv := by
      rw [hw0]
      exact AddParticipantBoxSearchController.searchParticipantsDone_loaded_inv env _ _ _
        ⟨hsb.keepBaseAdd rfl rfl rfl, AddParticipantBox.Tracked.untrackedAdd rfl⟩
    cases hloop : AddParticipantBoxSearchController.searchParticipantsDone_loop w0
        result.participants with
    | none => simp [hloop] at hw'
    | some w2 =>
      obtain ⟨a, rows, hw2⟩ :=
        AddParticipantBoxSearchController.searchParticipantsDone_loop_frame _ _ _ hloop
      simp only [hloop, Option.some.injEq] at hw'
      rw [← hw', hw2]
      exact hi0.sameAdd _ rfl rfl rfl rfl rfl rfl rfl
  · have he' : ¬ s.search._requestId = requestId := by rw [hsid]; exact he
    simp only [he', if_false, Option.some.injEq] at hw'
    rw [← hw']
    refine ⟨hsb, ?_⟩
    refine (ht he).carryAdd (fun q hq _ => by rw [hs', hs]; exact hq) hsid
      (by rw [hs', hs]) ?_ ?_
    · intro hh
      unfold Dict.has at hh ⊢
      rw [hq]
      simp [he, hh]
    · intro hh
      rw [hs', hs]; exact hh

theorem AddParticipantBoxSearchController.requestParticipants_fail_inv (env : Env)
    (d : AddParticipantBox) (requestId : Nat)
    (hb : d.Base) (ht : d.search._requestId ≠ requestId → d.Tracked) :
    (AddParticipantBoxSearchController.requestParticipants_fail env d requestId).Inv := by
  unfold AddParticipantBoxSearchController.requestParticipants_fail
  by_cases he : d.search._requestId = requestId
  · rw [if_pos he]
    exact AddParticipantBoxSearchController.searchLoad_inv env _
      ⟨hb.keepBaseAdd rfl rfl rfl, AddParticipantBox.Tracked.untrackedAdd rfl⟩
  · rw [if_neg he]
    exact ⟨hb, ht he⟩

theorem AddParticipantBoxSearchController.requestGlobal_fail_inv
    (d : AddParticipantBox) (requestId : Nat)
    (hb : d.Base) (ht : d.search._requestId ≠ requestId → d.Tracked) :
    (AddParticipantBoxSearchController.requestGlobal_fail d requestId).Inv := by
  unfold AddParticipantBoxSearchController.requestGlobal_fail
  by_cases he : d.search._requestId = requestId
  · rw [if_pos he]
    exact ⟨hb.keepBaseAdd rfl rfl rfl, AddParticipantBox.Tracked.untrackedAdd rfl⟩
  · rw [if_neg he]
    exact ⟨hb, ht he⟩

theorem AddParticipantBoxSearchController.searchQuery_keeps (env : Env) (w w' : AddParticipantBox)
    (query : String) (h : w.Inv)
    (hw' : AddParticipantBoxSearchController.searchQuery env w query = some w') : w'.Inv := by
  unfold AddParticipantBoxSearchController.searchQuery at hw'
  by_cases hq : w.search._query ≠ query
  · rw [if_pos hq] at hw'
    obtain ⟨w0, hw0⟩ : ∃ w0 : AddParticipantBox, w0 = { w with search := { w.search with
      _query := query, _offset := 0, _requestId := 0, _participantsLoaded := false,
      _chatsContactsAdded := false, _globalLoaded := false } } := ⟨_, rfl⟩
    have hb0 : w0.Base := by rw [hw0]; exact h.1.keepBaseAdd rfl rfl rfl
    have hi0 : w0.Inv := ⟨hb0, AddParticipantBox.Tracked.untrackedAdd (by rw [hw0])⟩
    simp only [] at hw'
    rw [← hw0] at hw'
    by_cases he : query.isEmpty = true
    · rw [if_pos he, Option.some.injEq] at hw'
      rw [← hw']
      exact hi0.sameAdd _ (by rw [hw0]) (by rw [hw0]) (by rw [hw0]) (by rw [hw0]) (by rw [hw0])
        (by rw [hw0]) (by rw [hw0])
    · rw [if_neg he] at hw'
      unfold AddParticipantBoxSearchController.searchParticipantsInCache at hw'
      cases hf : Dict.find w0.search._participantsCache w0.search._query with
      | none =>
        simp only [hf, Option.some.injEq] at hw'
        rw [← hw']
        exact hi0.sameAdd _ rfl rfl rfl rfl rfl rfl rfl
      | some it =>
        simp only [hf] at hw'
        cases hd : AddParticipantBoxSearchController.searchParticipantsDone env
            { w0 with search := { w0.search with _requestId := 0 } } 0 it.result
            it.requestedCount with
        | none => simp [hd] at hw'
        | some w2 =>
          have hi2 := AddParticipantBoxSearchController.searchParticipantsDone_inv env
            { w0 with search := { w0.search with _requestId := 0 } } w2 0
            it.result it.requestedCount (hb0.keepBaseAdd rfl rfl rfl)
            (fun hne => absurd rfl hne) hd
          simp only [hd, Option.some.injEq] at hw'
          rw [← hw']
          exact hi2.sameAdd _ rfl rfl rfl rfl rfl rfl rfl
  · rw [if_neg hq, Option.some.injEq] at hw'
    rw [← hw']
    exact h

theorem AddParticipantBoxController.listLoop_frame (env : Env)
    (list : List MTPChannelParticipant) :
    ∀ w w' : AddParticipantBox, AddParticipantBoxController.loadMoreRows_loop env w list = some w' →
      ∃ a rows off, w' = { w with _additional := a, rows := rows, _offset := off } := by
  induction list with
  | nil =>
    intro w w' h
    simp only [AddParticipantBoxController.loadMoreRows_loop, Option.some.injEq] at h
    exact ⟨w._additional, w.rows, w._offset, h ▸ rfl⟩
  | cons participant rest ih =>
    intro w w' h
    unfold AddParticipantBoxController.loadMoreRows_loop at h
    simp only [] at h
    cases hp : AddParticipantBoxController.HandleParticipant w.users participant w._additional with
    | none => simp [hp] at h
    | some r =>
      obtain ⟨a, cb⟩ := r
      cases cb with
      | none =>
        simp only [hp] at h
        obtain ⟨a', rows', off', h'⟩ := ih _ _ h
        exact ⟨a', rows', off', h'⟩
      | some user =>
        simp only [hp, AddParticipantBoxController.appendRow] at h
        split at h
        · obtain ⟨a', rows', off', h'⟩ := ih _ _ h
          exact ⟨a', rows', off', h'⟩
        · obtain ⟨a', rows', off', h'⟩ := ih _ _ h
          exact ⟨a', rows', off', h'⟩

theorem AddParticipantBoxController.listDone_keeps (env : Env) (d w' : AddParticipantBox)
    (result : MTPchannels_ChannelParticipants)
    (h1 : (d.requests.map (fun r => r.id)).Nodup)
    (h2 : ∀ r ∈ d.requests, r.id ≠ 0 ∧ r.id ≤ d.lastRequestId)
    (h3 : d.listRequestIds = []) (ht : d.Tracked)
    (hw' : AddParticipantBoxController.loadMoreRows_done env d result = some w') : w'.Inv := by
  have hb0 : ({ d with _loadRequestId := 0 } : AddParticipantBox).Base := ⟨h1, h2, by
    simp only [if_true]
    exact h3⟩
  have hi0 : ({ d with _loadRequestId := 0 } : AddParticipantBox).Inv :=
    ⟨hb0, ht.carryAdd (fun q hq _ => hq) rfl rfl (fun hh => hh) (fun hh => hh)⟩
  unfold AddParticipantBoxController.loadMoreRows_done at hw'
  simp only [] at hw'
  split at hw'
  · simp only [Option.some.injEq] at hw'
    rw [← hw']
    exact hi0.sameAdd _ rfl rfl rfl rfl rfl rfl rfl
  · obtain ⟨a, rows, off, hl⟩ := AddParticipantBoxController.listLoop_frame env _ _ _ hw'
    rw [hl]
    exact hi0.sameAdd _ rfl rfl rfl rfl rfl rfl rfl

theorem AddParticipantBoxController.listFail_keeps (d : AddParticipantBox)
    (h1 : (d.requests.map (fun r => r.id)).Nodup)
    (h2 : ∀ r ∈ d.requests, r.id ≠ 0 ∧ r.id ≤ d.lastRequestId)
    (h3 : d.listRequestIds = []) (ht : d.Tracked) :
    (AddParticipantBoxController.loadMoreRows_fail d).Inv := by
  have hb0 : ({ d with _loadRequestId := 0 } : AddParticipantBox).Base := ⟨h1, h2, by
    simp only [if_true]
    exact h3⟩
  exact ⟨hb0, ht.carryAdd (fun q hq _ => hq) rfl rfl (fun hh => hh) (fun hh => hh)⟩

theorem AddParticipantBoxController.listLoad_keeps (env : Env) (w : AddParticipantBox)
    (h : w.Inv) : (AddParticipantBoxController.loadMoreRows env w).Inv := by
  unfold AddParticipantBoxController.loadMoreRows
  obtain ⟨p, hp⟩ : ∃ p : AddParticipantBox × Bool,
    p = AddParticipantBoxSearchController.loadMoreRows env w := ⟨_, rfl⟩
  rw [← hp]
  have hinv : p.1.Inv := by
    rw [hp]; exact AddParticipantBoxSearchController.searchLoad_inv env w h
  obtain ⟨w1, handled⟩ := p
  simp only [] at hinv ⊢
  cases handled with
  | true => simpa using hinv
  | false =>
    simp only [Bool.false_eq_true, if_false]
    by_cases hc : (w1._loadRequestId != 0 || w1._allLoaded) = true
    · rw [if_pos hc]; exact hinv
    · rw [if_neg hc]
      simp only [Bool.or_eq_true, bne_iff_ne, ne_eq, not_or, Decidable.not_not] at hc
      simp only [AddParticipantBox.send]
      refine ⟨hinv.1.sentAdd _ _ rfl rfl rfl (Or.inl ⟨rfl, hc.1, rfl⟩), ?_⟩
      exact hinv.2.carryAdd (fun q hq _ => List.mem_append_left _ hq) rfl rfl (fun hh => hh)
        (fun hh => hh)

/-- Every event of the add-participant dialog keeps the bookkeeping invariant. -/
theorem AddParticipantBox.handle_keeps (env : Env) (w w' : AddParticipantBox)
    (e : AddParticipantEvent) (h : w.Inv) (he : w.handle env e = some w') : w'.Inv := by
  cases e with
  | searchQuery query =>
    simp only [AddParticipantBox.handle] at he
    exact AddParticipantBoxSearchController.searchQuery_keeps env w w' query h he
  | timer =>
    simp only [AddParticipantBox.handle, AddParticipantBoxSearchController.searchOnServer] at he
    split at he
    · split at he
      · simp at he
      · simp only [Option.some.injEq] at he
        rw [← he]
        exact AddParticipantBoxSearchController.searchLoad_inv env _
          (h.sameAdd _ rfl rfl rfl rfl rfl rfl rfl)
    · simp at he
  | loadMoreRows =>
    simp only [AddParticipantBox.handle, Option.some.injEq] at he
    rw [← he]
    exact AddParticipantBoxController.listLoad_keeps env w h
  | searchLoadMoreRows =>
    simp only [AddParticipantBox.handle, Option.some.injEq] at he
    rw [← he]
    exact AddParticipantBoxSearchController.searchLoad_inv env w h
  | done requestId result =>
    simp only [AddParticipantBox.handle] at he
    cases hf : w.findRequest requestId with
    | none => simp [hf] at he
    | some r =>
      obtain ⟨d1, d2, d3, d4, d5⟩ := AddParticipantBox.dropRequest_keeps w requestId r h hf
      simp only [hf] at he
      cases hh : r.handlers with
      | list =>
        simp only [hh] at he
        obtain ⟨e1, e2, e3⟩ := d3 hh
        refine AddParticipantBoxController.listDone_keeps env _ w' result d1 d2 e2 ?_ he
        exact h.2.carryAdd (fun q hq hqi => d5 q hq (by rw [hqi]; exact e3)) rfl rfl
          (fun x => x) (fun x => x)
      | participants =>
        simp only [hh] at he
        refine AddParticipantBoxSearchController.searchParticipantsDone_inv env _ w' requestId
          result _ ⟨d1, d2, by rw [d4 (by rw [hh]; decide)]; exact h.1.2.2⟩ ?_ he
        intro hne
        exact h.2.carryAdd (fun q hq hqi => d5 q hq (by rw [hqi]; exact hne)) rfl rfl
          (fun x => x) (fun x => x)
      | global => simp [hh] at he
  | doneFound requestId result =>
    simp only [AddParticipantBox.handle] at he
    cases hf : w.findRequest requestId with
    | none => simp [hf] at he
    | some r =>
      obtain ⟨d1, d2, d3, d4, d5⟩ := AddParticipantBox.dropRequest_keeps w requestId r h hf
      simp only [hf] at he
      cases hh : r.handlers with
      | list => simp [hh] at he
      | participants => simp [hh] at he
      | global =>
        simp only [hh, Option.some.injEq] at he
        rw [← he]
        refine AddParticipantBoxSearchController.searchGlobalDone_inv _ requestId result
          ⟨d1, d2, by rw [d4 (by rw [hh]; decide)]; exact h.1.2.2⟩ ?_
        intro hne
        exact h.2.carryAdd (fun q hq hqi => d5 q hq (by rw [hqi]; exact hne)) rfl rfl
          (fun x => x) (fun x => x)
  | fail requestId =>
    simp only [AddParticipantBox.handle] at he
    cases hf : w.findRequest requestId with
    | none => simp [hf] at he
    | some r =>
      obtain ⟨d1, d2, d3, d4, d5⟩ := AddParticipantBox.dropRequest_keeps w requestId r h hf
      simp only [hf] at he
      cases hh : r.handlers with
      | list =>
        simp only [hh, Option.some.injEq] at he
        rw [← he]
        obtain ⟨e1, e2, e3⟩ := d3 hh
        refine AddParticipantBoxController.listFail_keeps _ d1 d2 e2 ?_
        exact h.2.carryAdd (fun q hq hqi => d5 q hq (by rw [hqi]; exact e3)) rfl rfl
          (fun x => x) (fun x => x)
      | participants =>
        simp only [hh, Option.some.injEq] at he
        rw [← he]
        refine AddParticipantBoxSearchController.requestParticipants_fail_inv env _ requestId
          ⟨d1, d2, by rw [d4 (by rw [hh]; decide)]; exact h.1.2.2⟩ ?_
        intro hne
        exact h.2.carryAdd (fun q hq hqi => d5 q hq (by rw [hqi]; exact hne)) rfl rfl
          (fun x => x) (fun x => x)
      | global =>
        simp only [hh, Option.some.injEq] at he
        rw [← he]
        refine AddParticipantBoxSearchController.requestGlobal_fail_inv _ requestId
          ⟨d1, d2, by rw [d4 (by rw [hh]; decide)]; exact h.1.2.2⟩ ?_
        intro hne
        exact h.2.carryAdd (fun q hq hqi => d5 q hq (by rw [hqi]; exact hne)) rfl rfl
          (fun x => x) (fun x => x)
  | editAdminDone user rights =>
    simp only [AddParticipantBox.handle, Option.some.injEq] at he
    rw [← he]
    exact h.sameAdd _ rfl rfl rfl rfl rfl rfl rfl
  | editRestrictedDone user rights =>
    simp only [AddParticipantBox.handle, Option.some.injEq] at he
    rw [← he]
    exact h.sameAdd _ rfl rfl rfl rfl rfl rfl rfl

theorem AddParticipantBox.run_keeps (env : Env) (events : List AddParticipantEvent) :
    ∀ w w' : AddParticipantBox, w.Inv → AddParticipantBox.run env w events = some w' →
      w'.Inv := by
  induction events with
  | nil =>
    intro w w' h hr
    simp only [AddParticipantBox.run, Option.some.injEq] at hr
    rw [← hr]; exact h
  | cons e es ih =>
    intro w w' h hr
    simp only [AddParticipantBox.run] at hr
    cases hh : w.handle env e with
    | none => simp [hh] at hr
    | some w1 =>
      simp only [hh] at hr
      exact ih w1 w' (AddParticipantBox.handle_keeps env w w1 e h hh) hr

theorem AddParticipantBox.init_keeps (role : Role) (creator : Option UserId) :
    (AddParticipantBox.init role creator).Inv := by
  refine ⟨⟨?_, ?_, ?_⟩, ?_⟩
  · simp [AddParticipantBox.init]
  · simp [AddParticipantBox.init]
  · simp [AddParticipantBox.init, AddParticipantBox.listRequestIds]
  · exact AddParticipantBox.Tracked.untrackedAdd rfl

theorem AddParticipantBox.reachable_keeps (env : Env) (w : AddParticipantBox)
    (h : AddParticipantBox.Reachable env w) : w.Inv := by
  obtain ⟨role, creator, events, hr⟩ := h
  exact AddParticipantBox.run_keeps env events _ w (AddParticipantBox.init_keeps role creator) hr

/-! ## Requests are sent one at a time -/

/-- `loadMoreRows` of the add-participant search controller sends at most one request,
never a list request, and only when no request is tracked and the timer is inactive. -/
theorem AddParticipantBoxSearchController.searchLoad_requests (env : Env)
    (v : AddParticipantBox) :
    (AddParticipantBoxSearchController.loadMoreRows env v).1.requests = v.requests
    ∨ (∃ req, (AddParticipantBoxSearchController.loadMoreRows env v).1.requests
          = v.requests ++ [req]
        ∧ req.handlers ≠ AddHandlers.list
        ∧ v.search._requestId = 0 ∧ v.search._timer = false) := by
  obtain ⟨w1, hw1⟩ : ∃ w1, w1 = if v.search._chatsContactsAdded = true then v
      else AddParticipantBoxSearchController.addChatsContacts env v := ⟨_, rfl⟩
  have hc : w1.requests = v.requests ∧ w1.search._requestId = v.search._requestId
      ∧ w1.search._timer = v.search._timer := by
    rw [hw1]
    split <;> simp [AddParticipantBoxSearchController.addChatsContacts]
  rw [AddParticipantBoxSearchController.loadMoreRows_eq env v w1 hw1]
  split_ifs with c1 c2 c3 c4 c5 c6
  · exact Or.inl rfl
  · exact Or.inl rfl
  · exact Or.inl hc.1
  · left
    rw [← hc.1]
    exact (AddParticipantBoxSearchController.searchGlobalInCache_frame w1).2.1
  · unfold AddParticipantBoxSearchController.requestGlobal
    split
    · exact Or.inl hc.1
    · right
      simp only [AddParticipantBoxSearchController.isLoading, Bool.or_eq_true, bne_iff_ne,
        ne_eq, not_or, Bool.not_eq_true, Decidable.not_not] at c4
      refine ⟨_, by simp only [AddParticipantBox.send]; rw [hc.1], by simp, ?_, ?_⟩
      · rw [← hc.2.1]; exact c4.2
      · rw [← hc.2.2]; exact c4.1
  · exact Or.inl rfl
  · right
    simp only [AddParticipantBoxSearchController.isLoading, Bool.or_eq_true, bne_iff_ne,
      ne_eq, not_or, Bool.not_eq_true, Decidable.not_not] at c6
    exact ⟨{ id := v.lastRequestId + 1, handlers := AddHandlers.participants, query := v.search._query, offset := v.search._offset, limit := kParticipantsPerPage },
      rfl, by simp, c6.2, c6.1⟩

set_option maxRecDepth 100000 in
/-- C4 (as stated, refuted): after the query "a" and then the query "b" have been typed
and the timer has fired for each, two search requests of BannedBoxSearchController
are unanswered and the pending-request map holds two entries; request 2 is tracked. -/
theorem BannedBoxSearchController.two_pending_entries :
    (ParticipantsBox.run sampleEnv (ParticipantsBox.init Role.Restricted none)
        sampleTwoQueries).map
      (fun w => (w.search._queries.length, w.requests.map (fun r => r.id), w.search._requestId))
      = some (2, [1, 2], 2) := by
  decide

/-- C4 (amended): in every reachable state of the search controllers the tracked
request id `_requestId` is 0 or the id of exactly one unanswered request, and that
request has an entry in the pending-request map; `loadMoreRows` sends a request only
when `_requestId` is 0 and the timer is inactive. (The pending-request map itself may
hold further entries of requests that are no longer tracked.) -/
theorem search_tracks_one_request (env : Env) (w : ParticipantsBox) (v : AddParticipantBox)
    (hw : ParticipantsBox.Reachable env w) (hv : AddParticipantBox.Reachable env v) :
    (w.search._requestId ≠ 0 →
      (∃! r, r ∈ w.requests ∧ r.id = w.search._requestId)
      ∧ Dict.has w.search._queries w.search._requestId = true)
    ∧ (v.search._requestId ≠ 0 →
      (∃! r, r ∈ v.requests ∧ r.id = v.search._requestId)
      ∧ (Dict.has v.search._participantsQueries v.search._requestId = true
          ∨ Dict.has v.search._globalQueries v.search._requestId = true))
    ∧ ((BannedBoxSearchController.loadMoreRows w).1.requests ≠ w.requests →
        w.search._requestId = 0 ∧ w.search._timer = false)
    ∧ ((AddParticipantBoxSearchController.loadMoreRows env v).1.requests ≠ v.requests →
        v.search._requestId = 0 ∧ v.search._timer = false) := by
  obtain ⟨⟨w1, -, -⟩, w4⟩ := ParticipantsBox.reachable_inv env w hw
  obtain ⟨⟨v1, -, -⟩, v4⟩ := AddParticipantBox.reachable_keeps env v hv
  refine ⟨?_, ?_, ?_, ?_⟩
  · intro hne
    obtain ⟨-, hhas, r, hr1, hr2, -⟩ := w4 hne
    refine ⟨⟨r, ⟨hr1, hr2⟩, ?_⟩, hhas⟩
    intro q ⟨hq1, hq2⟩
    exact ParticipantsBox.request_unique w1 hq1 hr1 (by rw [hq2, hr2])
  · intro hne
    obtain ⟨-, r, hr1, hr2, hr3⟩ := v4 hne
    refine ⟨⟨r, ⟨hr1, hr2⟩, ?_⟩, ?_⟩
    · intro q ⟨hq1, hq2⟩
      exact AddParticipantBox.request_same v1 hq1 hr1 (by rw [hq2, hr2])
    · rcases hr3 with ⟨-, b⟩ | ⟨-, b⟩
      · exact Or.inl b
      · exact Or.inr b
  · intro hne
    have := BannedBoxSearchController.loadMoreRows_sends w hne
    exact ⟨this.1, this.2.1⟩
  · intro hne
    rcases AddParticipantBoxSearchController.searchLoad_requests env v with h | ⟨_, -, -, h1, h2⟩
    · exact absurd h hne
    · exact ⟨h1, h2⟩

theorem sampleBannedPending_reachable : ParticipantsBox.Reachable sampleEnv sampleBannedPending :=
  ⟨Role.Restricted, none, [.searchQuery "a", .timer], by decide⟩

theorem sampleAddPending_reachable : AddParticipantBox.Reachable sampleEnv sampleAddPending :=
  ⟨Role.Admins, none, [.searchQuery "a", .timer], by decide⟩

theorem search_tracks_one_request_witness :
    ParticipantsBox.Reachable sampleEnv sampleBannedPending
    ∧ AddParticipantBox.Reachable sampleEnv sampleAddPending
    ∧ Dict.has sampleBannedPending.search._queries sampleBannedPending.search._requestId
        = true :=
  ⟨sampleBannedPending_reachable, sampleAddPending_reachable,
   ((search_tracks_one_request sampleEnv sampleBannedPending sampleAddPending
      sampleBannedPending_reachable sampleAddPending_reachable).1 (by decide)).2⟩

/-! ## List requests -/

theorem ParticipantsBoxController.listLoad_cases (w : ParticipantsBox) :
    (ParticipantsBoxController.loadMoreRows w).listRequestIds = w.listRequestIds
    ∨ (w._loadRequestId = 0 ∧ w._allLoaded = false
        ∧ (ParticipantsBoxController.loadMoreRows w)._loadRequestId ≠ 0
        ∧ (ParticipantsBoxController.loadMoreRows w).listRequestIds
            = w.listRequestIds ++ [(ParticipantsBoxController.loadMoreRows w)._loadRequestId]) := by
  unfold ParticipantsBoxController.loadMoreRows
  obtain ⟨p, hp⟩ : ∃ p : ParticipantsBox × Bool, p = (if w._role ≠ Role.Admins then
      BannedBoxSearchController.loadMoreRows w else (w, false)) := ⟨_, rfl⟩
  rw [← hp]
  have hfr : p.1.listRequestIds = w.listRequestIds ∧ p.1._loadRequestId = w._loadRequestId
      ∧ p.1._allLoaded = w._allLoaded := by
    rw [hp]
    split
    · rcases BannedBoxSearchController.loadMoreRows_cases w with ⟨-, he⟩ | ⟨-, -, he⟩ |
        ⟨-, -, -, he⟩
      · rw [he]; exact ⟨rfl, rfl, rfl⟩
      · rw [he]; exact ⟨rfl, rfl, rfl⟩
      · rw [he]
        refine ⟨?_, rfl, rfl⟩
        simp [ParticipantsBox.listRequestIds, List.filter_append]
    · exact ⟨rfl, rfl, rfl⟩
  obtain ⟨w1, handled⟩ := p
  simp only [] at hfr ⊢
  obtain ⟨f1, f2, f3⟩ := hfr
  cases handled with
  | true => left; simpa using f1
  | false =>
    simp only [Bool.false_eq_true, if_false]
    by_cases hc : (w1._loadRequestId != 0 || w1._allLoaded) = true
    · rw [if_pos hc]; exact Or.inl f1
    · rw [if_neg hc]
      simp only [Bool.or_eq_true, bne_iff_ne, ne_eq, not_or, Decidable.not_not,
        Bool.not_eq_true] at hc
      right
      refine ⟨by rw [← f2]; exact hc.1, by rw [← f3]; exact hc.2, ?_, ?_⟩
      · simp [ParticipantsBox.send]
      · rw [← f1]
        simp [ParticipantsBox.send, ParticipantsBox.listRequestIds, List.filter_append]

theorem AddParticipantBoxController.listLoad_branches (env : Env) (v : AddParticipantBox) :
    (AddParticipantBoxController.loadMoreRows env v).listRequestIds = v.listRequestIds
    ∨ (v._loadRequestId = 0 ∧ v._allLoaded = false
        ∧ (AddParticipantBoxController.loadMoreRows env v)._loadRequestId ≠ 0
        ∧ (AddParticipantBoxController.loadMoreRows env v).listRequestIds
            = v.listRequestIds
              ++ [(AddParticipantBoxController.loadMoreRows env v)._loadRequestId]) := by
  unfold AddParticipantBoxController.loadMoreRows
  obtain ⟨p, hp⟩ : ∃ p : AddParticipantBox × Bool,
    p = AddParticipantBoxSearchController.loadMoreRows env v := ⟨_, rfl⟩
  rw [← hp]
  have hfr : p.1.listRequestIds = v.listRequestIds ∧ p.1._loadRequestId = v._loadRequestId
      ∧ p.1._allLoaded = v._allLoaded := by
    rw [hp]
    have hf := AddParticipantBoxSearchController.loadMoreRows_frame env v
    unfold AddParticipantBox.SearchFrame at hf
    refine ⟨?_, hf.2.2.2.2.1, hf.2.2.2.2.2.1⟩
    rcases AddParticipantBoxSearchController.searchLoad_requests env v with h | ⟨req, h, hl, -, -⟩
    · unfold AddParticipantBox.listRequestIds
      rw [h]
    · unfold AddParticipantBox.listRequestIds
      rw [h]
      simp [List.filter_append, hl]
  obtain ⟨w1, handled⟩ := p
  simp only [] at hfr ⊢
  obtain ⟨f1, f2, f3⟩ := hfr
  cases handled with
  | true => left; simpa using f1
  | false =>
    simp only [Bool.false_eq_true, if_false]
    by_cases hc : (w1._loadRequestId != 0 || w1._allLoaded) = true
    · rw [if_pos hc]; exact Or.inl f1
    · rw [if_neg hc]
      simp only [Bool.or_eq_true, bne_iff_ne, ne_eq, not_or, Decidable.not_not,
        Bool.not_eq_true] at hc
      right
      refine ⟨by rw [← f2]; exact hc.1, by rw [← f3]; exact hc.2, ?_, ?_⟩
      · simp [AddParticipantBox.send]
      · rw [← f1]
        simp [AddParticipantBox.send, AddParticipantBox.listRequestIds, List.filter_append]

/-- C5: in every reachable state of ParticipantsBoxController and of
AddParticipantBoxController the number of unanswered list requests is 0 when
`_loadRequestId` is 0 and 1 otherwise; `loadMoreRows` sends a list request only when
`_loadRequestId` is 0 and `_allLoaded` is false; and both the done handler and the
fail handler reset `_loadRequestId` to 0. -/
theorem list_requests_one_at_a_time (env : Env) (w : ParticipantsBox) (v : AddParticipantBox)
    (result : MTPchannels_ChannelParticipants)
    (hw : ParticipantsBox.Reachable env w) (hv : AddParticipantBox.Reachable env v) :
    w.listRequestIds.length = (if w._loadRequestId = 0 then 0 else 1)
    ∧ v.listRequestIds.length = (if v._loadRequestId = 0 then 0 else 1)
    ∧ ((ParticipantsBoxController.loadMoreRows w).listRequestIds ≠ w.listRequestIds →
        w._loadRequestId = 0 ∧ w._allLoaded = false)
    ∧ ((AddParticipantBoxController.loadMoreRows env v).listRequestIds ≠ v.listRequestIds →
        v._loadRequestId = 0 ∧ v._allLoaded = false)
    ∧ (ParticipantsBoxController.loadMoreRows_done w result)._loadRequestId = 0
    ∧ (ParticipantsBoxController.loadMoreRows_fail w)._loadRequestId = 0
    ∧ (∀ v', AddParticipantBoxController.loadMoreRows_done env v result = some v' →
        v'._loadRequestId = 0)
    ∧ (AddParticipantBoxController.loadMoreRows_fail v)._loadRequestId = 0 := by
  obtain ⟨⟨-, -, w3⟩, -⟩ := ParticipantsBox.reachable_inv env w hw
  obtain ⟨⟨-, -, v3⟩, -⟩ := AddParticipantBox.reachable_keeps env v hv
  refine ⟨?_, ?_, ?_, ?_, ?_, rfl, ?_, rfl⟩
  · rw [w3]; split <;> rfl
  · rw [v3]; split <;> rfl
  · intro hne
    rcases ParticipantsBoxController.listLoad_cases w with h | ⟨h1, h2, -, -⟩
    · exact absurd h hne
    · exact ⟨h1, h2⟩
  · intro hne
    rcases AddParticipantBoxController.listLoad_branches env v with h | ⟨h1, h2, -, -⟩
    · exact absurd h hne
    · exact ⟨h1, h2⟩
  · unfold ParticipantsBoxController.loadMoreRows_done
    simp only []
    split
    · rfl
    · obtain ⟨a, rows, off, hl⟩ := ParticipantsBoxController.loadMoreRows_loop_frame
        result.participants
        { w with _loadRequestId := 0, users := feedUsers w.users result.users }
      rw [hl]
  · intro v' hv'
    unfold AddParticipantBoxController.loadMoreRows_done at hv'
    simp only [] at hv'
    split at hv'
    · simp only [Option.some.injEq] at hv'
      rw [← hv']
    · obtain ⟨a, rows, off, hl⟩ := AddParticipantBoxController.listLoop_frame env _ _ _ hv'
      rw [hl]

theorem sampleListLoading_reachable : ParticipantsBox.Reachable sampleEnv sampleListLoading :=
  ⟨Role.Admins, none, [.loadMoreRows], by decide⟩

theorem sampleAddListLoading_reachable :
    AddParticipantBox.Reachable sampleEnv sampleAddListLoading :=
  ⟨Role.Admins, none, [.loadMoreRows], by decide⟩

theorem list_requests_one_at_a_time_witness :
    ParticipantsBox.Reachable sampleEnv sampleListLoading
    ∧ AddParticipantBox.Reachable sampleEnv sampleAddListLoading
    ∧ sampleListLoading.listRequestIds.length
        = (if sampleListLoading._loadRequestId = 0 then 0 else 1)
    ∧ sampleListLoading.listRequestIds.length = 1 :=
  ⟨sampleListLoading_reachable, sampleAddListLoading_reachable,
   (list_requests_one_at_a_time sampleEnv sampleListLoading sampleAddListLoading samplePage2
      sampleListLoading_reachable sampleAddListLoading_reachable).1, by decide⟩

/-! ## Failures -/

/-- C6 (as stated, refuted): after the first list request of the admins dialog (and of
the add-participant dialog) has failed, `_loadRequestId` is 0 but `_allLoaded` is still
false, and the next `loadMoreRows` sends the request again (request 2). -/
theorem list_fail_does_not_stop_paging :
    (ParticipantsBox.run sampleEnv (ParticipantsBox.init Role.Admins none)
        [.loadMoreRows, .fail 1]).map (fun w => (w._loadRequestId, w._allLoaded))
      = some (0, false)
    ∧ (ParticipantsBox.run sampleEnv (ParticipantsBox.init Role.Admins none)
        [.loadMoreRows, .fail 1, .loadMoreRows]).map (fun w => w.requests)
      = some [{ id := 2, handlers := Handlers.list, filter := Filter.Admins,
                offset := 0, limit := 16 }]
    ∧ (AddParticipantBox.run sampleEnv (AddParticipantBox.init Role.Admins none)
        [.loadMoreRows, .fail 1]).map (fun w => (w._loadRequestId, w._allLoaded))
      = some (0, false)
    ∧ (AddParticipantBox.run sampleEnv (AddParticipantBox.init Role.Admins none)
        [.loadMoreRows, .fail 1, .loadMoreRows]).map (fun w => w.requests)
      = some [{ id := 2, handlers := AddHandlers.list, query := "", offset := 0, limit := 16 }] := by
  refine ⟨by decide, by decide, by decide, by decide⟩

/-- C6 (amended): the fail handler of the participants-list request of
ParticipantsBoxController and of AddParticipantBoxController clears the in-flight marker
(`_loadRequestId = 0`) and leaves `_allLoaded` and `_offset` unchanged; when the list
was not fully loaded and no search query is set, the next `loadMoreRows` sends the
request for the same offset again. -/
theorem list_fail_clears_marker_only (env : Env) (w : ParticipantsBox) (v : AddParticipantBox)
    (hw : w._allLoaded = false) (hq : w._role = Role.Admins ∨ w.search._query.isEmpty = true)
    (hv : v._allLoaded = false) (hvq : v.search._query.isEmpty = true) :
    (ParticipantsBoxController.loadMoreRows_fail w)._loadRequestId = 0
    ∧ (ParticipantsBoxController.loadMoreRows_fail w)._allLoaded = w._allLoaded
    ∧ (ParticipantsBoxController.loadMoreRows_fail w)._offset = w._offset
    ∧ (AddParticipantBoxController.loadMoreRows_fail v)._loadRequestId = 0
    ∧ (AddParticipantBoxController.loadMoreRows_fail v)._allLoaded = v._allLoaded
    ∧ (AddParticipantBoxController.loadMoreRows_fail v)._offset = v._offset
    ∧ (∃ req, (ParticipantsBoxController.loadMoreRows
          (ParticipantsBoxController.loadMoreRows_fail w)).requests = w.requests ++ [req]
        ∧ req.id = w.lastRequestId + 1 ∧ req.handlers = Handlers.list
        ∧ req.offset = w._offset)
    ∧ (∃ req, (AddParticipantBoxController.loadMoreRows env
          (AddParticipantBoxController.loadMoreRows_fail v)).requests = v.requests ++ [req]
        ∧ req.id = v.lastRequestId + 1 ∧ req.handlers = AddHandlers.list
        ∧ req.offset = v._offset) := by
  refine ⟨rfl, rfl, rfl, rfl, rfl, rfl, ?_, ?_⟩
  · unfold ParticipantsBoxController.loadMoreRows ParticipantsBoxController.loadMoreRows_fail
    rcases hq with hq | hq
    · simp [hq, hw, ParticipantsBox.send]
    · by_cases hr : w._role = Role.Admins
      · simp [hr, hw, ParticipantsBox.send]
      · simp [hr, hw, hq, ParticipantsBox.send, BannedBoxSearchController.loadMoreRows]
  · unfold AddParticipantBoxController.loadMoreRows AddParticipantBoxController.loadMoreRows_fail
    simp [hv, hvq, AddParticipantBox.send, AddParticipantBoxSearchController.loadMoreRows]

theorem list_fail_clears_marker_only_witness :
    sampleListLoading._allLoaded = false
    ∧ (sampleListLoading._role = Role.Admins ∨ sampleListLoading.search._query.isEmpty = true)
    ∧ sampleAddListLoading._allLoaded = false
    ∧ sampleAddListLoading.search._query.isEmpty = true
    ∧ (ParticipantsBoxController.loadMoreRows_fail sampleListLoading)._allLoaded
        = sampleListLoading._allLoaded :=
  ⟨rfl, Or.inl rfl, rfl, by decide,
   (list_fail_clears_marker_only sampleEnv sampleListLoading sampleAddListLoading rfl
      (Or.inl rfl) rfl (by decide)).2.1⟩

/-- C7: when a search request of BannedBoxSearchController fails and its (non-zero) id
is the tracked `_requestId`, in any reachable state, the fail handler sets
`_requestId = 0` and `_allLoaded = true` and leaves `_query` and `_offset` unchanged;
`loadMoreRows` then returns true and changes nothing (no request is sent). -/
theorem BannedBoxSearchController.fail_stops_search (env : Env) (w : ParticipantsBox)
    (requestId : Nat) (hw : ParticipantsBox.Reachable env w) (hr : requestId ≠ 0)
    (ht : w.search._requestId = requestId) :
    (BannedBoxSearchController.loadMoreRows_fail (w.dropRequest requestId)
        requestId).search._requestId = 0
    ∧ (BannedBoxSearchController.loadMoreRows_fail (w.dropRequest requestId)
        requestId).search._allLoaded = true
    ∧ (BannedBoxSearchController.loadMoreRows_fail (w.dropRequest requestId)
        requestId).search._query = w.search._query
    ∧ (BannedBoxSearchController.loadMoreRows_fail (w.dropRequest requestId)
        requestId).search._offset = w.search._offset
    ∧ BannedBoxSearchController.loadMoreRows
        (BannedBoxSearchController.loadMoreRows_fail (w.dropRequest requestId) requestId)
      = (BannedBoxSearchController.loadMoreRows_fail (w.dropRequest requestId) requestId, true) := by
  obtain ⟨-, w4⟩ := ParticipantsBox.reachable_inv env w hw
  have hq : w.search._query.isEmpty = false := (w4 (by rw [ht]; exact hr)).1
  have hd : (w.dropRequest requestId).search._requestId = requestId := ht
  have he : BannedBoxSearchController.loadMoreRows_fail (w.dropRequest requestId) requestId
      = { w.dropRequest requestId with search := { (w.dropRequest requestId).search with
            _requestId := 0, _allLoaded := true } } := by
    unfold BannedBoxSearchController.loadMoreRows_fail
    rw [if_pos hd]
  rw [he]
  refine ⟨rfl, rfl, rfl, rfl, ?_⟩
  unfold BannedBoxSearchController.loadMoreRows
  simp [hq, ParticipantsBox.dropRequest]

theorem BannedBoxSearchController.fail_stops_search_witness :
    ParticipantsBox.Reachable sampleEnv sampleBannedPending
    ∧ (1 : Nat) ≠ 0
    ∧ sampleBannedPending.search._requestId = 1
    ∧ (BannedBoxSearchController.loadMoreRows_fail (sampleBannedPending.dropRequest 1)
        1).search._allLoaded = true :=
  ⟨sampleBannedPending_reachable, by decide, rfl,
   (BannedBoxSearchController.fail_stops_search sampleEnv sampleBannedPending 1
      sampleBannedPending_reachable (by decide) rfl).2.1⟩

/-! ## Responses and the pending-request maps -/

/-- C8: a response (success or failure) whose request id is not the tracked
`_requestId` is ignored by `BannedBoxSearchController::searchDone` and its fail handler
and by `searchParticipantsDone`, `searchGlobalDone` and the two fail handlers of
AddParticipantBoxSearchController: `_requestId`, `_offset`, the loaded flags and the
additional-info record are unchanged and no search row is added
(`searchParticipantsDone` returns in this case). -/
theorem stale_response_ignored (env : Env) (w : ParticipantsBox) (v : AddParticipantBox)
    (requestId : Nat) (result : MTPchannels_ChannelParticipants) (found : MTPcontacts_Found)
    (requestedCount : Nat)
    (hw : w.search._requestId ≠ requestId) (hv : v.search._requestId ≠ requestId) :
    w.SameSearch (BannedBoxSearchController.searchDone w requestId result requestedCount)
    ∧ w.SameSearch (BannedBoxSearchController.loadMoreRows_fail w requestId)
    ∧ (AddParticipantBoxSearchController.searchParticipantsDone env v requestId result
        requestedCount).isSome = true
    ∧ (∀ v', AddParticipantBoxSearchController.searchParticipantsDone env v requestId result
        requestedCount = some v' → v.SameSearch v')
    ∧ v.SameSearch (AddParticipantBoxSearchController.searchGlobalDone v requestId found)
    ∧ v.SameSearch (AddParticipantBoxSearchController.requestParticipants_fail env v requestId)
    ∧ v.SameSearch (AddParticipantBoxSearchController.requestGlobal_fail v requestId) := by
  obtain ⟨users, cache, queries, hs⟩ :=
    AddParticipantBoxSearchController.searchParticipantsDone_store_frame v requestId result
      requestedCount
  refine ⟨?_, ?_, ?_, ?_, ?_, ?_, ?_⟩
  · exact ((BannedBoxSearchController.searchDone_frame w _ _ requestId result requestedCount
      rfl rfl).2.2.2.2.2.2.2.2.2.2.2.1) hw
  · unfold BannedBoxSearchController.loadMoreRows_fail
    rw [if_neg hw]
    exact ⟨rfl, rfl, rfl, rfl, rfl⟩
  · unfold AddParticipantBoxSearchController.searchParticipantsDone
    simp only []
    rw [if_neg (by rw [hs]; exact hv)]
    rfl
  · intro v' hv'
    have := (AddParticipantBoxSearchController.searchParticipantsDone_frame env v v' _ requestId
      result requestedCount hv' rfl).2.2.2.2.2.2.2.2.2 hv
    rw [this, hs]
    exact ⟨rfl, rfl, rfl, rfl, rfl, rfl⟩
  · obtain ⟨h1, h2, h3, h4, h5, h6⟩ :=
      (AddParticipantBoxSearchController.searchGlobalDone_frame v _ _ requestId found
        rfl rfl).2.2.2.2.2.2.2.1 hv
    exact ⟨h1, h2, h3, h4, h5, h6⟩
  · unfold AddParticipantBoxSearchController.requestParticipants_fail
    rw [if_neg hv]
    exact ⟨rfl, rfl, rfl, rfl, rfl, rfl⟩
  · unfold AddParticipantBoxSearchController.requestGlobal_fail
    rw [if_neg hv]
    exact ⟨rfl, rfl, rfl, rfl, rfl, rfl⟩

theorem stale_response_ignored_witness :
    sampleBannedPending.search._requestId ≠ 5
    ∧ sampleAddPending.search._requestId ≠ 5
    ∧ sampleBannedPending.SameSearch
        (BannedBoxSearchController.searchDone sampleBannedPending 5 samplePage1 200) :=
  ⟨by decide, by decide,
   (stale_response_ignored sampleEnv sampleBannedPending sampleAddPending 5 samplePage1
      { results := [], users := [] } 200 (by decide) (by decide)).1⟩

/-- C9: for a non-zero request id, after `searchDone`, `searchParticipantsDone` (when it
returns, as it does whenever the participants have expected types) or
`searchGlobalDone` has handled the response, the corresponding pending map has no entry
for that id and the entry of every other id is unchanged, whether or not the id is the
tracked one. -/
theorem pending_entry_consumed (env : Env) (w : ParticipantsBox) (v : AddParticipantBox)
    (requestId : Nat) (result : MTPchannels_ChannelParticipants) (found : MTPcontacts_Found)
    (requestedCount : Nat) (hr : requestId ≠ 0) :
    (Dict.find (BannedBoxSearchController.searchDone w requestId result
        requestedCount).search._queries requestId = none
      ∧ ∀ r, r ≠ requestId →
        Dict.find (BannedBoxSearchController.searchDone w requestId result
          requestedCount).search._queries r = Dict.find w.search._queries r)
    ∧ ((∀ p ∈ result.participants, p.expected = true) →
        (AddParticipantBoxSearchController.searchParticipantsDone env v requestId result
          requestedCount).isSome = true)
    ∧ (∀ v', AddParticipantBoxSearchController.searchParticipantsDone env v requestId result
          requestedCount = some v' →
        Dict.find v'.search._participantsQueries requestId = none
        ∧ ∀ r, r ≠ requestId →
          Dict.find v'.search._participantsQueries r = Dict.find v.search._participantsQueries r)
    ∧ (Dict.find (AddParticipantBoxSearchController.searchGlobalDone v requestId
        found).search._globalQueries requestId = none
      ∧ ∀ r, r ≠ requestId →
        Dict.find (AddParticipantBoxSearchController.searchGlobalDone v requestId
          found).search._globalQueries r = Dict.find v.search._globalQueries r) := by
  refine ⟨?_, ?_, ?_, ?_⟩
  · have h := (BannedBoxSearchController.searchDone_frame w _ _ requestId result requestedCount
      rfl rfl).2.1
    rw [h]
    refine ⟨?_, ?_⟩
    · rw [BannedBoxSearchController.searchDone_store_queries]; simp [hr]
    · intro r hne
      rw [BannedBoxSearchController.searchDone_store_queries]; simp [hne]
  · exact AddParticipantBoxSearchController.searchParticipantsDone_isSome env v requestId result
      requestedCount
  · intro v' hv'
    have h := (AddParticipantBoxSearchController.searchParticipantsDone_frame env v v' _
      requestId result requestedCount hv' rfl).2.1
    rw [h]
    refine ⟨?_, ?_⟩
    · rw [AddParticipantBoxSearchController.searchParticipantsDone_store_queries]; simp [hr]
    · intro r hne
      rw [AddParticipantBoxSearchController.searchParticipantsDone_store_queries]; simp [hne]
  · have h := (AddParticipantBoxSearchController.searchGlobalDone_frame v _ _ requestId found
      rfl rfl).2.1
    rw [h]
    refine ⟨?_, ?_⟩
    · rw [AddParticipantBoxSearchController.searchGlobalDone_store_queries]; simp [hr]
    · intro r hne
      rw [AddParticipantBoxSearchController.searchGlobalDone_store_queries]; simp [hne]

theorem pending_entry_consumed_witness :
    (1 : Nat) ≠ 0
    ∧ Dict.find sampleBannedPending.search._queries 1 = some { text := "a", offset := 0 }
    ∧ Dict.find (BannedBoxSearchController.searchDone sampleBannedPending 1 samplePage2
        200).search._queries 1 = none :=
  ⟨by decide, by decide,
   (pending_entry_consumed sampleEnv sampleBannedPending sampleAddPending 1 samplePage2
      { results := [], users := [] } 200 (by decide)).1.1⟩

/-- C10 (the code at the failing input): no fail handler touches its pending map, so
the entry of a failed request stays: after request 1 of BannedBoxSearchController has
failed it is no longer unanswered, yet `_queries` still holds its entry. -/
theorem pending_entry_survives_failure (env : Env) (w : ParticipantsBox)
    (v : AddParticipantBox) (requestId : Nat) :
    (BannedBoxSearchController.loadMoreRows_fail w requestId).search._queries
      = w.search._queries
    ∧ (AddParticipantBoxSearchController.requestParticipants_fail env v
        requestId).search._participantsQueries = v.search._participantsQueries
    ∧ (AddParticipantBoxSearchController.requestGlobal_fail v requestId).search._globalQueries
      = v.search._globalQueries
    ∧ (sampleBannedPending.handle sampleEnv (.fail 1)).map
        (fun w => (w.requests, w.search._requestId, Dict.find w.search._queries 1))
      = some ([], 0, some { text := "a", offset := 0 }) := by
  refine ⟨?_, ?_, ?_, by decide⟩
  · unfold BannedBoxSearchController.loadMoreRows_fail
    split <;> rfl
  · unfold AddParticipantBoxSearchController.requestParticipants_fail
    split
    · exact AddParticipantBoxSearchController.loadMoreRows_participantsQueries env _ rfl
    · rfl
  · unfold AddParticipantBoxSearchController.requestGlobal_fail
    split <;> rfl

/-! ## The search timer -/

theorem BannedBoxSearchController.searchQuery_miss (w : ParticipantsBox) (q : String)
    (hq : w.search._query ≠ q) (hne : q.isEmpty = false)
    (hc : Dict.find w.search._cache q = none) :
    BannedBoxSearchController.searchQuery w q
      = { w with search := { w.search with _query := q, _offset := 0, _requestId := 0, _allLoaded := false, _timer := true } } := by
  unfold BannedBoxSearchController.searchQuery
  rw [if_pos hq]
  simp only [hne, Bool.false_eq_true, if_false]
  unfold BannedBoxSearchController.searchInCache
  simp only [hc]

theorem BannedBoxSearchController.searchQuery_hit (w w0 w1 : ParticipantsBox) (q : String)
    (it : CacheEntry) (hq : w.search._query ≠ q) (hne : q.isEmpty = false)
    (hc : Dict.find w.search._cache q = some it)
    (hw0 : w0 = { w with search := { w.search with _query := q, _offset := 0, _requestId := 0, _allLoaded := false } })
    (hw1 : w1 = BannedBoxSearchController.searchDone w0 0 it.result it.requestedCount) :
    BannedBoxSearchController.searchQuery w q
      = { w1 with search := { w1.search with _timer := false } } := by
  unfold BannedBoxSearchController.searchQuery
  rw [if_pos hq]
  simp only [hne, Bool.false_eq_true, if_false]
  unfold BannedBoxSearchController.searchInCache
  simp only [hc]
  rw [hw1, hw0]

theorem BannedBoxSearchController.searchQuery_timer_off (w : ParticipantsBox) (q : String)
    (hq : w.search._query ≠ q)
    (h : q.isEmpty = true ∨ Dict.has w.search._cache q = true) :
    (BannedBoxSearchController.searchQuery w q).search._timer = false := by
  by_cases he : q.isEmpty = true
  · unfold BannedBoxSearchController.searchQuery
    rw [if_pos hq]
    simp only [he, if_true]
  · rcases h with h | h
    · exact absurd h he
    · unfold Dict.has at h
      cases hf : Dict.find w.search._cache q with
      | none => rw [hf] at h; simp at h
      | some it =>
        rw [BannedBoxSearchController.searchQuery_hit w _ _ q it hq (by simpa using he) hf rfl rfl]

theorem AddParticipantBoxSearchController.searchQuery_missAdd (env : Env) (v : AddParticipantBox)
    (q : String) (hq : v.search._query ≠ q) (hne : q.isEmpty = false)
    (hc : Dict.find v.search._participantsCache q = none) :
    AddParticipantBoxSearchController.searchQuery env v q
      = some { v with search := { v.search with _query := q, _offset := 0, _requestId := 0, _participantsLoaded := false, _chatsContactsAdded := false, _globalLoaded := false, _timer := true } } := by
  unfold AddParticipantBoxSearchController.searchQuery
  rw [if_pos hq]
  simp only [hne, Bool.false_eq_true, if_false]
  unfold AddParticipantBoxSearchController.searchParticipantsInCache
  simp only [hc]

theorem AddParticipantBoxSearchController.searchQuery_hitAdd (env : Env)
    (v v0 : AddParticipantBox) (q : String)
    (it : CacheEntry) (hq : v.search._query ≠ q) (hne : q.isEmpty = false)
    (hc : Dict.find v.search._participantsCache q = some it)
    (hv0 : v0 = { v with search := { v.search with _query := q, _offset := 0, _requestId := 0, _participantsLoaded := false, _chatsContactsAdded := false, _globalLoaded := false } }) :
    AddParticipantBoxSearchController.searchQuery env v q
      = (AddParticipantBoxSearchController.searchParticipantsDone env v0 0 it.result
          it.requestedCount).map (fun v1 => { v1 with search := { v1.search with _timer := false } }) := by
  unfold AddParticipantBoxSearchController.searchQuery
  rw [if_pos hq]
  simp only [hne, Bool.false_eq_true, if_false]
  unfold AddParticipantBoxSearchController.searchParticipantsInCache
  simp only [hc]
  rw [hv0]
  cases AddParticipantBoxSearchController.searchParticipantsDone env { v with search := { v.search with _query := q, _offset := 0, _requestId := 0, _participantsLoaded := false, _chatsContactsAdded := false, _globalLoaded := false } } 0 it.result it.requestedCount <;> rfl

theorem AddParticipantBoxSearchController.searchQuery_timer_offAdd (env : Env)
    (v v' : AddParticipantBox) (q : String) (hq : v.search._query ≠ q)
    (h : q.isEmpty = true ∨ Dict.has v.search._participantsCache q = true)
    (hv' : AddParticipantBoxSearchController.searchQuery env v q = some v') :
    v'.search._timer = false := by
  by_cases he : q.isEmpty = true
  · unfold AddParticipantBoxSearchController.searchQuery at hv'
    rw [if_pos hq] at hv'
    simp only [he, if_true, Option.some.injEq] at hv'
    rw [← hv']
  · rcases h with h | h
    · exact absurd h he
    · unfold Dict.has at h
      cases hf : Dict.find v.search._participantsCache q with
      | none => rw [hf] at h; simp at h
      | some it =>
        rw [AddParticipantBoxSearchController.searchQuery_hitAdd env v _ q it hq (by simpa using he)
          hf rfl] at hv'
        rw [Option.map_eq_some'] at hv'
        obtain ⟨v1, -, hv1⟩ := hv'
        rw [← hv1]

/-- C11: for a non-empty query that differs from the current one and has no cache entry,
`searchQuery` of both search controllers sends no request (requests and pending maps
unchanged, `_requestId = 0`) and arms the timer, so that `isLoading()` is true and
`loadMoreRows` does nothing; the request is sent when the timer fires. For an empty
query or a query found in the cache the timer is left cancelled. -/
theorem search_is_debounced (env : Env) (w : ParticipantsBox) (v : AddParticipantBox)
    (q q2 : String) (hwq : w.search._query ≠ q) (hvq : v.search._query ≠ q)
    (hne : q.isEmpty = false) (hwc : Dict.find w.search._cache q = none)
    (hvc : Dict.find v.search._participantsCache q = none) :
    ((BannedBoxSearchController.searchQuery w q).requests = w.requests
      ∧ (BannedBoxSearchController.searchQuery w q).search._queries = w.search._queries
      ∧ (BannedBoxSearchController.searchQuery w q).search._requestId = 0
      ∧ (BannedBoxSearchController.searchQuery w q).search._timer = true
      ∧ BannedBoxSearchController.isLoading (BannedBoxSearchController.searchQuery w q) = true
      ∧ BannedBoxSearchController.loadMoreRows (BannedBoxSearchController.searchQuery w q)
          = (BannedBoxSearchController.searchQuery w q, true)
      ∧ ∃ w2 req, (BannedBoxSearchController.searchQuery w q).handle env .timer = some w2
          ∧ w2.requests = w.requests ++ [req] ∧ req.handlers = Handlers.search
          ∧ w2.search._requestId = req.id ∧ req.id ≠ 0)
    ∧ (∃ v1, AddParticipantBoxSearchController.searchQuery env v q = some v1
        ∧ v1.requests = v.requests
        ∧ v1.search._participantsQueries = v.search._participantsQueries
        ∧ v1.search._globalQueries = v.search._globalQueries
        ∧ v1.search._requestId = 0 ∧ v1.search._timer = true
        ∧ AddParticipantBoxSearchController.isLoading v1 = true
        ∧ AddParticipantBoxSearchController.loadMoreRows env v1 = (v1, true)
        ∧ ∃ v2 req, v1.handle env .timer = some v2
          ∧ v2.requests = v.requests ++ [req] ∧ req.handlers = AddHandlers.participants
          ∧ v2.search._requestId = req.id ∧ req.id ≠ 0)
    ∧ (w.search._query ≠ q2 → (q2.isEmpty = true ∨ Dict.has w.search._cache q2 = true) →
        (BannedBoxSearchController.searchQuery w q2).search._timer = false)
    ∧ (v.search._query ≠ q2 →
        (q2.isEmpty = true ∨ Dict.has v.search._participantsCache q2 = true) →
        ∀ v', AddParticipantBoxSearchController.searchQuery env v q2 = some v' →
          v'.search._timer = false) := by
  refine ⟨?_, ?_, ?_, ?_⟩
  · rw [BannedBoxSearchController.searchQuery_miss w q hwq hne hwc]
    refine ⟨rfl, rfl, rfl, rfl, ?_, ?_, ?_⟩
    · simp [BannedBoxSearchController.isLoading]
    · simp [BannedBoxSearchController.loadMoreRows, BannedBoxSearchController.isLoading, hne]
    · refine ⟨(BannedBoxSearchController.loadMoreRows { w with search := { w.search with _query := q, _offset := 0, _requestId := 0, _allLoaded := false, _timer := false } }).1, { id := w.lastRequestId + 1, handlers := Handlers.search, filter := (if w._role = Role.Restricted then Filter.Banned q else Filter.Kicked q), offset := 0, limit := kParticipantsPerPage }, ?_, ?_, rfl, ?_, by simp⟩
      · simp [ParticipantsBox.handle, BannedBoxSearchController.searchOnServer, hne]
      · simp [BannedBoxSearchController.loadMoreRows, BannedBoxSearchController.isLoading, hne,
          ParticipantsBox.send]
      · simp [BannedBoxSearchController.loadMoreRows, BannedBoxSearchController.isLoading, hne,
          ParticipantsBox.send]
  · refine ⟨_, AddParticipantBoxSearchController.searchQuery_missAdd env v q hvq hne hvc,
      rfl, rfl, rfl, rfl, rfl, ?_, ?_, ?_⟩
    · simp [AddParticipantBoxSearchController.isLoading]
    · simp [AddParticipantBoxSearchController.loadMoreRows,
        AddParticipantBoxSearchController.isLoading, hne]
    · refine ⟨(AddParticipantBoxSearchController.loadMoreRows env { v with search := { v.search with _query := q, _offset := 0, _requestId := 0, _participantsLoaded := false, _chatsContactsAdded := false, _globalLoaded := false, _timer := false } }).1, { id := v.lastRequestId + 1, handlers := AddHandlers.participants, query := q, offset := 0, limit := kParticipantsPerPage }, ?_, ?_, rfl, ?_, by simp⟩
      · simp [AddParticipantBox.handle, AddParticipantBoxSearchController.searchOnServer, hne]
      · simp [AddParticipantBoxSearchController.loadMoreRows,
          AddParticipantBoxSearchController.isLoading, hne,
          AddParticipantBoxSearchController.requestParticipants, AddParticipantBox.send]
      · simp [AddParticipantBoxSearchController.loadMoreRows,
          AddParticipantBoxSearchController.isLoading, hne,
          AddParticipantBoxSearchController.requestParticipants, AddParticipantBox.send]
  · exact BannedBoxSearchController.searchQuery_timer_off w q2
  · intro h1 h2 v' hv'
    exact AddParticipantBoxSearchController.searchQuery_timer_offAdd env v v' q2 h1 h2 hv'

theorem search_is_debounced_witness :
    (ParticipantsBox.init Role.Restricted none).search._query ≠ "a"
    ∧ (AddParticipantBox.init Role.Restricted none).search._query ≠ "a"
    ∧ ("a" : String).isEmpty = false
    ∧ Dict.find (ParticipantsBox.init Role.Restricted none).search._cache "a" = none
    ∧ Dict.find (AddParticipantBox.init Role.Restricted none).search._participantsCache "a" = none
    ∧ (BannedBoxSearchController.searchQuery (ParticipantsBox.init Role.Restricted none)
        "a").search._timer = true :=
  ⟨by decide, by decide, by decide, by decide, by decide,
   (search_is_debounced sampleEnv (ParticipantsBox.init Role.Restricted none)
      (AddParticipantBox.init Role.Restricted none) "a" "" (by decide) (by decide) (by decide)
      (by decide) (by decide)).1.2.2.2.1⟩

/-! ## No retry -/

/-- Once the participants search is over, `loadMoreRows` of the add-participant search
controller sends nothing or one global search request for the current query. -/
theorem AddParticipantBoxSearchController.searchLoad_global (env : Env) (v : AddParticipantBox)
    (h : v.search._participantsLoaded = true) :
    (AddParticipantBoxSearchController.loadMoreRows env v).1.requests = v.requests
    ∨ (AddParticipantBoxSearchController.loadMoreRows env v).1.requests
        = v.requests ++ [{ id := v.lastRequestId + 1, handlers := AddHandlers.global, query := v.search._query, offset := 0, limit := env.SearchPeopleLimit }] := by
  obtain ⟨w1, hw1⟩ : ∃ w1, w1 = if v.search._chatsContactsAdded = true then v
      else AddParticipantBoxSearchController.addChatsContacts env v := ⟨_, rfl⟩
  have hc : w1.requests = v.requests ∧ w1.search._query = v.search._query
      ∧ w1.lastRequestId = v.lastRequestId := by
    rw [hw1]
    split <;> simp [AddParticipantBoxSearchController.addChatsContacts]
  rw [AddParticipantBoxSearchController.loadMoreRows_eq env v w1 hw1]
  split_ifs with c1 c2 c3 c4
  · exact Or.inl rfl
  · exact Or.inl rfl
  · exact Or.inl hc.1
  · left
    rw [← hc.1]
    exact (AddParticipantBoxSearchController.searchGlobalInCache_frame w1).2.1
  · unfold AddParticipantBoxSearchController.requestGlobal
    split
    · exact Or.inl hc.1
    · right
      simp only [AddParticipantBox.send]
      rw [hc.1, hc.2.1, hc.2.2]

set_option maxRecDepth 100000 in
/-- C12 (as stated, refuted): when the participants search request for the query "abcde"
fails, the fail handler of AddParticipantBoxSearchController goes on to the global
search and sends a `contacts.search` request (request 2). -/
theorem AddParticipantBoxSearchController.fail_sends_global_request :
    (AddParticipantBox.run sampleEnv (AddParticipantBox.init Role.Admins none)
        [.searchQuery "abcde", .timer]).map (fun v => v.requests)
      = some [{ id := 1, handlers := AddHandlers.participants, query := "abcde", offset := 0, limit := 200 }]
    ∧ (AddParticipantBox.run sampleEnv (AddParticipantBox.init Role.Admins none)
        sampleFailedParticipantsSearch).map (fun v => v.requests)
      = some [{ id := 2, handlers := AddHandlers.global, query := "abcde", offset := 0, limit := 5 }] := by
  refine ⟨by decide, by decide⟩

/-- C12 (amended): no fail handler sends its own request again. The fail handlers of the
list requests (both dialogs), of the banned search and of the global search send no
request at all; the fail handler of the participants search sends no participants
request, but, when the failed request is the tracked one, it continues with the
global search, which may send one `contacts.search` request for the current query. -/
theorem fail_handlers_do_not_retry (env : Env) (w : ParticipantsBox) (v : AddParticipantBox)
    (requestId : Nat) :
    ((ParticipantsBoxController.loadMoreRows_fail w).requests = w.requests
      ∧ (ParticipantsBoxController.loadMoreRows_fail w).lastRequestId = w.lastRequestId)
    ∧ ((BannedBoxSearchController.loadMoreRows_fail w requestId).requests = w.requests
      ∧ (BannedBoxSearchController.loadMoreRows_fail w requestId).lastRequestId
          = w.lastRequestId)
    ∧ ((AddParticipantBoxController.loadMoreRows_fail v).requests = v.requests
      ∧ (AddParticipantBoxController.loadMoreRows_fail v).lastRequestId = v.lastRequestId)
    ∧ ((AddParticipantBoxSearchController.requestGlobal_fail v requestId).requests = v.requests
      ∧ (AddParticipantBoxSearchController.requestGlobal_fail v requestId).lastRequestId
          = v.lastRequestId)
    ∧ ((AddParticipantBoxSearchController.requestParticipants_fail env v requestId).requests
          = v.requests
        ∨ (v.search._requestId = requestId
          ∧ (AddParticipantBoxSearchController.requestParticipants_fail env v requestId).requests
            = v.requests ++ [{ id := v.lastRequestId + 1, handlers := AddHandlers.global, query := v.search._query, offset := 0, limit := env.SearchPeopleLimit }])) := by
  refine ⟨⟨rfl, rfl⟩, ?_, ⟨rfl, rfl⟩, ?_, ?_⟩
  · unfold BannedBoxSearchController.loadMoreRows_fail
    split <;> exact ⟨rfl, rfl⟩
  · unfold AddParticipantBoxSearchController.requestGlobal_fail
    split <;> exact ⟨rfl, rfl⟩
  · unfold AddParticipantBoxSearchController.requestParticipants_fail
    by_cases he : v.search._requestId = requestId
    · rw [if_pos he]
      rcases AddParticipantBoxSearchController.searchLoad_global env { v with search := { v.search with _requestId := 0, _participantsLoaded := true } } rfl with h | h
      · exact Or.inl h
      · exact Or.inr ⟨he, h⟩
    · rw [if_neg he]
      exact Or.inl rfl

/-! ## Confirmations -/

/-- C13: for a user whose info is loaded, `kickUser` of AddParticipantBoxController reaches
`restrictUserSure` only when `sure` is true (and then it does, unless the user is an
admin or the creator that cannot be edited); with `sure = false` it only opens a
confirmation box or an error box. A user who is the creator or has an admin-rights
entry and is not in the can-edit set gets the error box from `kickUser`, and also from
`editRestricted` unless the user is already in the restricted-rights map, whatever
`sure` is. -/
theorem AddParticipantBoxController.destructive_actions_confirmed (ch : ChannelRights)
    (w : AddParticipantBox) (user : UserId) (sure : Bool)
    (hl : USet.has w._additional.infoNotLoaded user = false) :
    (∀ u r, AddParticipantBoxController.kickUser ch w user sure = ClickResult.restrictUserSure u r →
      sure = true)
    ∧ (sure = false →
        (∃ t, AddParticipantBoxController.kickUser ch w user sure = ClickResult.confirmBox t)
        ∨ (∃ t, AddParticipantBoxController.kickUser ch w user sure = ClickResult.informBox t))
    ∧ (sure = true →
        AddParticipantBoxController.kickUser ch w user sure
          = ClickResult.restrictUserSure user ch.kickedRestrictedRights
        ∨ AddParticipantBoxController.kickUser ch w user sure
          = ClickResult.informBox LangKey.lng_error_cant_ban_admin)
    ∧ ((w._additional.creator = some user ∨ Dict.has w._additional.adminRights user = true) →
        USet.has w._additional.adminCanEdit user = false →
        AddParticipantBoxController.kickUser ch w user sure
          = ClickResult.informBox LangKey.lng_error_cant_ban_admin
        ∧ (Dict.has w._additional.restrictedRights user = false →
          AddParticipantBoxController.editRestricted ch w user sure
            = ClickResult.informBox LangKey.lng_error_cant_ban_admin)) := by
  refine ⟨?_, ?_, ?_, ?_⟩
  · intro u r h
    cases sure with
    | true => rfl
    | false =>
      unfold AddParticipantBoxController.kickUser AddParticipantBoxController.checkInfoLoaded at h
      cases ha : (Dict.has w._additional.adminRights user || w._additional.creator == some user) <;>
        cases hc : USet.has w._additional.adminCanEdit user <;> simp [hl, ha, hc] at h
  · intro hs
    subst hs
    unfold AddParticipantBoxController.kickUser AddParticipantBoxController.checkInfoLoaded
    cases ha : (Dict.has w._additional.adminRights user || w._additional.creator == some user) <;>
      cases hc : USet.has w._additional.adminCanEdit user <;> simp [hl, ha, hc]
  · intro hs
    subst hs
    unfold AddParticipantBoxController.kickUser AddParticipantBoxController.checkInfoLoaded
      AddParticipantBoxController.restrictUserSure
    cases ha : (Dict.has w._additional.adminRights user || w._additional.creator == some user) <;>
      cases hc : USet.has w._additional.adminCanEdit user <;> simp [hl, ha, hc]
  · intro hadm hce
    have hcond : (Dict.has w._additional.adminRights user || w._additional.creator == some user)
        = true := by
      rcases hadm with h | h
      · simp [h]
      · simp [h]
    refine ⟨?_, ?_⟩
    · unfold AddParticipantBoxController.kickUser AddParticipantBoxController.checkInfoLoaded
      simp [hl, hcond, hce]
    · intro hr
      unfold Dict.has at hr
      unfold AddParticipantBoxController.editRestricted
        AddParticipantBoxController.checkInfoLoaded
      cases hf : Dict.find w._additional.restrictedRights user with
      | some x => rw [hf] at hr; simp at hr
      | none => simp [hl, hcond, hce]

theorem AddParticipantBoxController.destructive_actions_confirmed_witness :
    USet.has sampleAddBox._additional.infoNotLoaded 7 = false
    ∧ (AddParticipantBoxController.kickUser sampleChannelRights sampleAddBox 7 false
          = ClickResult.restrictUserSure 7 sampleKickedRights → false = true)
    ∧ AddParticipantBoxController.kickUser sampleChannelRights sampleAddBox 7 true
        = ClickResult.restrictUserSure 7 sampleKickedRights :=
  ⟨by decide,
   (AddParticipantBoxController.destructive_actions_confirmed sampleChannelRights sampleAddBox 7
      false (by decide)).1 7 sampleKickedRights,
   by decide⟩

/-! ## Paging of the list -/

theorem ParticipantsBoxController.loadMoreRows_loop_offset (list : List MTPChannelParticipant) :
    ∀ w : ParticipantsBox,
      (ParticipantsBoxController.loadMoreRows_loop w list)._offset = w._offset + list.length := by
  induction list with
  | nil => intro w; rfl
  | cons participant rest ih =>
    intro w
    unfold ParticipantsBoxController.loadMoreRows_loop
    simp only []
    rcases hp : ParticipantsBoxController.HandleParticipant w.users participant w._role
      w._additional with ⟨a, cb⟩
    cases cb with
    | none =>
      simp only []
      rw [ih]
      simp only [List.length_cons]
      omega
    | some user =>
      simp only [ParticipantsBoxController.appendRow]
      split
      · rw [ih]
        simp only [List.length_cons]
        omega
      · rw [ih]
        simp only [List.length_cons]
        omega

theorem AddParticipantBoxController.listLoop_offset (env : Env)
    (list : List MTPChannelParticipant) :
    ∀ v v' : AddParticipantBox, AddParticipantBoxController.loadMoreRows_loop env v list = some v' →
      v'._offset = v._offset + list.length := by
  induction list with
  | nil =>
    intro v v' h
    simp only [AddParticipantBoxController.loadMoreRows_loop, Option.some.injEq] at h
    rw [← h]; rfl
  | cons participant rest ih =>
    intro v v' h
    unfold AddParticipantBoxController.loadMoreRows_loop at h
    simp only [] at h
    cases hp : AddParticipantBoxController.HandleParticipant v.users participant v._additional with
    | none => simp [hp] at h
    | some r =>
      obtain ⟨a, cb⟩ := r
      cases cb with
      | none =>
        simp only [hp] at h
        rw [ih _ _ h]
        simp only [List.length_cons]
        omega
      | some user =>
        simp only [hp, AddParticipantBoxController.appendRow] at h
        split at h
        · rw [ih _ _ h]
          simp only [List.length_cons]
          omega
        · rw [ih _ _ h]
          simp only [List.length_cons]
          omega

theorem AddParticipantBoxController.listLoop_isSome (env : Env)
    (list : List MTPChannelParticipant) (h : ∀ p ∈ list, p.expected = true) :
    ∀ v : AddParticipantBox,
      (AddParticipantBoxController.loadMoreRows_loop env v list).isSome = true := by
  induction list with
  | nil => intro v; simp [AddParticipantBoxController.loadMoreRows_loop]
  | cons participant rest ih =>
    intro v
    have hp : participant.expected = true := h participant (List.mem_cons_self _ _)
    have hrest : ∀ p ∈ rest, p.expected = true := fun p hp => h p (List.mem_cons_of_mem _ hp)
    have hsome := AddParticipantBoxController.HandleParticipant_isSome v.users participant
      v._additional (by
        intro id hid
        rw [hid] at hp
        simp [MTPChannelParticipant.expected] at hp)
    unfold AddParticipantBoxController.loadMoreRows_loop
    simp only []
    cases hh : AddParticipantBoxController.HandleParticipant v.users participant v._additional with
    | none => rw [hh] at hsome; simp at hsome
    | some r =>
      obtain ⟨a, cb⟩ := r
      cases cb with
      | none => exact ih hrest _
      | some user => exact ih hrest _

/-- `ParticipantsBoxController::loadMoreRows`, branch by branch. -/
theorem ParticipantsBoxController.listLoad_eq (w : ParticipantsBox) :
    ParticipantsBoxController.loadMoreRows w =
      if w._role ≠ Role.Admins ∧ w.search._query.isEmpty = false then
        (BannedBoxSearchController.loadMoreRows w).1
      else if (w._loadRequestId != 0 || w._allLoaded) = true then w
      else { w with lastRequestId := w.lastRequestId + 1, requests := w.requests ++ [{ id := w.lastRequestId + 1, handlers := Handlers.list, filter := (if w._role = Role.Admins then Filter.Admins else if w._role = Role.Restricted then Filter.Banned "" else Filter.Kicked ""), offset := w._offset, limit := (if w._offset > 0 then kParticipantsPerPage else kParticipantsFirstPageCount) }], _loadRequestId := w.lastRequestId + 1 } := by
  unfold ParticipantsBoxController.loadMoreRows
  by_cases hr : w._role ≠ Role.Admins
  · rw [if_pos hr]
    rcases BannedBoxSearchController.loadMoreRows_cases w with ⟨hq, he⟩ | ⟨hq, -, he⟩ |
      ⟨hq, -, -, he⟩
    · have hq' : ¬ (w._role ≠ Role.Admins ∧ w.search._query.isEmpty = false) := by simp [hq]
      rw [he, if_neg hq']
      simp only [Bool.false_eq_true, if_false]
      split
      · rfl
      · rfl
    · rw [if_pos ⟨hr, hq⟩, he]
      simp
    · rw [if_pos ⟨hr, hq⟩, he]
      simp
  · have hq' : ¬ (w._role ≠ Role.Admins ∧ w.search._query.isEmpty = false) := fun h => hr h.1
    rw [if_neg hr, if_neg hq']
    simp only [Bool.false_eq_true, if_false]
    split
    · rfl
    · rfl

/-- `AddParticipantBoxController::loadMoreRows`, branch by branch. -/
theorem AddParticipantBoxController.loadMoreRows_eq_add (env : Env) (v : AddParticipantBox) :
    AddParticipantBoxController.loadMoreRows env v =
      if v.search._query.isEmpty = false then
        (AddParticipantBoxSearchController.loadMoreRows env v).1
      else if (v._loadRequestId != 0 || v._allLoaded) = true then v
      else { v with lastRequestId := v.lastRequestId + 1, requests := v.requests ++ [{ id := v.lastRequestId + 1, handlers := AddHandlers.list, query := "", offset := v._offset, limit := (if v._offset > 0 then kParticipantsPerPage else kParticipantsFirstPageCount) }], _loadRequestId := v.lastRequestId + 1 } := by
  unfold AddParticipantBoxController.loadMoreRows
  by_cases hq : v.search._query.isEmpty = true
  · have he : AddParticipantBoxSearchController.loadMoreRows env v = (v, false) := by
      unfold AddParticipantBoxSearchController.loadMoreRows
      rw [if_pos hq]
    rw [he, if_neg (by simp [hq])]
    simp only [Bool.false_eq_true, if_false]
    split
    · rfl
    · rfl
  · have hq' : v.search._query.isEmpty = false := by simpa using hq
    have he : (AddParticipantBoxSearchController.loadMoreRows env v).2 = true := by
      obtain ⟨w1, hw1⟩ : ∃ w1, w1 = if v.search._chatsContactsAdded = true then v
        else AddParticipantBoxSearchController.addChatsContacts env v := ⟨_, rfl⟩
      rw [AddParticipantBoxSearchController.loadMoreRows_eq env v w1 hw1]
      rw [if_neg hq]
      split_ifs <;> rfl
    rw [if_pos hq']
    obtain ⟨p, hp⟩ : ∃ p : AddParticipantBox × Bool,
      p = AddParticipantBoxSearchController.loadMoreRows env v := ⟨_, rfl⟩
    rw [← hp] at he ⊢
    obtain ⟨v1, b⟩ := p
    simp only [] at he
    subst he
    simp

theorem ParticipantsBoxController.loadMoreRows_done_paging (w : ParticipantsBox)
    (result : MTPchannels_ChannelParticipants) :
    (ParticipantsBoxController.loadMoreRows_done w result)._offset
      = w._offset + result.participants.length
    ∧ (ParticipantsBoxController.loadMoreRows_done w result)._loadRequestId = 0
    ∧ (ParticipantsBoxController.loadMoreRows_done w result)._allLoaded
      = (decide (result.participants.length = 0) || w._allLoaded) := by
  unfold ParticipantsBoxController.loadMoreRows_done
  simp only []
  cases hl : result.participants with
  | nil => simp
  | cons p rest =>
    simp only [List.isEmpty_cons, Bool.false_eq_true, if_false]
    refine ⟨?_, ?_, ?_⟩
    · rw [ParticipantsBoxController.loadMoreRows_loop_offset]
    · obtain ⟨a, rows, off, h⟩ := ParticipantsBoxController.loadMoreRows_loop_frame (p :: rest)
        { w with _loadRequestId := 0, users := feedUsers w.users result.users }
      rw [h]
    · obtain ⟨a, rows, off, h⟩ := ParticipantsBoxController.loadMoreRows_loop_frame (p :: rest)
        { w with _loadRequestId := 0, users := feedUsers w.users result.users }
      rw [h]
      simp

theorem AddParticipantBoxController.loadMoreRows_done_paging_add (env : Env)
    (v v' : AddParticipantBox) (result : MTPchannels_ChannelParticipants)
    (hv' : AddParticipantBoxController.loadMoreRows_done env v result = some v') :
    v'._offset = v._offset + result.participants.length
    ∧ v'._loadRequestId = 0
    ∧ v'._allLoaded = (decide (result.participants.length = 0) || v._allLoaded) := by
  unfold AddParticipantBoxController.loadMoreRows_done at hv'
  simp only [] at hv'
  cases hl : result.participants with
  | nil =>
    simp only [hl, List.isEmpty_nil, if_true, Option.some.injEq] at hv'
    rw [← hv']
    simp
  | cons p rest =>
    simp only [hl, List.isEmpty_cons, Bool.false_eq_true, if_false] at hv'
    have ho := AddParticipantBoxController.listLoop_offset env _ _ _ hv'
    obtain ⟨a, rows, off, h⟩ := AddParticipantBoxController.listLoop_frame env _ _ _ hv'
    refine ⟨ho, ?_, ?_⟩
    · rw [h]
    · rw [h]
      simp

/-- C14: the list request of ParticipantsBoxController and AddParticipantBoxController
asks for 16 rows at offset 0 and for 200 rows otherwise; the done handler, for a
response with n participants, adds exactly n to `_offset` (whatever the participants
are), sets `_loadRequestId` to 0 and sets `_allLoaded` exactly when n = 0. The handler
of AddParticipantBoxController returns whenever the participants have the types that
`HandleParticipant` expects. -/
theorem list_paging (env : Env) (w : ParticipantsBox) (v : AddParticipantBox)
    (result : MTPchannels_ChannelParticipants) :
    ((ParticipantsBoxController.loadMoreRows w).listRequestIds ≠ w.listRequestIds →
      ∃ req, (ParticipantsBoxController.loadMoreRows w).requests = w.requests ++ [req]
        ∧ req.handlers = Handlers.list ∧ req.offset = w._offset
        ∧ req.limit = (if w._offset = 0 then 16 else 200))
    ∧ ((AddParticipantBoxController.loadMoreRows env v).listRequestIds ≠ v.listRequestIds →
      ∃ req, (AddParticipantBoxController.loadMoreRows env v).requests = v.requests ++ [req]
        ∧ req.handlers = AddHandlers.list ∧ req.offset = v._offset
        ∧ req.limit = (if v._offset = 0 then 16 else 200))
    ∧ (ParticipantsBoxController.loadMoreRows_done w result)._offset
        = w._offset + result.participants.length
    ∧ (ParticipantsBoxController.loadMoreRows_done w result)._loadRequestId = 0
    ∧ (ParticipantsBoxController.loadMoreRows_done w result)._allLoaded
        = (decide (result.participants.length = 0) || w._allLoaded)
    ∧ (w._allLoaded = false →
        ((ParticipantsBoxController.loadMoreRows_done w result)._allLoaded = true
          ↔ result.participants.length = 0))
    ∧ ((∀ p ∈ result.participants, p.expected = true) →
        (AddParticipantBoxController.loadMoreRows_done env v result).isSome = true)
    ∧ (∀ v', AddParticipantBoxController.loadMoreRows_done env v result = some v' →
        v'._offset = v._offset + result.participants.length
        ∧ v'._loadRequestId = 0
        ∧ v'._allLoaded = (decide (result.participants.length = 0) || v._allLoaded)
        ∧ (v._allLoaded = false → (v'._allLoaded = true ↔ result.participants.length = 0))) := by
  obtain ⟨p1, p2, p3⟩ := ParticipantsBoxController.loadMoreRows_done_paging w result
  refine ⟨?_, ?_, p1, p2, p3, ?_, ?_, ?_⟩
  · intro hne
    rw [ParticipantsBoxController.listLoad_eq] at hne ⊢
    by_cases c1 : w._role ≠ Role.Admins ∧ w.search._query.isEmpty = false
    · rw [if_pos c1] at hne
      exfalso
      apply hne
      rcases BannedBoxSearchController.loadMoreRows_cases w with ⟨-, he⟩ | ⟨-, -, he⟩ |
        ⟨-, -, -, he⟩
      · rw [he]
      · rw [he]
      · rw [he]
        simp [ParticipantsBox.listRequestIds, List.filter_append]
    · rw [if_neg c1] at hne ⊢
      by_cases c2 : (w._loadRequestId != 0 || w._allLoaded) = true
      · rw [if_pos c2] at hne
        exact absurd rfl hne
      · rw [if_neg c2]
        refine ⟨_, rfl, rfl, rfl, ?_⟩
        by_cases ho : w._offset = 0
        · simp [ho, kParticipantsFirstPageCount]
        · have : w._offset > 0 := Nat.pos_of_ne_zero ho
          simp [ho, this, kParticipantsPerPage]
  · intro hne
    rw [AddParticipantBoxController.loadMoreRows_eq_add] at hne ⊢
    by_cases c1 : v.search._query.isEmpty = false
    · rw [if_pos c1] at hne
      exfalso
      apply hne
      rcases AddParticipantBoxSearchController.searchLoad_requests env v with h | ⟨req, h, hl, -, -⟩
      · unfold AddParticipantBox.listRequestIds
        rw [h]
      · unfold AddParticipantBox.listRequestIds
        rw [h]
        simp [List.filter_append, hl]
    · rw [if_neg c1] at hne ⊢
      by_cases c2 : (v._loadRequestId != 0 || v._allLoaded) = true
      · rw [if_pos c2] at hne
        exact absurd rfl hne
      · rw [if_neg c2]
        refine ⟨_, rfl, rfl, rfl, ?_⟩
        by_cases ho : v._offset = 0
        · simp [ho, kParticipantsFirstPageCount]
        · have : v._offset > 0 := Nat.pos_of_ne_zero ho
          simp [ho, this, kParticipantsPerPage]
  · intro ha
    rw [p3, ha]
    simp
  · intro hexp
    unfold AddParticipantBoxController.loadMoreRows_done
    simp only []
    split
    · rfl
    · exact AddParticipantBoxController.listLoop_isSome env _ hexp _
  · intro v' hv'
    obtain ⟨q1, q2, q3⟩ := AddParticipantBoxController.loadMoreRows_done_paging_add env v v' result hv'
    refine ⟨q1, q2, q3, ?_⟩
    intro ha
    rw [q3, ha]
    simp

theorem list_paging_witness :
    sampleListLoading._allLoaded = false
    ∧ ((ParticipantsBoxController.loadMoreRows_done sampleListLoading samplePage2)._allLoaded
        = true ↔ samplePage2.participants.length = 0) :=
  ⟨rfl, (list_paging sampleEnv sampleListLoading sampleAddListLoading samplePage2).2.2.2.2.2.1 rfl⟩

/-! ## Paging of the search -/

/-- C15: when `BannedBoxSearchController::searchDone` handles the response of the
tracked request with n participants and requested count c, afterwards `_requestId` is 0,
`_offset` has grown by exactly n, and `_allLoaded` is true if n < c and keeps its value
otherwise; after a short page `loadMoreRows` of the search controller sends nothing
more. -/
theorem search_paging (w : ParticipantsBox) (requestId : Nat)
    (result : MTPchannels_ChannelParticipants) (requestedCount : Nat)
    (ht : w.search._requestId = requestId) :
    (BannedBoxSearchController.searchDone w requestId result requestedCount).search._requestId = 0
    ∧ (BannedBoxSearchController.searchDone w requestId result requestedCount).search._offset
        = w.search._offset + result.participants.length
    ∧ (result.participants.length < requestedCount →
        (BannedBoxSearchController.searchDone w requestId result requestedCount).search._allLoaded
          = true)
    ∧ (¬ result.participants.length < requestedCount →
        (BannedBoxSearchController.searchDone w requestId result requestedCount).search._allLoaded
          = w.search._allLoaded)
    ∧ (result.participants.length < requestedCount →
        (BannedBoxSearchController.loadMoreRows
            (BannedBoxSearchController.searchDone w requestId result requestedCount)).1
          = BannedBoxSearchController.searchDone w requestId result requestedCount) := by
  obtain ⟨-, -, -, -, -, -, -, -, -, -, -, -, h⟩ :=
    BannedBoxSearchController.searchDone_frame w _ _ requestId result requestedCount rfl rfl
  obtain ⟨h1, h2, h3⟩ := h ht
  have hshort : result.participants.length < requestedCount →
      (BannedBoxSearchController.searchDone w requestId result requestedCount).search._allLoaded
        = true := by
    intro hl
    rw [h3]
    simp [hl]
  refine ⟨h1, h2, hshort, ?_, ?_⟩
  · intro hl
    rw [h3]
    simp [hl]
  · intro hl
    have ha := hshort hl
    rcases BannedBoxSearchController.loadMoreRows_cases
        (BannedBoxSearchController.searchDone w requestId result requestedCount)
      with ⟨-, he⟩ | ⟨-, -, he⟩ | ⟨-, hf, -, -⟩
    · rw [he]
    · rw [he]
    · rw [ha] at hf
      exact absurd hf (by decide)

theorem search_paging_witness :
    sampleBannedPending.search._requestId = 1
    ∧ (BannedBoxSearchController.searchDone sampleBannedPending 1 samplePage2 200).search._requestId
        = 0
    ∧ (BannedBoxSearchController.searchDone sampleBannedPending 1 samplePage2 200).search._allLoaded
        = true :=
  ⟨rfl, (search_paging sampleBannedPending 1 samplePage2 200 rfl).1,
    (search_paging sampleBannedPending 1 samplePage2 200 rfl).2.2.1 (by decide)⟩

/-! ## The global search after an empty participants search -/

/-- Outside of `searchQuery` (the timer is not armed, nothing is tracked), `loadMoreRows`
after the end of the participants search finishes the global search or starts it. -/
theorem AddParticipantBoxSearchController.searchLoad_starts_global (env : Env)
    (v : AddParticipantBox) (hq : v.search._query.isEmpty = false)
    (hp : v.search._participantsLoaded = true) (ht : v.search._timer = false)
    (hr : v.search._requestId = 0) :
    (AddParticipantBoxSearchController.loadMoreRows env v).1.search._globalLoaded = true
    ∨ (AddParticipantBoxSearchController.loadMoreRows env v).1.search._requestId ≠ 0 := by
  obtain ⟨w1, hw1⟩ : ∃ w1, w1 = if v.search._chatsContactsAdded = true then v
      else AddParticipantBoxSearchController.addChatsContacts env v := ⟨_, rfl⟩
  have hc : w1.search._timer = false ∧ w1.search._requestId = 0 := by
    rw [hw1]
    split <;> simp [AddParticipantBoxSearchController.addChatsContacts, ht, hr]
  have hload : AddParticipantBoxSearchController.isLoading w1 = false := by
    simp [AddParticipantBoxSearchController.isLoading, hc.1, hc.2]
  rw [AddParticipantBoxSearchController.loadMoreRows_eq env v w1 hw1]
  simp only [hq, hp, hload, Bool.false_eq_true, if_false, if_true]
  split_ifs with c2 c4
  · exact Or.inl c2
  · exact Or.inl ((AddParticipantBoxSearchController.searchGlobalInCache_frame w1).2.2.2.2.2.1 c4).2
  · unfold AddParticipantBoxSearchController.requestGlobal
    split
    · exact Or.inl rfl
    · right
      simp [AddParticipantBox.send]

/-- An empty first page from the server for the tracked request: the global search is
finished or started before `searchParticipantsDone` returns. -/
theorem AddParticipantBoxSearchController.empty_page_starts_global (env : Env)
    (v : AddParticipantBox) (requestId : Nat) (result : MTPchannels_ChannelParticipants)
    (requestedCount : Nat) (htrack : v.search._requestId = requestId)
    (hq : v.search._query.isEmpty = false) (ht : v.search._timer = false)
    (ho : v.search._offset = 0) (hl : result.participants = []) (hc : 0 < requestedCount) :
    ∃ v', AddParticipantBoxSearchController.searchParticipantsDone env v requestId result
        requestedCount = some v'
      ∧ (v'.search._globalLoaded = true ∨ v'.search._requestId ≠ 0) := by
  obtain ⟨users, cache, queries, hs⟩ :=
    AddParticipantBoxSearchController.searchParticipantsDone_store_frame v requestId result
      requestedCount
  have h := AddParticipantBoxSearchController.searchLoad_starts_global env
    { v with users := users, search := { v.search with _participantsCache := cache, _participantsQueries := queries, _requestId := 0, _participantsLoaded := true } }
    hq rfl ht rfl
  have ho' : (v.search._offset == 0) = true := by simp [ho]
  unfold AddParticipantBoxSearchController.searchParticipantsDone
  rw [hs]
  simp only [htrack, if_true, hl, AddParticipantBoxSearchController.searchParticipantsDone_loaded,
    AddParticipantBoxSearchController.searchParticipantsDone_loop, List.length_nil, hc,
    List.isEmpty_nil, ho', Bool.and_self]
  exact ⟨_, rfl, h⟩

/-- C16 (the code at the failing input): `searchQuery` replays a cached participants
result before it cancels the timer. When the timer of the previous query is still armed
and the cached result of the new query is empty, the `loadMoreRows` call in
`searchParticipantsDone` finds `isLoading()` true and starts nothing: afterwards
`_globalLoaded` is false, no request is tracked and none has been sent. -/
theorem empty_cached_result_starts_no_global_search (env : Env) (v : AddParticipantBox)
    (q : String) (it : CacheEntry) (hq : v.search._query ≠ q) (hne : q.isEmpty = false)
    (hc : Dict.find v.search._participantsCache q = some it)
    (hl : it.result.participants = []) (hcount : 0 < it.requestedCount)
    (ht : v.search._timer = true) :
    ∃ v', AddParticipantBoxSearchController.searchQuery env v q = some v'
      ∧ v'.search._query = q ∧ v'.search._participantsLoaded = true
      ∧ v'.search._globalLoaded = false ∧ v'.search._requestId = 0
      ∧ v'.search._timer = false
      ∧ v'.requests = v.requests ∧ v'.lastRequestId = v.lastRequestId := by
  rw [AddParticipantBoxSearchController.searchQuery_hitAdd env v _ q it hq hne hc rfl]
  unfold AddParticipantBoxSearchController.searchParticipantsDone
  simp only [AddParticipantBoxSearchController.searchParticipantsDone_store, bne_self_eq_false,
    Bool.false_eq_true, if_false, if_true, hl,
    AddParticipantBoxSearchController.searchParticipantsDone_loaded,
    AddParticipantBoxSearchController.searchParticipantsDone_loop, List.length_nil, hcount,
    List.isEmpty_nil, beq_self_eq_true, Bool.and_self, Option.map_some']
  rw [AddParticipantBoxSearchController.loadMoreRows_eq env _ _ rfl]
  simp [hne, ht, AddParticipantBoxSearchController.isLoading,
    AddParticipantBoxSearchController.addChatsContacts]

set_option maxRecDepth 100000 in
theorem sampleEmptyCached_reachable : AddParticipantBox.Reachable sampleEnv sampleEmptyCached :=
  ⟨Role.Admins, none, sampleEmptySearchEvents, by decide⟩

theorem empty_cached_result_starts_no_global_search_witness :
    AddParticipantBox.Reachable sampleEnv sampleEmptyCached
    ∧ ∃ v', AddParticipantBoxSearchController.searchQuery sampleEnv sampleEmptyCached "abcde"
        = some v'
      ∧ v'.search._query = "abcde" ∧ v'.search._participantsLoaded = true
      ∧ v'.search._globalLoaded = false ∧ v'.search._requestId = 0
      ∧ v'.search._timer = false
      ∧ v'.requests = sampleEmptyCached.requests
      ∧ v'.lastRequestId = sampleEmptyCached.lastRequestId :=
  ⟨sampleEmptyCached_reachable,
   empty_cached_result_starts_no_global_search sampleEnv sampleEmptyCached "abcde"
     { result := samplePage2, requestedCount := 200 } (by decide) (by decide) (by decide) rfl
     (by decide) rfl⟩

/-! ## The results of the edit boxes in the participants dialog -/

theorem ParticipantsBoxController.editAdminDone_additional (env : Env) (w : ParticipantsBox)
    (user : UserId) (rights : MTPChannelAdminRights) :
    (ParticipantsBoxController.editAdminDone env w user rights)._additional
      = if rights.flags = 0 then
          { w._additional with adminRights := Dict.erase w._additional.adminRights user, adminPromotedBy := Dict.erase w._additional.adminPromotedBy user, adminCanEdit := USet.erase w._additional.adminCanEdit user }
        else
          { w._additional with adminPromotedBy := Dict.emplace w._additional.adminPromotedBy user env.self, adminCanEdit := USet.emplace w._additional.adminCanEdit user, adminRights := Dict.assign w._additional.adminRights user rights, kicked := USet.erase w._additional.kicked user, restrictedRights := Dict.erase w._additional.restrictedRights user } := by
  unfold ParticipantsBoxController.editAdminDone ParticipantsBoxController.removeRow
    ParticipantsBoxController.prependRow
  by_cases hf : rights.flags = 0 <;> by_cases hr : w._role = Role.Admins <;>
    simp only [hf, hr, beq_self_eq_true, if_true, if_false, beq_iff_eq, Bool.false_eq_true] <;>
    repeat' split
  all_goals rfl

/-- C17: `ParticipantsBoxController::editAdminDone` with non-zero flags stores the rights
under the user, puts the user into `adminCanEdit`, takes the user out of `kicked` and
`restrictedRights`, and keeps an existing promoter (the self user becomes the promoter
only when there was none); with flags = 0 the user leaves `adminRights`,
`adminPromotedBy` and `adminCanEdit`, and nothing else in the record changes. -/
theorem editAdminDone_keeps_promoter (env : Env) (w : ParticipantsBox) (user : UserId)
    (rights : MTPChannelAdminRights) :
    (rights.flags ≠ 0 →
      Dict.find (ParticipantsBoxController.editAdminDone env w user rights)._additional.adminRights
          user = some rights
      ∧ USet.has (ParticipantsBoxController.editAdminDone env w user rights)._additional.adminCanEdit
          user = true
      ∧ USet.has (ParticipantsBoxController.editAdminDone env w user rights)._additional.kicked
          user = false
      ∧ Dict.has
          (ParticipantsBoxController.editAdminDone env w user rights)._additional.restrictedRights
          user = false
      ∧ Dict.find
          (ParticipantsBoxController.editAdminDone env w user rights)._additional.adminPromotedBy
          user
        = (match Dict.find w._additional.adminPromotedBy user with
           | some promoted => some promoted
           | none => some env.self))
    ∧ (rights.flags = 0 →
      Dict.has (ParticipantsBoxController.editAdminDone env w user rights)._additional.adminRights
          user = false
      ∧ Dict.has
          (ParticipantsBoxController.editAdminDone env w user rights)._additional.adminPromotedBy
          user = false
      ∧ USet.has (ParticipantsBoxController.editAdminDone env w user rights)._additional.adminCanEdit
          user = false
      ∧ (∀ other, other ≠ user →
          Dict.find
              (ParticipantsBoxController.editAdminDone env w user rights)._additional.adminRights
              other = Dict.find w._additional.adminRights other
          ∧ Dict.find
              (ParticipantsBoxController.editAdminDone env w user rights)._additional.adminPromotedBy
              other = Dict.find w._additional.adminPromotedBy other
          ∧ USet.has
              (ParticipantsBoxController.editAdminDone env w user rights)._additional.adminCanEdit
              other = USet.has w._additional.adminCanEdit other)
      ∧ (ParticipantsBoxController.editAdminDone env w user rights)._additional.kicked
          = w._additional.kicked
      ∧ (ParticipantsBoxController.editAdminDone env w user rights)._additional.restrictedRights
          = w._additional.restrictedRights
      ∧ (ParticipantsBoxController.editAdminDone env w user rights)._additional.external
          = w._additional.external
      ∧ (ParticipantsBoxController.editAdminDone env w user rights)._additional.infoNotLoaded
          = w._additional.infoNotLoaded
      ∧ (ParticipantsBoxController.editAdminDone env w user rights)._additional.creator
          = w._additional.creator) := by
  rw [ParticipantsBoxController.editAdminDone_additional]
  constructor
  · intro hf
    rw [if_neg hf]
    refine ⟨?_, ?_, ?_, ?_, ?_⟩
    · simp [Dict.find_assign]
    · simp [USet.mem_after_emplace]
    · simp [USet.mem_after_erase]
    · simp [Dict.has_erase]
    · simp only [Dict.find_emplace, if_true]
      cases Dict.find w._additional.adminPromotedBy user <;> rfl
  · intro hf
    rw [if_pos hf]
    refine ⟨?_, ?_, ?_, ?_, rfl, rfl, rfl, rfl, rfl⟩
    · simp [Dict.has_erase]
    · simp [Dict.has_erase]
    · simp [USet.mem_after_erase]
    · intro other ho
      simp [Dict.find_erase, USet.mem_after_erase, ho]

theorem editAdminDone_keeps_promoter_witness :
    ({ flags := 2 } : MTPChannelAdminRights).flags ≠ 0
    ∧ Dict.find samplePromoted._additional.adminPromotedBy 7 = some 3
    ∧ Dict.find (ParticipantsBoxController.editAdminDone sampleEnv samplePromoted 7
        { flags := 2 })._additional.adminPromotedBy 7 = some 3 :=
  ⟨by decide, by decide,
   ((editAdminDone_keeps_promoter sampleEnv samplePromoted 7 { flags := 2 }).1 (by decide)).2.2.2.2⟩

/-! ## The search controller takes over the loading -/

/-- C18: `BannedBoxSearchController::loadMoreRows` returns false exactly when the query
is empty. Hence, in a dialog with a search controller (role other than Admins) and a
non-empty query, `ParticipantsBoxController::loadMoreRows` does what the search
controller does and sends no list request; and the search controller sends a request
exactly when the query is non-empty, `_allLoaded` is false and `isLoading()` is false. -/
theorem search_takes_over_loading (w : ParticipantsBox) :
    ((BannedBoxSearchController.loadMoreRows w).2 = false ↔ w.search._query.isEmpty = true)
    ∧ (w._role ≠ Role.Admins → w.search._query.isEmpty = false →
        ParticipantsBoxController.loadMoreRows w = (BannedBoxSearchController.loadMoreRows w).1
        ∧ (ParticipantsBoxController.loadMoreRows w).listRequestIds = w.listRequestIds
        ∧ (ParticipantsBoxController.loadMoreRows w)._loadRequestId = w._loadRequestId)
    ∧ ((BannedBoxSearchController.loadMoreRows w).1.requests ≠ w.requests ↔
        (w.search._query.isEmpty = false ∧ w.search._allLoaded = false
          ∧ BannedBoxSearchController.isLoading w = false))
    ∧ ((BannedBoxSearchController.loadMoreRows w).1.requests = w.requests
        ∨ ∃ req, (BannedBoxSearchController.loadMoreRows w).1.requests = w.requests ++ [req]
            ∧ req.handlers = Handlers.search) := by
  rcases BannedBoxSearchController.loadMoreRows_cases w with ⟨hq, he⟩ | ⟨hq, hl, he⟩ |
    ⟨hq, ha, hl, he⟩
  · refine ⟨?_, ?_, ?_, ?_⟩
    · rw [he]
      simp [hq]
    · intro _ hq'
      rw [hq] at hq'
      exact absurd hq' (by decide)
    · rw [he]
      simp [hq]
    · rw [he]
      exact Or.inl rfl
  · refine ⟨?_, ?_, ?_, ?_⟩
    · rw [he]
      simp [hq]
    · intro hr _
      rw [ParticipantsBoxController.listLoad_eq, if_pos ⟨hr, hq⟩, he]
      exact ⟨rfl, rfl, rfl⟩
    · rw [he]
      rcases hl with hl | hl <;> simp [hl]
    · rw [he]
      exact Or.inl rfl
  · refine ⟨?_, ?_, ?_, ?_⟩
    · rw [he]
      simp [hq]
    · intro hr _
      rw [ParticipantsBoxController.listLoad_eq, if_pos ⟨hr, hq⟩, he]
      refine ⟨rfl, ?_, rfl⟩
      simp [ParticipantsBox.listRequestIds, List.filter_append]
    · rw [he]
      simp [hq, ha, hl]
    · rw [he]
      exact Or.inr ⟨_, rfl, rfl⟩

theorem search_takes_over_loading_witness :
    sampleBannedPending._role ≠ Role.Admins
    ∧ sampleBannedPending.search._query.isEmpty = false
    ∧ (ParticipantsBoxController.loadMoreRows sampleBannedPending).listRequestIds
        = sampleBannedPending.listRequestIds :=
  ⟨by decide, by decide,
   ((search_takes_over_loading sampleBannedPending).2.1 (by decide) (by decide)).2.1⟩

/-! ## Replaying a cached first page -/

theorem BannedBoxSearchController.searchDone_tracked_loop (w : ParticipantsBox)
    (requestId : Nat) (result : MTPchannels_ChannelParticipants) (requestedCount : Nat)
    (ht : w.search._requestId = requestId) :
    ∃ X : ParticipantsBox,
      X.users = (BannedBoxSearchController.searchDone_store w requestId result requestedCount).users
      ∧ X._role = w._role ∧ X._additional = w._additional ∧ X.searchRows = w.searchRows
      ∧ (BannedBoxSearchController.searchDone w requestId result requestedCount)._additional
          = (BannedBoxSearchController.searchDone_loop X result.participants)._additional
      ∧ (BannedBoxSearchController.searchDone w requestId result requestedCount).searchRows
          = (BannedBoxSearchController.searchDone_loop X result.participants).searchRows := by
  obtain ⟨users, cache, queries, hs⟩ :=
    BannedBoxSearchController.searchDone_store_frame w requestId result requestedCount
  unfold BannedBoxSearchController.searchDone
  rw [hs]
  have ht' : ({ w with users := users, search := { w.search with _cache := cache, _queries := queries } } : ParticipantsBox).search._requestId = requestId := ht
  rw [if_pos ht']
  by_cases hl : result.participants.length < requestedCount
  · simp only [hl, if_true]
    exact ⟨{ w with users := users, search := { w.search with _cache := cache, _queries := queries, _requestId := 0, _allLoaded := true } }, rfl, rfl, rfl, rfl, rfl, rfl⟩
  · simp only [hl, if_false]
    exact ⟨{ w with users := users, search := { w.search with _cache := cache, _queries := queries, _requestId := 0 } }, rfl, rfl, rfl, rfl, rfl, rfl⟩

theorem ParticipantsBoxController.HandleParticipant_adminMaps (users : List UserId)
    (participant : MTPChannelParticipant) (role : Role) (a : Additional) :
    ((ParticipantsBoxController.HandleParticipant users participant role a).1.adminRights
        = a.adminRights
      ∧ (ParticipantsBoxController.HandleParticipant users participant role a).1.adminCanEdit
        = a.adminCanEdit)
    ∨ ∃ user rights,
      (ParticipantsBoxController.HandleParticipant users participant role a).1.adminRights
        = Dict.assign a.adminRights user rights
      ∧ ((ParticipantsBoxController.HandleParticipant users participant role a).1.adminCanEdit
          = USet.emplace a.adminCanEdit user
        ∨ (ParticipantsBoxController.HandleParticipant users participant role a).1.adminCanEdit
          = USet.erase a.adminCanEdit user) := by
  unfold ParticipantsBoxController.HandleParticipant
  cases role <;> cases participant <;> simp only []
  all_goals repeat' split
  all_goals first
    | exact Or.inl ⟨trivial, trivial⟩
    | exact Or.inl ⟨rfl, rfl⟩
    | exact Or.inr ⟨_, _, rfl, Or.inl rfl⟩
    | exact Or.inr ⟨_, _, rfl, Or.inr rfl⟩

theorem ParticipantsBoxController.HandleParticipant_canEdit (users : List UserId)
    (participant : MTPChannelParticipant) (role : Role) (a : Additional)
    (h : a.CanEditHasRights) :
    (ParticipantsBoxController.HandleParticipant users participant role a).1.CanEditHasRights := by
  intro u hu
  rcases ParticipantsBoxController.HandleParticipant_adminMaps users participant role a with
    ⟨h1, h2⟩ | ⟨user, rights, h1, h2 | h2⟩
  · rw [h1]
    rw [h2] at hu
    exact h u hu
  · rw [h1, Dict.has_assign]
    rw [h2, USet.mem_after_emplace] at hu
    by_cases he : u = user
    · simp [he]
    · simp only [he, decide_False, Bool.false_or] at hu ⊢
      exact h u hu
  · rw [h1, Dict.has_assign]
    rw [h2, USet.mem_after_erase] at hu
    by_cases he : u = user
    · simp [he]
    · simp only [ne_eq, he, not_false_eq_true, decide_True, Bool.true_and, decide_False,
        Bool.false_or] at hu ⊢
      exact h u hu

theorem ParticipantsBoxController.editAdminDone_canEdit (env : Env) (w : ParticipantsBox)
    (user : UserId) (rights : MTPChannelAdminRights) (h : w._additional.CanEditHasRights) :
    (ParticipantsBoxController.editAdminDone env w user rights)._additional.CanEditHasRights := by
  intro u hu
  have h' := h u
  rw [ParticipantsBoxController.editAdminDone_additional] at hu ⊢
  by_cases hf : rights.flags = 0
  · rw [if_pos hf] at hu ⊢
    simp only [USet.mem_after_erase, Dict.has_erase] at hu ⊢
    by_cases he : u = user <;> simp_all
  · rw [if_neg hf] at hu ⊢
    simp only [USet.mem_after_emplace, Dict.has_assign] at hu ⊢
    by_cases he : u = user <;> simp_all

theorem ParticipantsBoxController.editRestrictedDone_additional_admin (env : Env)
    (w : ParticipantsBox) (user : UserId) (rights : MTPChannelBannedRights) :
    ((ParticipantsBoxController.editRestrictedDone env w user rights)._additional.adminRights
        = w._additional.adminRights
      ∧ (ParticipantsBoxController.editRestrictedDone env w user rights)._additional.adminCanEdit
        = w._additional.adminCanEdit)
    ∨ ((ParticipantsBoxController.editRestrictedDone env w user rights)._additional.adminRights
        = Dict.erase w._additional.adminRights user
      ∧ (ParticipantsBoxController.editRestrictedDone env w user rights)._additional.adminCanEdit
        = USet.erase w._additional.adminCanEdit user) := by
  unfold ParticipantsBoxController.editRestrictedDone ParticipantsBoxController.removeRow
    ParticipantsBoxController.prependRow
  simp only []
  repeat' split
  all_goals first
    | exact Or.inl ⟨rfl, rfl⟩
    | exact Or.inr ⟨rfl, rfl⟩

theorem ParticipantsBoxController.editRestrictedDone_canEdit (env : Env) (w : ParticipantsBox)
    (user : UserId) (rights : MTPChannelBannedRights) (h : w._additional.CanEditHasRights) :
    (ParticipantsBoxController.editRestrictedDone env w user
      rights)._additional.CanEditHasRights := by
  intro u hu
  have h' := h u
  rcases ParticipantsBoxController.editRestrictedDone_additional_admin env w user rights with
    ⟨h1, h2⟩ | ⟨h1, h2⟩
  · rw [h1]
    rw [h2] at hu
    exact h' hu
  · rw [h1, Dict.has_erase]
    rw [h2, USet.mem_after_erase] at hu
    by_cases he : u = user <;> simp_all

theorem ParticipantsBoxController.editAdmin_isSome (w : ParticipantsBox) (user : UserId)
    (h : w._additional.CanEditHasRights) :
    (ParticipantsBoxController.editAdmin w user).isSome = true := by
  unfold ParticipantsBoxController.editAdmin
  cases hc : USet.has w._additional.adminCanEdit user with
  | false => simp
  | true =>
    have hr := h user hc
    unfold Dict.has at hr
    cases hf : Dict.find w._additional.adminRights user with
    | none => rw [hf] at hr; simp at hr
    | some rights => simp

theorem BannedBoxSearchController.searchDone_loop_canEdit (list : List MTPChannelParticipant) :
    ∀ w : ParticipantsBox, w._additional.CanEditHasRights →
      (BannedBoxSearchController.searchDone_loop w list)._additional.CanEditHasRights := by
  induction list with
  | nil => intro w h; exact h
  | cons participant rest ih =>
    intro w h
    have hp := ParticipantsBoxController.HandleParticipant_canEdit w.users participant w._role
      w._additional h
    unfold BannedBoxSearchController.searchDone_loop
    rcases hh : ParticipantsBoxController.HandleParticipant w.users participant w._role
      w._additional with ⟨a, cb⟩
    rw [hh] at hp
    cases cb with
    | none => exact ih _ hp
    | some user => exact ih _ hp

theorem ParticipantsBoxController.loadMoreRows_loop_canEdit (list : List MTPChannelParticipant) :
    ∀ w : ParticipantsBox, w._additional.CanEditHasRights →
      (ParticipantsBoxController.loadMoreRows_loop w list)._additional.CanEditHasRights := by
  induction list with
  | nil => intro w h; exact h
  | cons participant rest ih =>
    intro w h
    have hp := ParticipantsBoxController.HandleParticipant_canEdit w.users participant w._role
      w._additional h
    unfold ParticipantsBoxController.loadMoreRows_loop
    simp only []
    rcases hh : ParticipantsBoxController.HandleParticipant w.users participant w._role
      w._additional with ⟨a, cb⟩
    rw [hh] at hp
    cases cb with
    | none => exact ih _ hp
    | some user =>
      refine ih _ ?_
      unfold ParticipantsBoxController.appendRow
      split
      · exact hp
      · exact hp

theorem BannedBoxSearchController.searchDone_canEdit (w : ParticipantsBox) (requestId : Nat)
    (result : MTPchannels_ChannelParticipants) (requestedCount : Nat)
    (h : w._additional.CanEditHasRights) :
    (BannedBoxSearchController.searchDone w requestId result
      requestedCount)._additional.CanEditHasRights := by
  by_cases ht : w.search._requestId = requestId
  · obtain ⟨X, -, -, x3, -, x5, -⟩ :=
      BannedBoxSearchController.searchDone_tracked_loop w requestId result requestedCount ht
    rw [x5]
    exact BannedBoxSearchController.searchDone_loop_canEdit _ X (by rw [x3]; exact h)
  · have hf := (BannedBoxSearchController.searchDone_frame w _ _ requestId result requestedCount
      rfl rfl).2.2.2.2.2.2.2.2.2.2.2.1 ht
    rw [hf.2.2.2.1]
    exact h

theorem BannedBoxSearchController.searchLoad_canEdit (w : ParticipantsBox)
    (h : w._additional.CanEditHasRights) :
    (BannedBoxSearchController.loadMoreRows w).1._additional.CanEditHasRights := by
  rcases BannedBoxSearchController.loadMoreRows_cases w with ⟨-, he⟩ | ⟨-, -, he⟩ |
    ⟨-, -, -, he⟩
  · rw [he]; exact h
  · rw [he]; exact h
  · rw [he]; exact h

theorem BannedBoxSearchController.searchQuery_canEdit (w : ParticipantsBox) (query : String)
    (h : w._additional.CanEditHasRights) :
    (BannedBoxSearchController.searchQuery w query)._additional.CanEditHasRights := by
  by_cases hq : w.search._query ≠ query
  · cases hne : query.isEmpty with
    | true =>
      unfold BannedBoxSearchController.searchQuery
      rw [if_pos hq]
      simp only [hne, if_true]
      exact h
    | false =>
      cases hc : Dict.find w.search._cache query with
      | none =>
        rw [BannedBoxSearchController.searchQuery_miss w query hq hne hc]
        exact h
      | some it =>
        rw [BannedBoxSearchController.searchQuery_hit w _ _ query it hq hne hc rfl rfl]
        exact BannedBoxSearchController.searchDone_canEdit _ 0 it.result it.requestedCount h
  · unfold BannedBoxSearchController.searchQuery
    rw [if_neg hq]
    exact h

theorem ParticipantsBoxController.listLoad_canEdit (w : ParticipantsBox)
    (h : w._additional.CanEditHasRights) :
    (ParticipantsBoxController.loadMoreRows w)._additional.CanEditHasRights := by
  rw [ParticipantsBoxController.listLoad_eq]
  by_cases c1 : w._role ≠ Role.Admins ∧ w.search._query.isEmpty = false
  · rw [if_pos c1]
    exact BannedBoxSearchController.searchLoad_canEdit w h
  · rw [if_neg c1]
    by_cases c2 : (w._loadRequestId != 0 || w._allLoaded) = true
    · rw [if_pos c2]
      exact h
    · rw [if_neg c2]
      exact h

theorem ParticipantsBoxController.listDone_canEdit (w : ParticipantsBox)
    (result : MTPchannels_ChannelParticipants) (h : w._additional.CanEditHasRights) :
    (ParticipantsBoxController.loadMoreRows_done w result)._additional.CanEditHasRights := by
  unfold ParticipantsBoxController.loadMoreRows_done
  simp only []
  split
  · exact h
  · exact ParticipantsBoxController.loadMoreRows_loop_canEdit _ _ h

theorem ParticipantsBox.handle_canEdit (env : Env) (w w' : ParticipantsBox)
    (e : ParticipantsEvent) (h : w._additional.CanEditHasRights)
    (he : w.handle env e = some w') : w'._additional.CanEditHasRights := by
  cases e with
  | searchQuery query =>
    simp only [ParticipantsBox.handle] at he
    split at he
    · simp at he
    · simp only [Option.some.injEq] at he
      rw [← he]
      exact BannedBoxSearchController.searchQuery_canEdit w query h
  | timer =>
    simp only [ParticipantsBox.handle, BannedBoxSearchController.searchOnServer] at he
    split at he
    · split at he
      · simp at he
      · simp only [Option.some.injEq] at he
        rw [← he]
        exact BannedBoxSearchController.searchLoad_canEdit _ h
    · simp at he
  | loadMoreRows =>
    simp only [ParticipantsBox.handle, Option.some.injEq] at he
    rw [← he]
    exact ParticipantsBoxController.listLoad_canEdit w h
  | searchLoadMoreRows =>
    simp only [ParticipantsBox.handle] at he
    split at he
    · simp at he
    · simp only [Option.some.injEq] at he
      rw [← he]
      exact BannedBoxSearchController.searchLoad_canEdit w h
  | done requestId result =>
    simp only [ParticipantsBox.handle] at he
    cases hf : w.findRequest requestId with
    | none => simp [hf] at he
    | some r =>
      simp only [hf] at he
      cases hh : r.handlers with
      | list =>
        simp only [hh, Option.some.injEq] at he
        rw [← he]
        exact ParticipantsBoxController.listDone_canEdit _ result h
      | search =>
        simp only [hh, Option.some.injEq] at he
        rw [← he]
        exact BannedBoxSearchController.searchDone_canEdit _ requestId result _ h
  | fail requestId =>
    simp only [ParticipantsBox.handle] at he
    cases hf : w.findRequest requestId with
    | none => simp [hf] at he
    | some r =>
      simp only [hf] at he
      cases hh : r.handlers with
      | list =>
        simp only [hh, Option.some.injEq] at he
        rw [← he]
        exact h
      | search =>
        simp only [hh, Option.some.injEq] at he
        rw [← he]
        unfold BannedBoxSearchController.loadMoreRows_fail
        split
        · exact h
        · exact h
  | editAdminDone user rights =>
    simp only [ParticipantsBox.handle, Option.some.injEq] at he
    rw [← he]
    exact ParticipantsBoxController.editAdminDone_canEdit env w user rights h
  | editRestrictedDone user rights =>
    simp only [ParticipantsBox.handle, Option.some.injEq] at he
    rw [← he]
    exact ParticipantsBoxController.editRestrictedDone_canEdit env w user rights h

theorem ParticipantsBox.run_canEdit (env : Env) (events : List ParticipantsEvent) :
    ∀ w w' : ParticipantsBox, w._additional.CanEditHasRights →
      ParticipantsBox.run env w events = some w' → w'._additional.CanEditHasRights := by
  induction events with
  | nil =>
    intro w w' h hr
    simp only [ParticipantsBox.run, Option.some.injEq] at hr
    rw [← hr]; exact h
  | cons e es ih =>
    intro w w' h hr
    simp only [ParticipantsBox.run] at hr
    cases hh : w.handle env e with
    | none => simp [hh] at hr
    | some w1 =>
      simp only [hh] at hr
      exact ih w1 w' (ParticipantsBox.handle_canEdit env w w1 e h hh) hr

theorem Additional.canEdit_of_empty (a : Additional) (h : a.adminCanEdit = []) :
    a.CanEditHasRights := by
  intro u hu
  rw [h] at hu
  simp [USet.has] at hu

theorem ParticipantsBox.reachable_canEdit (env : Env) (w : ParticipantsBox)
    (h : ParticipantsBox.Reachable env w) : w._additional.CanEditHasRights := by
  obtain ⟨role, creator, events, hr⟩ := h
  exact ParticipantsBox.run_canEdit env events _ w (Additional.canEdit_of_empty _ rfl) hr

set_option maxRecDepth 100000 in
theorem sampleAdminsLoaded_reachable :
    ParticipantsBox.Reachable sampleEnv sampleAdminsLoaded :=
  ⟨Role.Admins, none, sampleAdminsEvents, by decide⟩

/-- C20: the assertion in `ParticipantsBoxController::editAdmin` cannot fail. The
predicate "every user in `adminCanEdit` has an entry in `adminRights`" holds for the
empty record and for the record the constructor leaves, and it is preserved by
`ParticipantsBoxController::HandleParticipant` (any role, any participant, any loaded
users), by `editAdminDone` and by `editRestrictedDone`; under it `editAdmin` returns,
and so it does in every state the dialog can reach, showing the edit box with the
stored rights whenever the user passes the `adminCanEdit` check. -/
theorem editAdmin_assertion_holds (env : Env) :
    ({} : Additional).CanEditHasRights
    ∧ (∀ role creator, (ParticipantsBox.init role creator)._additional.CanEditHasRights)
    ∧ (∀ users participant role a, Additional.CanEditHasRights a →
        (ParticipantsBoxController.HandleParticipant users participant role
          a).1.CanEditHasRights)
    ∧ (∀ w user rights, w._additional.CanEditHasRights →
        (ParticipantsBoxController.editAdminDone env w user rights)._additional.CanEditHasRights)
    ∧ (∀ w user rights, w._additional.CanEditHasRights →
        (ParticipantsBoxController.editRestrictedDone env w user
          rights)._additional.CanEditHasRights)
    ∧ (∀ w user, w._additional.CanEditHasRights →
        (ParticipantsBoxController.editAdmin w user).isSome = true)
    ∧ (∀ w user, ParticipantsBox.Reachable env w →
        w._additional.CanEditHasRights
        ∧ (ParticipantsBoxController.editAdmin w user).isSome = true
        ∧ (USet.has w._additional.adminCanEdit user = true →
            ∃ rights, Dict.find w._additional.adminRights user = some rights
              ∧ ParticipantsBoxController.editAdmin w user
                = some (EditAdminResult.editAdminBox user true rights))) := by
  refine ⟨Additional.canEdit_of_empty _ rfl, fun _ _ => Additional.canEdit_of_empty _ rfl,
    ParticipantsBoxController.HandleParticipant_canEdit,
    ParticipantsBoxController.editAdminDone_canEdit env,
    ParticipantsBoxController.editRestrictedDone_canEdit env,
    ParticipantsBoxController.editAdmin_isSome, ?_⟩
  intro w user hreach
  have hinv := ParticipantsBox.reachable_canEdit env w hreach
  refine ⟨hinv, ParticipantsBoxController.editAdmin_isSome w user hinv, ?_⟩
  intro hc
  have hr := hinv user hc
  unfold Dict.has at hr
  cases hf : Dict.find w._additional.adminRights user with
  | none => rw [hf] at hr; simp at hr
  | some rights =>
    refine ⟨rights, rfl, ?_⟩
    unfold ParticipantsBoxController.editAdmin
    simp [hc, hf]

theorem editAdmin_assertion_holds_witness :
    ParticipantsBox.Reachable sampleEnv sampleAdminsLoaded
    ∧ USet.has sampleAdminsLoaded._additional.adminCanEdit 7 = true
    ∧ (ParticipantsBoxController.editAdmin sampleAdminsLoaded 7).isSome = true :=
  ⟨sampleAdminsLoaded_reachable, by decide,
   ((editAdmin_assertion_holds sampleEnv).2.2.2.2.2.2 sampleAdminsLoaded 7
      sampleAdminsLoaded_reachable).2.1⟩

/-! ## The pending entries record what was requested -/

/-- One step that keeps `Pending`: the sender's counter does not go back, every request
is an old one or the one with the next id (whose entry is right), and every entry is
as before, or gone with no request left for it, or the one of the next id. -/
theorem ParticipantsBox.Pending.pending_step {w w' : ParticipantsBox} (h : w.Pending)
    (hl : w.lastRequestId ≤ w'.lastRequestId)
    (hreq : ∀ r ∈ w'.requests, r ∈ w.requests
      ∨ (r.id = w'.lastRequestId
          ∧ (r.handlers = Handlers.search →
              Dict.find w'.search._queries r.id
                = some { text := r.filter.text, offset := r.offset }
              ∧ r.limit = kParticipantsPerPage)))
    (hq : ∀ k, Dict.find w'.search._queries k = Dict.find w.search._queries k
      ∨ (Dict.find w'.search._queries k = none ∧ ∀ r ∈ w'.requests, r.id ≠ k)
      ∨ (k = w.lastRequestId + 1 ∧ w'.lastRequestId = w.lastRequestId + 1)) :
    w'.Pending := by
  obtain ⟨h1, h2, h3⟩ := h
  refine ⟨?_, ?_, ?_⟩
  · intro r hr
    rcases hreq r hr with ho | ⟨hn, -⟩
    · exact Nat.le_trans (h1 r ho) hl
    · exact Nat.le_of_eq hn
  · intro k hk
    rcases hq k with hs | ⟨hn, -⟩ | ⟨hk1, hl1⟩
    · unfold Dict.has at hk
      rw [hs] at hk
      exact Nat.le_trans (h2 k hk) hl
    · unfold Dict.has at hk
      rw [hn] at hk
      simp at hk
    · omega
  · intro r hr hs
    rcases hreq r hr with ho | ⟨-, hn⟩
    · obtain ⟨e1, e2⟩ := h3 r ho hs
      refine ⟨?_, e2⟩
      rcases hq r.id with hsame | ⟨-, hno⟩ | ⟨hk1, -⟩
      · rw [hsame]; exact e1
      · exact absurd rfl (hno r hr)
      · have := h1 r ho
        omega
    · exact hn hs

theorem ParticipantsBox.Pending.pending_same {w w' : ParticipantsBox} (h : w.Pending)
    (hl : w'.lastRequestId = w.lastRequestId) (hr : w'.requests = w.requests)
    (hq : w'.search._queries = w.search._queries) : w'.Pending := by
  refine h.pending_step (Nat.le_of_eq hl.symm) ?_ ?_
  · intro r hm
    rw [hr] at hm
    exact Or.inl hm
  · intro k
    rw [hq]
    exact Or.inl rfl

theorem ParticipantsBox.dropRequest_pending (w : ParticipantsBox) (requestId : Nat)
    (h : w.Pending) :
    (w.dropRequest requestId).Pending
    ∧ ∀ r ∈ (w.dropRequest requestId).requests, r.id ≠ requestId := by
  constructor
  · refine h.pending_step (Nat.le_refl _) ?_ (fun k => Or.inl rfl)
    intro r hm
    exact Or.inl (List.mem_of_mem_filter hm)
  · intro r hm
    simp only [ParticipantsBox.dropRequest, List.mem_filter, bne_iff_ne, ne_eq] at hm
    exact hm.2

theorem BannedBoxSearchController.searchLoad_pending (w : ParticipantsBox) (h : w.Pending) :
    (BannedBoxSearchController.loadMoreRows w).1.Pending := by
  rcases BannedBoxSearchController.loadMoreRows_cases w with ⟨-, he⟩ | ⟨-, -, he⟩ |
    ⟨-, -, -, he⟩
  · rw [he]; exact h
  · rw [he]; exact h
  · rw [he]
    have hnone : Dict.find w.search._queries (w.lastRequestId + 1) = none := by
      cases hf : Dict.find w.search._queries (w.lastRequestId + 1) with
      | none => rfl
      | some x =>
        have := h.2.1 (w.lastRequestId + 1) (by unfold Dict.has; rw [hf]; rfl)
        omega
    refine h.pending_step (Nat.le_succ _) ?_ ?_
    · intro r hm
      simp only [List.mem_append, List.mem_singleton] at hm
      rcases hm with hm | hm
      · exact Or.inl hm
      · right
        subst hm
        refine ⟨rfl, fun _ => ⟨?_, rfl⟩⟩
        simp only [Dict.find_emplace, if_true, hnone]
        by_cases hr : w._role = Role.Restricted <;> simp [hr, Filter.text]
    · intro k
      by_cases hk : k = w.lastRequestId + 1
      · exact Or.inr (Or.inr ⟨hk, rfl⟩)
      · left
        simp only [Dict.find_emplace, hk, if_false]

theorem BannedBoxSearchController.searchDone_pending (w : ParticipantsBox) (requestId : Nat)
    (result : MTPchannels_ChannelParticipants) (requestedCount : Nat) (h : w.Pending)
    (hd : requestId = 0 ∨ ∀ r ∈ w.requests, r.id ≠ requestId) :
    (BannedBoxSearchController.searchDone w requestId result requestedCount).Pending := by
  obtain ⟨f1, f2, f3, f4, f5, f6, -⟩ := BannedBoxSearchController.searchDone_frame w _ _
    requestId result requestedCount rfl rfl
  refine h.pending_step (Nat.le_of_eq f6.symm) ?_ ?_
  · intro r hm
    rw [f5] at hm
    exact Or.inl hm
  · intro k
    rw [f2, BannedBoxSearchController.searchDone_store_queries]
    by_cases hc : requestId ≠ 0 ∧ k = requestId
    · rw [if_pos hc]
      right; left
      refine ⟨rfl, ?_⟩
      intro r hm
      rw [f5] at hm
      rcases hd with hd | hd
      · exact absurd hd hc.1
      · rw [hc.2]; exact hd r hm
    · rw [if_neg hc]
      exact Or.inl rfl

theorem BannedBoxSearchController.searchQuery_pending (w : ParticipantsBox) (query : String)
    (h : w.Pending) : (BannedBoxSearchController.searchQuery w query).Pending := by
  by_cases hq : w.search._query ≠ query
  · cases hne : query.isEmpty with
    | true =>
      unfold BannedBoxSearchController.searchQuery
      rw [if_pos hq]
      simp only [hne, if_true]
      exact h.pending_same rfl rfl rfl
    | false =>
      cases hc : Dict.find w.search._cache query with
      | none =>
        rw [BannedBoxSearchController.searchQuery_miss w query hq hne hc]
        exact h.pending_same rfl rfl rfl
      | some it =>
        rw [BannedBoxSearchController.searchQuery_hit w _ _ query it hq hne hc rfl rfl]
        have h0 : ({ w with search := { w.search with _query := query, _offset := 0, _requestId := 0, _allLoaded := false } } : ParticipantsBox).Pending :=
          h.pending_same rfl rfl rfl
        exact (BannedBoxSearchController.searchDone_pending _ 0 it.result it.requestedCount
          h0 (Or.inl rfl)).pending_same rfl rfl rfl
  · unfold BannedBoxSearchController.searchQuery
    rw [if_neg hq]
    exact h

theorem ParticipantsBoxController.listLoad_pending (w : ParticipantsBox) (h : w.Pending) :
    (ParticipantsBoxController.loadMoreRows w).Pending := by
  rw [ParticipantsBoxController.listLoad_eq]
  by_cases c1 : w._role ≠ Role.Admins ∧ w.search._query.isEmpty = false
  · rw [if_pos c1]
    exact BannedBoxSearchController.searchLoad_pending w h
  · rw [if_neg c1]
    by_cases c2 : (w._loadRequestId != 0 || w._allLoaded) = true
    · rw [if_pos c2]
      exact h
    · rw [if_neg c2]
      refine h.pending_step (Nat.le_succ _) ?_ (fun k => Or.inl rfl)
      intro r hm
      simp only [List.mem_append, List.mem_singleton] at hm
      rcases hm with hm | hm
      · exact Or.inl hm
      · right
        subst hm
        exact ⟨rfl, fun hs => by simp at hs⟩

theorem ParticipantsBoxController.listDone_pending (w : ParticipantsBox)
    (result : MTPchannels_ChannelParticipants) (h : w.Pending) :
    (ParticipantsBoxController.loadMoreRows_done w result).Pending := by
  unfold ParticipantsBoxController.loadMoreRows_done
  simp only []
  split
  · exact h.pending_same rfl rfl rfl
  · obtain ⟨a, rows, off, he⟩ := ParticipantsBoxController.loadMoreRows_loop_frame
      result.participants
      { w with _loadRequestId := 0, users := feedUsers w.users result.users }
    rw [he]
    exact h.pending_same rfl rfl rfl

theorem ParticipantsBox.handle_pending (env : Env) (w w' : ParticipantsBox)
    (e : ParticipantsEvent) (h : w.Pending) (he : w.handle env e = some w') : w'.Pending := by
  cases e with
  | searchQuery query =>
    simp only [ParticipantsBox.handle] at he
    split at he
    · simp at he
    · simp only [Option.some.injEq] at he
      rw [← he]
      exact BannedBoxSearchController.searchQuery_pending w query h
  | timer =>
    simp only [ParticipantsBox.handle, BannedBoxSearchController.searchOnServer] at he
    split at he
    · split at he
      · simp at he
      · simp only [Option.some.injEq] at he
        rw [← he]
        exact BannedBoxSearchController.searchLoad_pending _ (h.pending_same rfl rfl rfl)
    · simp at he
  | loadMoreRows =>
    simp only [ParticipantsBox.handle, Option.some.injEq] at he
    rw [← he]
    exact ParticipantsBoxController.listLoad_pending w h
  | searchLoadMoreRows =>
    simp only [ParticipantsBox.handle] at he
    split at he
    · simp at he
    · simp only [Option.some.injEq] at he
      rw [← he]
      exact BannedBoxSearchController.searchLoad_pending w h
  | done requestId result =>
    simp only [ParticipantsBox.handle] at he
    obtain ⟨hd1, hd2⟩ := ParticipantsBox.dropRequest_pending w requestId h
    cases hf : w.findRequest requestId with
    | none => simp [hf] at he
    | some r =>
      simp only [hf] at he
      cases hh : r.handlers with
      | list =>
        simp only [hh, Option.some.injEq] at he
        rw [← he]
        exact ParticipantsBoxController.listDone_pending _ result hd1
      | search =>
        simp only [hh, Option.some.injEq] at he
        rw [← he]
        exact BannedBoxSearchController.searchDone_pending _ requestId result _ hd1 (Or.inr hd2)
  | fail requestId =>
    simp only [ParticipantsBox.handle] at he
    obtain ⟨hd1, hd2⟩ := ParticipantsBox.dropRequest_pending w requestId h
    cases hf : w.findRequest requestId with
    | none => simp [hf] at he
    | some r =>
      simp only [hf] at he
      cases hh : r.handlers with
      | list =>
        simp only [hh, Option.some.injEq] at he
        rw [← he]
        exact hd1.pending_same rfl rfl rfl
      | search =>
        simp only [hh, Option.some.injEq] at he
        rw [← he]
        unfold BannedBoxSearchController.loadMoreRows_fail
        split
        · exact hd1.pending_same rfl rfl rfl
        · exact hd1
  | editAdminDone user rights =>
    simp only [ParticipantsBox.handle, Option.some.injEq] at he
    obtain ⟨a, rows, hfr⟩ := (ParticipantsBoxController.edit_frame env w user rights
      { flags := 0, until_date := 0 }).1
    rw [← he, hfr]
    exact h.pending_same rfl rfl rfl
  | editRestrictedDone user rights =>
    simp only [ParticipantsBox.handle, Option.some.injEq] at he
    obtain ⟨a, rows, hfr⟩ := (ParticipantsBoxController.edit_frame env w user { flags := 0 }
      rights).2
    rw [← he, hfr]
    exact h.pending_same rfl rfl rfl

theorem ParticipantsBox.run_pending (env : Env) (events : List ParticipantsEvent) :
    ∀ w w' : ParticipantsBox, w.Pending → ParticipantsBox.run env w events = some w' →
      w'.Pending := by
  induction events with
  | nil =>
    intro w w' h hr
    simp only [ParticipantsBox.run, Option.some.injEq] at hr
    rw [← hr]; exact h
  | cons e es ih =>
    intro w w' h hr
    simp only [ParticipantsBox.run] at hr
    cases hh : w.handle env e with
    | none => simp [hh] at hr
    | some w1 =>
      simp only [hh] at hr
      exact ih w1 w' (ParticipantsBox.handle_pending env w w1 e h hh) hr

theorem ParticipantsBox.reachable_pending (env : Env) (w : ParticipantsBox)
    (h : ParticipantsBox.Reachable env w) : w.Pending := by
  obtain ⟨role, creator, events, hr⟩ := h
  refine ParticipantsBox.run_pending env events _ w ?_ hr
  refine ⟨?_, ?_, ?_⟩
  · intro r hm
    simp [ParticipantsBox.init] at hm
  · intro k hk
    simp [ParticipantsBox.init, Dict.has, Dict.find] at hk
  · intro r hm
    simp [ParticipantsBox.init] at hm

theorem AddParticipantBox.Pending.pending_stepAdd {v v' : AddParticipantBox} (h : v.Pending)
    (hl : v.lastRequestId ≤ v'.lastRequestId)
    (hreq : ∀ r ∈ v'.requests, r ∈ v.requests
      ∨ (r.id = v'.lastRequestId
          ∧ (r.handlers = AddHandlers.participants →
              Dict.find v'.search._participantsQueries r.id
                = some { text := r.query, offset := r.offset }
              ∧ r.limit = kParticipantsPerPage)))
    (hq : ∀ k, Dict.find v'.search._participantsQueries k
        = Dict.find v.search._participantsQueries k
      ∨ (Dict.find v'.search._participantsQueries k = none ∧ ∀ r ∈ v'.requests, r.id ≠ k)
      ∨ (k = v.lastRequestId + 1 ∧ v'.lastRequestId = v.lastRequestId + 1)) :
    v'.Pending := by
  obtain ⟨h1, h2, h3⟩ := h
  refine ⟨?_, ?_, ?_⟩
  · intro r hr
    rcases hreq r hr with ho | ⟨hn, -⟩
    · exact Nat.le_trans (h1 r ho) hl
    · exact Nat.le_of_eq hn
  · intro k hk
    rcases hq k with hs | ⟨hn, -⟩ | ⟨hk1, hl1⟩
    · unfold Dict.has at hk
      rw [hs] at hk
      exact Nat.le_trans (h2 k hk) hl
    · unfold Dict.has at hk
      rw [hn] at hk
      simp at hk
    · omega
  · intro r hr hs
    rcases hreq r hr with ho | ⟨-, hn⟩
    · obtain ⟨e1, e2⟩ := h3 r ho hs
      refine ⟨?_, e2⟩
      rcases hq r.id with hsame | ⟨-, hno⟩ | ⟨hk1, -⟩
      · rw [hsame]; exact e1
      · exact absurd rfl (hno r hr)
      · have := h1 r ho
        omega
    · exact hn hs

theorem AddParticipantBox.Pending.pending_sameAdd {v v' : AddParticipantBox} (h : v.Pending)
    (hl : v'.lastRequestId = v.lastRequestId) (hr : v'.requests = v.requests)
    (hq : v'.search._participantsQueries = v.search._participantsQueries) : v'.Pending := by
  refine h.pending_stepAdd (Nat.le_of_eq hl.symm) ?_ ?_
  · intro r hm
    rw [hr] at hm
    exact Or.inl hm
  · intro k
    rw [hq]
    exact Or.inl rfl

theorem AddParticipantBox.dropRequest_pendingAdd (v : AddParticipantBox) (requestId : Nat)
    (h : v.Pending) :
    (v.dropRequest requestId).Pending
    ∧ ∀ r ∈ (v.dropRequest requestId).requests, r.id ≠ requestId := by
  constructor
  · refine h.pending_stepAdd (Nat.le_refl _) ?_ (fun k => Or.inl rfl)
    intro r hm
    exact Or.inl (List.mem_of_mem_filter hm)
  · intro r hm
    simp only [AddParticipantBox.dropRequest, List.mem_filter, bne_iff_ne, ne_eq] at hm
    exact hm.2

theorem AddParticipantBoxSearchController.requestGlobal_pending (env : Env)
    (v : AddParticipantBox) (h : v.Pending) :
    (AddParticipantBoxSearchController.requestGlobal env v).Pending := by
  unfold AddParticipantBoxSearchController.requestGlobal
  split
  · exact h.pending_sameAdd rfl rfl rfl
  · simp only [AddParticipantBox.send]
    refine h.pending_stepAdd (Nat.le_succ _) ?_ (fun k => Or.inl rfl)
    intro r hm
    simp only [List.mem_append, List.mem_singleton] at hm
    rcases hm with hm | hm
    · exact Or.inl hm
    · right
      subst hm
      exact ⟨rfl, fun hs => by simp at hs⟩

theorem AddParticipantBoxSearchController.requestParticipants_pending
    (v : AddParticipantBox) (h : v.Pending) :
    (AddParticipantBoxSearchController.requestParticipants v).Pending := by
  have hnone : Dict.find v.search._participantsQueries (v.lastRequestId + 1) = none := by
    cases hf : Dict.find v.search._participantsQueries (v.lastRequestId + 1) with
    | none => rfl
    | some x =>
      have := h.2.1 (v.lastRequestId + 1) (by unfold Dict.has; rw [hf]; rfl)
      omega
  unfold AddParticipantBoxSearchController.requestParticipants
  simp only [AddParticipantBox.send]
  refine h.pending_stepAdd (Nat.le_succ _) ?_ ?_
  · intro r hm
    simp only [List.mem_append, List.mem_singleton] at hm
    rcases hm with hm | hm
    · exact Or.inl hm
    · right
      subst hm
      refine ⟨rfl, fun _ => ⟨?_, rfl⟩⟩
      simp only [Dict.find_emplace, if_true, hnone]
  · intro k
    by_cases hk : k = v.lastRequestId + 1
    · exact Or.inr (Or.inr ⟨hk, rfl⟩)
    · left
      simp only [Dict.find_emplace, hk, if_false]

theorem AddParticipantBoxSearchController.searchLoad_pendingAdd (env : Env)
    (v : AddParticipantBox) (h : v.Pending) :
    (AddParticipantBoxSearchController.loadMoreRows env v).1.Pending := by
  obtain ⟨w1, hw1⟩ : ∃ w1, w1 = if v.search._chatsContactsAdded = true then v
      else AddParticipantBoxSearchController.addChatsContacts env v := ⟨_, rfl⟩
  have hc : w1.Pending := by
    rw [hw1]
    split
    · exact h
    · exact h.pending_sameAdd rfl rfl rfl
  rw [AddParticipantBoxSearchController.loadMoreRows_eq env v w1 hw1]
  split_ifs
  · exact h
  · exact h
  · exact hc
  · have hf := AddParticipantBoxSearchController.searchGlobalInCache_frame w1
    exact hc.pending_sameAdd hf.2.2.1 hf.2.1 hf.2.2.2.1
  · exact AddParticipantBoxSearchController.requestGlobal_pending env w1 hc
  · exact h
  · exact AddParticipantBoxSearchController.requestParticipants_pending v h

theorem AddParticipantBoxSearchController.searchParticipantsDone_pending (env : Env)
    (v v' : AddParticipantBox) (requestId : Nat) (result : MTPchannels_ChannelParticipants)
    (requestedCount : Nat) (h : v.Pending)
    (hd : requestId = 0 ∨ ∀ r ∈ v.requests, r.id ≠ requestId)
    (hv' : AddParticipantBoxSearchController.searchParticipantsDone env v requestId result
      requestedCount = some v') : v'.Pending := by
  obtain ⟨users, cache, queries, hs⟩ :=
    AddParticipantBoxSearchController.searchParticipantsDone_store_frame v requestId result
      requestedCount
  obtain ⟨s, hs'⟩ : ∃ s, s = AddParticipantBoxSearchController.searchParticipantsDone_store v
      requestId result requestedCount := ⟨_, rfl⟩
  have hsr : s.requests = v.requests := by rw [hs', hs]
  have hsl : s.lastRequestId = v.lastRequestId := by rw [hs', hs]
  have hsP : s.Pending := by
    refine h.pending_stepAdd (Nat.le_of_eq hsl.symm) ?_ ?_
    · intro r hm
      rw [hsr] at hm
      exact Or.inl hm
    · intro k
      rw [hs', AddParticipantBoxSearchController.searchParticipantsDone_store_queries, ← hs']
      by_cases hc : requestId ≠ 0 ∧ k = requestId
      · rw [if_pos hc]
        right; left
        refine ⟨rfl, ?_⟩
        intro r hm
        rw [hsr] at hm
        rcases hd with hd | hd
        · exact absurd hd hc.1
        · rw [hc.2]; exact hd r hm
      · rw [if_neg hc]
        exact Or.inl rfl
  unfold AddParticipantBoxSearchController.searchParticipantsDone at hv'
  rw [← hs'] at hv'
  by_cases he : s.search._requestId = requestId
  · simp only [he, if_true] at hv'
    obtain ⟨w0, hw0⟩ : ∃ w0, w0 = AddParticipantBoxSearchController.searchParticipantsDone_loaded
        env { s with search := { s.search with _requestId := 0 } } result.participants
        requestedCount := ⟨_, rfl⟩
    rw [← hw0] at hv'
    have hX : ({ s with search := { s.search with _requestId := 0 } } : AddParticipantBox).Pending :=
      hsP.pending_sameAdd rfl rfl rfl
    have hw0P : w0.Pending := by
      rw [hw0]
      unfold AddParticipantBoxSearchController.searchParticipantsDone_loaded
      split
      · simp only []
        split
        · exact AddParticipantBoxSearchController.searchLoad_pendingAdd env _
            (hX.pending_sameAdd rfl rfl rfl)
        · exact hX.pending_sameAdd rfl rfl rfl
      · exact hX
    cases hloop : AddParticipantBoxSearchController.searchParticipantsDone_loop w0
        result.participants with
    | none => simp [hloop] at hv'
    | some w2 =>
      obtain ⟨a, rows, hw2⟩ :=
        AddParticipantBoxSearchController.searchParticipantsDone_loop_frame _ _ _ hloop
      simp only [hloop, Option.some.injEq] at hv'
      subst hv'
      subst hw2
      exact hw0P.pending_sameAdd rfl rfl rfl
  · simp only [he, if_false, Option.some.injEq] at hv'
    rw [← hv']
    exact hsP

theorem AddParticipantBoxSearchController.searchGlobalDone_shape (w : AddParticipantBox)
    (requestId : Nat) (result : MTPcontacts_Found) :
    ∃ users a rows cache queries rid loaded,
      AddParticipantBoxSearchController.searchGlobalDone w requestId result
        = { w with users := users, _additional := a, searchRows := rows, search := { w.search with _globalCache := cache, _globalQueries := queries, _requestId := rid, _globalLoaded := loaded } } := by
  obtain ⟨users, cache, queries, hs⟩ :=
    AddParticipantBoxSearchController.searchGlobalDone_store_frame w requestId result
  unfold AddParticipantBoxSearchController.searchGlobalDone
  rw [hs]
  simp only []
  split
  · obtain ⟨a, rows, hl⟩ := AddParticipantBoxSearchController.searchGlobalDone_loop_frame
      result.results { w with users := users, search := { w.search with _globalCache := cache, _globalQueries := queries, _requestId := 0, _globalLoaded := true } }
    exact ⟨users, a, rows, cache, queries, 0, true, hl⟩
  · exact ⟨users, w._additional, w.searchRows, cache, queries, w.search._requestId,
      w.search._globalLoaded, rfl⟩

theorem AddParticipantBoxSearchController.searchQuery_pendingAdd (env : Env)
    (v v' : AddParticipantBox) (query : String) (h : v.Pending)
    (hv' : AddParticipantBoxSearchController.searchQuery env v query = some v') :
    v'.Pending := by
  by_cases hq : v.search._query ≠ query
  · cases hne : query.isEmpty with
    | true =>
      unfold AddParticipantBoxSearchController.searchQuery at hv'
      rw [if_pos hq] at hv'
      simp only [hne, if_true, Option.some.injEq] at hv'
      rw [← hv']
      exact h.pending_sameAdd rfl rfl rfl
    | false =>
      cases hc : Dict.find v.search._participantsCache query with
      | none =>
        rw [AddParticipantBoxSearchController.searchQuery_missAdd env v query hq hne hc] at hv'
        simp only [Option.some.injEq] at hv'
        rw [← hv']
        exact h.pending_sameAdd rfl rfl rfl
      | some it =>
        rw [AddParticipantBoxSearchController.searchQuery_hitAdd env v _ query it hq hne hc rfl]
          at hv'
        have h0 : ({ v with search := { v.search with _query := query, _offset := 0, _requestId := 0, _participantsLoaded := false, _chatsContactsAdded := false, _globalLoaded := false } } : AddParticipantBox).Pending :=
          h.pending_sameAdd rfl rfl rfl
        cases hd : AddParticipantBoxSearchController.searchParticipantsDone env { v with search := { v.search with _query := query, _offset := 0, _requestId := 0, _participantsLoaded := false, _chatsContactsAdded := false, _globalLoaded := false } } 0 it.result it.requestedCount with
        | none => rw [hd] at hv'; simp at hv'
        | some v1 =>
          rw [hd] at hv'
          simp only [Option.map_some', Option.some.injEq] at hv'
          rw [← hv']
          exact (AddParticipantBoxSearchController.searchParticipantsDone_pending env _ v1 0
            it.result it.requestedCount h0 (Or.inl rfl) hd).pending_sameAdd rfl rfl rfl
  · unfold AddParticipantBoxSearchController.searchQuery at hv'
    rw [if_neg hq] at hv'
    simp only [Option.some.injEq] at hv'
    rw [← hv']
    exact h

theorem AddParticipantBoxController.listLoad_pendingAdd (env : Env) (v : AddParticipantBox)
    (h : v.Pending) : (AddParticipantBoxController.loadMoreRows env v).Pending := by
  rw [AddParticipantBoxController.loadMoreRows_eq_add]
  by_cases c1 : v.search._query.isEmpty = false
  · rw [if_pos c1]
    exact AddParticipantBoxSearchController.searchLoad_pendingAdd env v h
  · rw [if_neg c1]
    by_cases c2 : (v._loadRequestId != 0 || v._allLoaded) = true
    · rw [if_pos c2]
      exact h
    · rw [if_neg c2]
      refine h.pending_stepAdd (Nat.le_succ _) ?_ (fun k => Or.inl rfl)
      intro r hm
      simp only [List.mem_append, List.mem_singleton] at hm
      rcases hm with hm | hm
      · exact Or.inl hm
      · right
        subst hm
        exact ⟨rfl, fun hs => by simp at hs⟩

theorem AddParticipantBoxController.listDone_pendingAdd (env : Env) (v v' : AddParticipantBox)
    (result : MTPchannels_ChannelParticipants) (h : v.Pending)
    (hv' : AddParticipantBoxController.loadMoreRows_done env v result = some v') :
    v'.Pending := by
  unfold AddParticipantBoxController.loadMoreRows_done at hv'
  simp only [] at hv'
  split at hv'
  · simp only [Option.some.injEq] at hv'
    rw [← hv']
    exact h.pending_sameAdd rfl rfl rfl
  · obtain ⟨a, rows, off, he⟩ := AddParticipantBoxController.listLoop_frame env _ _ _ hv'
    rw [he]
    exact h.pending_sameAdd rfl rfl rfl

theorem AddParticipantBox.handle_pendingAdd (env : Env) (v v' : AddParticipantBox)
    (e : AddParticipantEvent) (h : v.Pending) (he : v.handle env e = some v') :
    v'.Pending := by
  cases e with
  | searchQuery query =>
    simp only [AddParticipantBox.handle] at he
    exact AddParticipantBoxSearchController.searchQuery_pendingAdd env v v' query h he
  | timer =>
    simp only [AddParticipantBox.handle, AddParticipantBoxSearchController.searchOnServer] at he
    split at he
    · split at he
      · simp at he
      · simp only [Option.some.injEq] at he
        rw [← he]
        exact AddParticipantBoxSearchController.searchLoad_pendingAdd env _
          (h.pending_sameAdd rfl rfl rfl)
    · simp at he
  | loadMoreRows =>
    simp only [AddParticipantBox.handle, Option.some.injEq] at he
    rw [← he]
    exact AddParticipantBoxController.listLoad_pendingAdd env v h
  | searchLoadMoreRows =>
    simp only [AddParticipantBox.handle, Option.some.injEq] at he
    rw [← he]
    exact AddParticipantBoxSearchController.searchLoad_pendingAdd env v h
  | done requestId result =>
    simp only [AddParticipantBox.handle] at he
    obtain ⟨hd1, hd2⟩ := AddParticipantBox.dropRequest_pendingAdd v requestId h
    cases hf : v.findRequest requestId with
    | none => simp [hf] at he
    | some r =>
      simp only [hf] at he
      cases hh : r.handlers with
      | list =>
        simp only [hh] at he
        exact AddParticipantBoxController.listDone_pendingAdd env _ v' result hd1 he
      | participants =>
        simp only [hh] at he
        exact AddParticipantBoxSearchController.searchParticipantsDone_pending env _ v'
          requestId result _ hd1 (Or.inr hd2) he
      | global => simp [hh] at he
  | doneFound requestId result =>
    simp only [AddParticipantBox.handle] at he
    obtain ⟨hd1, hd2⟩ := AddParticipantBox.dropRequest_pendingAdd v requestId h
    cases hf : v.findRequest requestId with
    | none => simp [hf] at he
    | some r =>
      simp only [hf] at he
      cases hh : r.handlers with
      | list => simp [hh] at he
      | participants => simp [hh] at he
      | global =>
        simp only [hh, Option.some.injEq] at he
        obtain ⟨users, a, rows, cache, queries, rid, loaded, hg⟩ :=
          AddParticipantBoxSearchController.searchGlobalDone_shape (v.dropRequest requestId)
            requestId result
        rw [← he, hg]
        exact hd1.pending_sameAdd rfl rfl rfl
  | fail requestId =>
    simp only [AddParticipantBox.handle] at he
    obtain ⟨hd1, hd2⟩ := AddParticipantBox.dropRequest_pendingAdd v requestId h
    cases hf : v.findRequest requestId with
    | none => simp [hf] at he
    | some r =>
      simp only [hf] at he
      cases hh : r.handlers with
      | list =>
        simp only [hh, Option.some.injEq] at he
        rw [← he]
        exact hd1.pending_sameAdd rfl rfl rfl
      | participants =>
        simp only [hh, Option.some.injEq] at he
        rw [← he]
        unfold AddParticipantBoxSearchController.requestParticipants_fail
        split
        · exact AddParticipantBoxSearchController.searchLoad_pendingAdd env _
            (hd1.pending_sameAdd rfl rfl rfl)
        · exact hd1
      | global =>
        simp only [hh, Option.some.injEq] at he
        rw [← he]
        unfold AddParticipantBoxSearchController.requestGlobal_fail
        split
        · exact hd1.pending_sameAdd rfl rfl rfl
        · exact hd1
  | editAdminDone user rights =>
    simp only [AddParticipantBox.handle, Option.some.injEq] at he
    rw [← he]
    exact h.pending_sameAdd rfl rfl rfl
  | editRestrictedDone user rights =>
    simp only [AddParticipantBox.handle, Option.some.injEq] at he
    rw [← he]
    exact h.pending_sameAdd rfl rfl rfl

theorem AddParticipantBox.run_pendingAdd (env : Env) (events : List AddParticipantEvent) :
    ∀ v v' : AddParticipantBox, v.Pending → AddParticipantBox.run env v events = some v' →
      v'.Pending := by
  induction events with
  | nil =>
    intro v v' h hr
    simp only [AddParticipantBox.run, Option.some.injEq] at hr
    rw [← hr]; exact h
  | cons e es ih =>
    intro v v' h hr
    simp only [AddParticipantBox.run] at hr
    cases hh : v.handle env e with
    | none => simp [hh] at hr
    | some v1 =>
      simp only [hh] at hr
      exact ih v1 v' (AddParticipantBox.handle_pendingAdd env v v1 e h hh) hr

theorem AddParticipantBox.reachable_pendingAdd (env : Env) (v : AddParticipantBox)
    (h : AddParticipantBox.Reachable env v) : v.Pending := by
  obtain ⟨role, creator, events, hr⟩ := h
  refine AddParticipantBox.run_pendingAdd env events _ v ?_ hr
  refine ⟨?_, ?_, ?_⟩
  · intro r hm
    simp [AddParticipantBox.init] at hm
  · intro k hk
    simp [AddParticipantBox.init, Dict.has, Dict.find] at hk
  · intro r hm
    simp [AddParticipantBox.init] at hm

/-! ## What changes the search cache -/

theorem BannedBoxSearchController.searchDone_cache_replay (w : ParticipantsBox)
    (result : MTPchannels_ChannelParticipants) (requestedCount : Nat) :
    (BannedBoxSearchController.searchDone w 0 result requestedCount).search._cache
      = w.search._cache := by
  rw [(BannedBoxSearchController.searchDone_frame w _ _ 0 result requestedCount rfl rfl).1,
    BannedBoxSearchController.searchDone_store_cache, if_pos rfl]

theorem BannedBoxSearchController.searchQuery_cache (w : ParticipantsBox) (query : String) :
    (BannedBoxSearchController.searchQuery w query).search._cache = w.search._cache := by
  by_cases hq : w.search._query ≠ query
  · cases hne : query.isEmpty with
    | true =>
      unfold BannedBoxSearchController.searchQuery
      rw [if_pos hq]
      simp only [hne, if_true]
    | false =>
      cases hc : Dict.find w.search._cache query with
      | none => rw [BannedBoxSearchController.searchQuery_miss w query hq hne hc]
      | some it =>
        rw [BannedBoxSearchController.searchQuery_hit w _ _ query it hq hne hc rfl rfl]
        exact BannedBoxSearchController.searchDone_cache_replay _ it.result it.requestedCount
  · unfold BannedBoxSearchController.searchQuery
    rw [if_neg hq]

theorem BannedBoxSearchController.searchLoad_cache (w : ParticipantsBox) :
    (BannedBoxSearchController.loadMoreRows w).1.search._cache = w.search._cache := by
  rcases BannedBoxSearchController.loadMoreRows_cases w with ⟨-, he⟩ | ⟨-, -, he⟩ |
    ⟨-, -, -, he⟩
  · rw [he]
  · rw [he]
  · rw [he]

theorem ParticipantsBoxController.listLoad_cache (w : ParticipantsBox) :
    (ParticipantsBoxController.loadMoreRows w).search._cache = w.search._cache := by
  rw [ParticipantsBoxController.listLoad_eq]
  by_cases c1 : w._role ≠ Role.Admins ∧ w.search._query.isEmpty = false
  · rw [if_pos c1]
    exact BannedBoxSearchController.searchLoad_cache w
  · rw [if_neg c1]
    by_cases c2 : (w._loadRequestId != 0 || w._allLoaded) = true
    · rw [if_pos c2]
    · rw [if_neg c2]

theorem ParticipantsBoxController.listDone_cache (w : ParticipantsBox)
    (result : MTPchannels_ChannelParticipants) :
    (ParticipantsBoxController.loadMoreRows_done w result).search._cache = w.search._cache := by
  unfold ParticipantsBoxController.loadMoreRows_done
  simp only []
  split
  · rfl
  · obtain ⟨a, rows, off, he⟩ := ParticipantsBoxController.loadMoreRows_loop_frame
      result.participants
      { w with _loadRequestId := 0, users := feedUsers w.users result.users }
    rw [he]

/-- Only the response to a search request can change the cache of the banned search. -/
theorem ParticipantsBox.handle_cache (env : Env) (w w' : ParticipantsBox)
    (e : ParticipantsEvent) (he : w.handle env e = some w') :
    w'.search._cache = w.search._cache
    ∨ ∃ requestId result r, e = .done requestId result ∧ w.findRequest requestId = some r
        ∧ r.handlers = Handlers.search
        ∧ w' = BannedBoxSearchController.searchDone (w.dropRequest requestId) requestId result
            kParticipantsPerPage := by
  cases e with
  | searchQuery query =>
    simp only [ParticipantsBox.handle] at he
    split at he
    · simp at he
    · simp only [Option.some.injEq] at he
      rw [← he]
      exact Or.inl (BannedBoxSearchController.searchQuery_cache w query)
  | timer =>
    simp only [ParticipantsBox.handle, BannedBoxSearchController.searchOnServer] at he
    split at he
    · split at he
      · simp at he
      · simp only [Option.some.injEq] at he
        rw [← he]
        exact Or.inl (BannedBoxSearchController.searchLoad_cache _)
    · simp at he
  | loadMoreRows =>
    simp only [ParticipantsBox.handle, Option.some.injEq] at he
    rw [← he]
    exact Or.inl (ParticipantsBoxController.listLoad_cache w)
  | searchLoadMoreRows =>
    simp only [ParticipantsBox.handle] at he
    split at he
    · simp at he
    · simp only [Option.some.injEq] at he
      rw [← he]
      exact Or.inl (BannedBoxSearchController.searchLoad_cache w)
  | done requestId result =>
    simp only [ParticipantsBox.handle] at he
    cases hf : w.findRequest requestId with
    | none => simp [hf] at he
    | some r =>
      simp only [hf] at he
      cases hh : r.handlers with
      | list =>
        simp only [hh, Option.some.injEq] at he
        rw [← he]
        exact Or.inl (ParticipantsBoxController.listDone_cache _ result)
      | search =>
        simp only [hh, Option.some.injEq] at he
        exact Or.inr ⟨requestId, result, r, rfl, hf, hh, he.symm⟩
  | fail requestId =>
    simp only [ParticipantsBox.handle] at he
    cases hf : w.findRequest requestId with
    | none => simp [hf] at he
    | some r =>
      simp only [hf] at he
      cases hh : r.handlers with
      | list =>
        simp only [hh, Option.some.injEq] at he
        rw [← he]
        exact Or.inl rfl
      | search =>
        simp only [hh, Option.some.injEq] at he
        rw [← he]
        left
        unfold BannedBoxSearchController.loadMoreRows_fail
        split <;> rfl
  | editAdminDone user rights =>
    simp only [ParticipantsBox.handle, Option.some.injEq] at he
    obtain ⟨a, rows, hfr⟩ := (ParticipantsBoxController.edit_frame env w user rights
      { flags := 0, until_date := 0 }).1
    rw [← he, hfr]
    exact Or.inl rfl
  | editRestrictedDone user rights =>
    simp only [ParticipantsBox.handle, Option.some.injEq] at he
    obtain ⟨a, rows, hfr⟩ := (ParticipantsBoxController.edit_frame env w user { flags := 0 }
      rights).2
    rw [← he, hfr]
    exact Or.inl rfl

theorem AddParticipantBoxSearchController.searchParticipantsDone_cache_replay (env : Env)
    (v v' : AddParticipantBox) (result : MTPchannels_ChannelParticipants)
    (requestedCount : Nat)
    (hv' : AddParticipantBoxSearchController.searchParticipantsDone env v 0 result
      requestedCount = some v') :
    v'.search._participantsCache = v.search._participantsCache := by
  rw [(AddParticipantBoxSearchController.searchParticipantsDone_frame env v v' _ 0 result
      requestedCount hv' rfl).1,
    AddParticipantBoxSearchController.searchParticipantsDone_store_cache, if_pos rfl]

theorem AddParticipantBoxSearchController.searchQuery_cacheAdd (env : Env)
    (v v' : AddParticipantBox) (query : String)
    (hv' : AddParticipantBoxSearchController.searchQuery env v query = some v') :
    v'.search._participantsCache = v.search._participantsCache := by
  by_cases hq : v.search._query ≠ query
  · cases hne : query.isEmpty with
    | true =>
      unfold AddParticipantBoxSearchController.searchQuery at hv'
      rw [if_pos hq] at hv'
      simp only [hne, if_true, Option.some.injEq] at hv'
      rw [← hv']
    | false =>
      cases hc : Dict.find v.search._participantsCache query with
      | none =>
        rw [AddParticipantBoxSearchController.searchQuery_missAdd env v query hq hne hc] at hv'
        simp only [Option.some.injEq] at hv'
        rw [← hv']
      | some it =>
        rw [AddParticipantBoxSearchController.searchQuery_hitAdd env v _ query it hq hne hc rfl]
          at hv'
        cases hd : AddParticipantBoxSearchController.searchParticipantsDone env { v with search := { v.search with _query := query, _offset := 0, _requestId := 0, _participantsLoaded := false, _chatsContactsAdded := false, _globalLoaded := false } } 0 it.result it.requestedCount with
        | none => rw [hd] at hv'; simp at hv'
        | some v1 =>
          rw [hd] at hv'
          simp only [Option.map_some', Option.some.injEq] at hv'
          rw [← hv']
          have hrep := AddParticipantBoxSearchController.searchParticipantsDone_cache_replay env
            _ v1 it.result it.requestedCount hd
          exact hrep
  · unfold AddParticipantBoxSearchController.searchQuery at hv'
    rw [if_neg hq] at hv'
    simp only [Option.some.injEq] at hv'
    rw [← hv']

theorem AddParticipantBoxSearchController.searchLoad_cacheAdd (env : Env)
    (v : AddParticipantBox) :
    (AddParticipantBoxSearchController.loadMoreRows env v).1.search._participantsCache
      = v.search._participantsCache :=
  (AddParticipantBoxSearchController.loadMoreRows_frame env v).2.2.2.2.2.2.2.2.2.2.2.2.1

theorem AddParticipantBoxController.listLoad_cacheAdd (env : Env) (v : AddParticipantBox) :
    (AddParticipantBoxController.loadMoreRows env v).search._participantsCache
      = v.search._participantsCache := by
  rw [AddParticipantBoxController.loadMoreRows_eq_add]
  by_cases c1 : v.search._query.isEmpty = false
  · rw [if_pos c1]
    exact AddParticipantBoxSearchController.searchLoad_cacheAdd env v
  · rw [if_neg c1]
    by_cases c2 : (v._loadRequestId != 0 || v._allLoaded) = true
    · rw [if_pos c2]
    · rw [if_neg c2]

theorem AddParticipantBoxController.listDone_cacheAdd (env : Env) (v v' : AddParticipantBox)
    (result : MTPchannels_ChannelParticipants)
    (hv' : AddParticipantBoxController.loadMoreRows_done env v result = some v') :
    v'.search._participantsCache = v.search._participantsCache := by
  unfold AddParticipantBoxController.loadMoreRows_done at hv'
  simp only [] at hv'
  split at hv'
  · simp only [Option.some.injEq] at hv'
    rw [← hv']
  · obtain ⟨a, rows, off, he⟩ := AddParticipantBoxController.listLoop_frame env _ _ _ hv'
    rw [he]

/-- Only the response to a participants request can change the participants cache of
the add-participant search. -/
theorem AddParticipantBox.handle_cacheAdd (env : Env) (v v' : AddParticipantBox)
    (e : AddParticipantEvent) (he : v.handle env e = some v') :
    v'.search._participantsCache = v.search._participantsCache
    ∨ ∃ requestId result r, e = .done requestId result ∧ v.findRequest requestId = some r
        ∧ r.handlers = AddHandlers.participants
        ∧ AddParticipantBoxSearchController.searchParticipantsDone env
            (v.dropRequest requestId) requestId result kParticipantsPerPage = some v' := by
  cases e with
  | searchQuery query =>
    simp only [AddParticipantBox.handle] at he
    exact Or.inl (AddParticipantBoxSearchController.searchQuery_cacheAdd env v v' query he)
  | timer =>
    simp only [AddParticipantBox.handle, AddParticipantBoxSearchController.searchOnServer] at he
    split at he
    · split at he
      · simp at he
      · simp only [Option.some.injEq] at he
        rw [← he]
        exact Or.inl (AddParticipantBoxSearchController.searchLoad_cacheAdd env _)
    · simp at he
  | loadMoreRows =>
    simp only [AddParticipantBox.handle, Option.some.injEq] at he
    rw [← he]
    exact Or.inl (AddParticipantBoxController.listLoad_cacheAdd env v)
  | searchLoadMoreRows =>
    simp only [AddParticipantBox.handle, Option.some.injEq] at he
    rw [← he]
    exact Or.inl (AddParticipantBoxSearchController.searchLoad_cacheAdd env v)
  | done requestId result =>
    simp only [AddParticipantBox.handle] at he
    cases hf : v.findRequest requestId with
    | none => simp [hf] at he
    | some r =>
      simp only [hf] at he
      cases hh : r.handlers with
      | list =>
        simp only [hh] at he
        have hdone := AddParticipantBoxController.listDone_cacheAdd env _ v' result he
        exact Or.inl hdone
      | participants =>
        simp only [hh] at he
        exact Or.inr ⟨requestId, result, r, rfl, hf, hh, he⟩
      | global => simp [hh] at he
  | doneFound requestId result =>
    simp only [AddParticipantBox.handle] at he
    cases hf : v.findRequest requestId with
    | none => simp [hf] at he
    | some r =>
      simp only [hf] at he
      cases hh : r.handlers with
      | list => simp [hh] at he
      | participants => simp [hh] at he
      | global =>
        simp only [hh, Option.some.injEq] at he
        obtain ⟨users, a, rows, cache, queries, rid, loaded, hg⟩ :=
          AddParticipantBoxSearchController.searchGlobalDone_shape (v.dropRequest requestId)
            requestId result
        rw [← he, hg]
        exact Or.inl rfl
  | fail requestId =>
    simp only [AddParticipantBox.handle] at he
    cases hf : v.findRequest requestId with
    | none => simp [hf] at he
    | some r =>
      simp only [hf] at he
      cases hh : r.handlers with
      | list =>
        simp only [hh, Option.some.injEq] at he
        rw [← he]
        exact Or.inl rfl
      | participants =>
        simp only [hh, Option.some.injEq] at he
        rw [← he]
        left
        unfold AddParticipantBoxSearchController.requestParticipants_fail
        split
        · exact AddParticipantBoxSearchController.searchLoad_cacheAdd env _
        · rfl
      | global =>
        simp only [hh, Option.some.injEq] at he
        rw [← he]
        left
        unfold AddParticipantBoxSearchController.requestGlobal_fail
        split <;> rfl
  | editAdminDone user rights =>
    simp only [AddParticipantBox.handle, Option.some.injEq] at he
    rw [← he]
    exact Or.inl rfl
  | editRestrictedDone user rights =>
    simp only [AddParticipantBox.handle, Option.some.injEq] at he
    rw [← he]
    exact Or.inl rfl

theorem ParticipantsBox.response_cache (env : Env) (w : ParticipantsBox)
    (hw : ParticipantsBox.Reachable env w) (requestId : Nat)
    (result : MTPchannels_ChannelParticipants) (r : Request)
    (hf : w.findRequest requestId = some r) (hh : r.handlers = Handlers.search) :
    (r.offset = 0 →
      Dict.find (BannedBoxSearchController.searchDone (w.dropRequest requestId) requestId result
          kParticipantsPerPage).search._cache r.filter.text
        = some { result := result, requestedCount := r.limit })
    ∧ (r.offset ≠ 0 →
      (BannedBoxSearchController.searchDone (w.dropRequest requestId) requestId result
          kParticipantsPerPage).search._cache = w.search._cache)
    ∧ (∀ q, q ≠ r.filter.text →
      Dict.find (BannedBoxSearchController.searchDone (w.dropRequest requestId) requestId result
          kParticipantsPerPage).search._cache q = Dict.find w.search._cache q) := by
  obtain ⟨hm, hid⟩ := ParticipantsBox.findRequest_some hf
  obtain ⟨hentry, hlim⟩ := (ParticipantsBox.reachable_pending env w hw).2.2 r hm hh
  have hne : requestId ≠ 0 := by
    rw [← hid]
    exact ((ParticipantsBox.reachable_inv env w hw).1.2.1 r hm).1
  rw [hid] at hentry
  have hc := BannedBoxSearchController.searchDone_cache_of_entry (w.dropRequest requestId)
    requestId result kParticipantsPerPage { text := r.filter.text, offset := r.offset } hne hentry
  rw [hlim]
  exact hc

theorem AddParticipantBox.response_cacheAdd (env : Env) (v v' : AddParticipantBox)
    (hv : AddParticipantBox.Reachable env v) (requestId : Nat)
    (result : MTPchannels_ChannelParticipants) (r : AddRequest)
    (hf : v.findRequest requestId = some r) (hh : r.handlers = AddHandlers.participants)
    (hv' : AddParticipantBoxSearchController.searchParticipantsDone env
      (v.dropRequest requestId) requestId result kParticipantsPerPage = some v') :
    (r.offset = 0 → Dict.find v'.search._participantsCache r.query
      = some { result := result, requestedCount := r.limit })
    ∧ (r.offset ≠ 0 → v'.search._participantsCache = v.search._participantsCache)
    ∧ (∀ q, q ≠ r.query → Dict.find v'.search._participantsCache q
        = Dict.find v.search._participantsCache q) := by
  obtain ⟨hm, hid⟩ := AddParticipantBox.findRequest_found hf
  obtain ⟨hentry, hlim⟩ := (AddParticipantBox.reachable_pendingAdd env v hv).2.2 r hm hh
  have hne : requestId ≠ 0 := by
    rw [← hid]
    exact ((AddParticipantBox.reachable_keeps env v hv).1.2.1 r hm).1
  rw [hid] at hentry
  have hc := AddParticipantBoxSearchController.searchParticipantsDone_cache_of_entry env
    (v.dropRequest requestId) v' requestId result kParticipantsPerPage
    { text := r.query, offset := r.offset } hne hentry hv'
  rw [hlim]
  exact hc

/-- C3 (amended): in every state the dialogs can reach, the search cache changes only
when the response to a search request arrives, and then only for the query the request
was sent for and only if the request was sent at offset 0: that query's entry becomes
the received result together with the count that was requested. A response to a request
sent at a later offset leaves the cache as it is. This holds for the cache of
BannedBoxSearchController and for the participants cache of
AddParticipantBoxSearchController, whose handler returns whenever the participants
have the types it handles. -/
theorem search_cache_holds_first_page (env : Env) (w : ParticipantsBox) (v : AddParticipantBox)
    (hw : ParticipantsBox.Reachable env w) (hv : AddParticipantBox.Reachable env v) :
    (∀ e w', w.handle env e = some w' → ∀ q,
        Dict.find w'.search._cache q = Dict.find w.search._cache q
        ∨ ∃ requestId result r, e = .done requestId result ∧ w.findRequest requestId = some r
            ∧ r.handlers = Handlers.search ∧ r.offset = 0 ∧ r.filter.text = q
            ∧ Dict.find w'.search._cache q
                = some { result := result, requestedCount := r.limit })
    ∧ (∀ requestId result r, w.findRequest requestId = some r → r.handlers = Handlers.search →
        ∃ w', w.handle env (.done requestId result) = some w'
          ∧ (r.offset = 0 → Dict.find w'.search._cache r.filter.text
              = some { result := result, requestedCount := r.limit })
          ∧ (r.offset ≠ 0 → w'.search._cache = w.search._cache))
    ∧ (∀ e v', v.handle env e = some v' → ∀ q,
        Dict.find v'.search._participantsCache q = Dict.find v.search._participantsCache q
        ∨ ∃ requestId result r, e = .done requestId result ∧ v.findRequest requestId = some r
            ∧ r.handlers = AddHandlers.participants ∧ r.offset = 0 ∧ r.query = q
            ∧ Dict.find v'.search._participantsCache q
                = some { result := result, requestedCount := r.limit })
    ∧ (∀ requestId result r, v.findRequest requestId = some r →
        r.handlers = AddHandlers.participants →
        ((∀ p ∈ result.participants, p.expected = true) →
          (v.handle env (.done requestId result)).isSome = true)
        ∧ ∀ v', v.handle env (.done requestId result) = some v' →
            (r.offset = 0 → Dict.find v'.search._participantsCache r.query
              = some { result := result, requestedCount := r.limit })
            ∧ (r.offset ≠ 0 → v'.search._participantsCache = v.search._participantsCache)) := by
  refine ⟨?_, ?_, ?_, ?_⟩
  · intro e w' he q
    rcases ParticipantsBox.handle_cache env w w' e he with hc | ⟨requestId, result, r, h1, h2, h3, h4⟩
    · exact Or.inl (by rw [hc])
    · obtain ⟨c1, c2, c3⟩ := ParticipantsBox.response_cache env w hw requestId result r h2 h3
      rw [← h4] at c1 c2 c3
      by_cases ho : r.offset = 0
      · by_cases hq : q = r.filter.text
        · right
          refine ⟨requestId, result, r, h1, h2, h3, ho, hq.symm, ?_⟩
          rw [hq]
          exact c1 ho
        · exact Or.inl (c3 q hq)
      · exact Or.inl (by rw [c2 ho])
  · intro requestId result r hf hh
    obtain ⟨c1, c2, -⟩ := ParticipantsBox.response_cache env w hw requestId result r hf hh
    refine ⟨_, ?_, c1, c2⟩
    simp only [ParticipantsBox.handle, hf, hh]
  · intro e v' he q
    rcases AddParticipantBox.handle_cacheAdd env v v' e he with
      hc | ⟨requestId, result, r, h1, h2, h3, h4⟩
    · exact Or.inl (by rw [hc])
    · obtain ⟨c1, c2, c3⟩ :=
        AddParticipantBox.response_cacheAdd env v v' hv requestId result r h2 h3 h4
      by_cases ho : r.offset = 0
      · by_cases hq : q = r.query
        · right
          refine ⟨requestId, result, r, h1, h2, h3, ho, hq.symm, ?_⟩
          rw [hq]
          exact c1 ho
        · exact Or.inl (c3 q hq)
      · exact Or.inl (by rw [c2 ho])
  · intro requestId result r hf hh
    constructor
    · intro hexp
      simp only [AddParticipantBox.handle, hf, hh]
      exact AddParticipantBoxSearchController.searchParticipantsDone_isSome env _ requestId
        result _ hexp
    · intro v' he
      simp only [AddParticipantBox.handle, hf, hh] at he
      obtain ⟨c1, c2, -⟩ :=
        AddParticipantBox.response_cacheAdd env v v' hv requestId result r hf hh he
      exact ⟨c1, c2⟩

set_option maxRecDepth 100000 in
theorem search_cache_holds_first_page_witness :
    ParticipantsBox.Reachable sampleEnv sampleBannedPending
    ∧ AddParticipantBox.Reachable sampleEnv sampleAddPending
    ∧ sampleBannedPending.findRequest 1
        = some { id := 1, handlers := Handlers.search, filter := Filter.Banned "a", offset := 0, limit := 200 }
    ∧ ∃ w', sampleBannedPending.handle sampleEnv (.done 1 samplePage2) = some w'
        ∧ ((0 : Nat) = 0 → Dict.find w'.search._cache "a"
            = some { result := samplePage2, requestedCount := 200 })
        ∧ ((0 : Nat) ≠ 0 → w'.search._cache = sampleBannedPending.search._cache) :=
  ⟨sampleBannedPending_reachable, sampleAddPending_reachable, by decide,
   (search_cache_holds_first_page sampleEnv sampleBannedPending sampleAddPending
      sampleBannedPending_reachable sampleAddPending_reachable).2.1 1 samplePage2
      { id := 1, handlers := Handlers.search, filter := Filter.Banned "a", offset := 0, limit := 200 }
      (by decide) rfl⟩

end Profile
